import Mathlib

/-!
# MDBT53 camera controller (`CameraServerTest/MDBT53/src/main.c`)

A shallow embedding of the capture cycle of the controller: the UART interrupt
handler that files incoming bytes into the text buffer or the JPEG buffer, the
`receive_jpeg` framer (header wait, payload wait, end-marker and checksum
check), the XOR checksum, the chunked save to the SD card and the recovery of
the file counter from the directory listing.

Conventions of the embedding.

* Bytes are natural numbers below 256; C strings and buffers are lists of
  bytes.  `uart_rx_buf` and `jpeg_buffer` are the whole arrays (2048 and
  524288 bytes in a well-formed state).
* The interrupt handler runs while the main loop sleeps: every `k_msleep`
  takes the next batch of arriving bytes from the world and feeds it to
  `uart_isr`.
* The storage calls are answered by the caller of the model: the result of
  `fs_open` and, for the n-th `fs_write` of a save, the value it returns.
  The calls the program makes are recorded in a trace.
* The target is a 32-bit core: `int` is 32 bits wide, `size_t` and `uint32_t`
  are taken modulo `2 ^ 32`.
* The two polling loops of `receive_jpeg` and the write loop of
  `save_jpeg_to_sd` are `while` loops and take fuel; `none` means the fuel ran
  out before the loop was left.
-/

namespace CameraCtrl

/-! ## Configuration and protocol constants -/

/-- Bytes of a string literal. -/
def bytes (s : String) : List Nat := s.toList.map Char.toNat

def UART_BUF_SIZE : Nat := 2048
def JPEG_MAX_SIZE : Nat := 512 * 1024
def CAPTURE_INTERVAL_SEC : Nat := 60

/-- The command `"CAP\n"`. -/
def CMD_CAPTURE : List Nat := [67, 65, 80, 10]
/-- The marker `"IMG:"`. -/
def RESP_IMG : List Nat := [73, 77, 71, 58]
/-- The marker `"END:"`. -/
def RESP_END : List Nat := [69, 78, 68, 58]
/-- The marker `"ERR:"`. -/
def RESP_ERR : List Nat := [69, 82, 82, 58]
/-- The five bytes `"\nEND:"` that `receive_jpeg` compares with `memcmp`. -/
def END_PATTERN : List Nat := 10 :: RESP_END

/-- Values of the `errno` codes the program returns (negated). -/
def EIO : Int := 5
def EINVAL : Int := 22
def ENODATA : Int := 61
def ETIMEDOUT : Int := 116

def INT_MAX : Int := 2147483647
def INT_MIN : Int := -2147483648
/-- Modulus of `size_t` and `uint32_t` on the target. -/
def WORD : Nat := 2 ^ 32

/-- Conversion of an `int` to `size_t` / `uint32_t`. -/
def to_u32 (i : Int) : Nat := (i % (WORD : Int)).toNat

/-- Reading a `uint32_t` as an `int` (what `%d` does with it). -/
def to_i32 (n : Nat) : Int := if n % WORD < 2 ^ 31 then ((n % WORD : Nat) : Int) else ((n % WORD : Nat) : Int) - (WORD : Int)

/-! ## The C library functions the program calls -/

/-- The C `isspace` in the "C" locale: space, `\t`, `\n`, `\v`, `\f`, `\r`. -/
def isspace (c : Nat) : Bool := c == 32 || (9 ≤ c && c ≤ 13)

/-- The C `isdigit`. -/
def isdigit (c : Nat) : Bool := 48 ≤ c && c ≤ 57

/-- Value of a hexadecimal digit character, if it is one. -/
def hexval (c : Nat) : Option Nat :=
  if 48 ≤ c ∧ c ≤ 57 then some (c - 48)
  else if 65 ≤ c ∧ c ≤ 70 then some (c - 55)
  else if 97 ≤ c ∧ c ≤ 102 then some (c - 87)
  else none

/-- The string a `char *` into an array denotes: the bytes up to the first NUL
(or up to the end of the array). -/
def cstr (buf : List Nat) : List Nat := buf.takeWhile (fun c => c != 0)

/-- The C `strstr`: offset of the first occurrence of `needle` in `hay`. -/
def strstr : List Nat → List Nat → Option Nat
  | [], needle => if needle = [] then some 0 else none
  | c :: hay, needle =>
    if needle.isPrefixOf (c :: hay) then some 0
    else (strstr hay needle).map (· + 1)

/-- The C `strchr`, as a test: does `c` occur in the string. -/
def strchr (s : List Nat) (c : Nat) : Bool := s.contains c

/-- Value of a run of decimal digit characters. -/
def decimal_value (ds : List Nat) : Nat := ds.foldl (fun acc d => acc * 10 + (d - 48)) 0

/-- The C `strtol(s, NULL, 10)` on a 32-bit `long`: leading white space, an
optional sign, then decimal digits; a value out of range is clamped to
`LONG_MIN` / `LONG_MAX`. -/
def strtol10 (s : List Nat) : Int :=
  let s := s.dropWhile isspace
  let neg := s.head? = some 45
  let s := if s.head? = some 45 ∨ s.head? = some 43 then s.tail else s
  let v : Int := (decimal_value (s.takeWhile isdigit) : Nat)
  if neg then max (-v) INT_MIN else min v INT_MAX

/-- The C `atoi`, which newlib and picolibc define as `(int) strtol(s, NULL, 10)`. -/
def atoi (s : List Nat) : Int := strtol10 s

/-- The call `sscanf(p, "%02hhX", &x) == 1`: the converted byte when the
conversion succeeds.  White space is skipped, then at most two characters are
read: an optional sign, an optional `0x`, hexadecimal digits.  The `hh` length
stores the value modulo 256. -/
def sscanf_02hhX (p : List Nat) : Option Nat :=
  match p.dropWhile isspace with
  | [] => none
  | c :: rest =>
    if c = 45 ∨ c = 43 then
      match rest with
      | [] => none
      | d :: _ =>
        match hexval d with
        | none => none
        | some v => some (if c = 45 then (256 - v) % 256 else v)
    else
      match hexval c with
      | none => none
      | some v1 =>
        match rest with
        | [] => some v1
        | d :: _ =>
          if c = 48 ∧ (d = 120 ∨ d = 88) then some 0
          else
            match hexval d with
            | none => some v1
            | some v2 => some (16 * v1 + v2)

/-- The call `sscanf(name, "photo_%d.jpg", &num) == 1`: the converted number
when the conversion succeeds.  The literal `photo_` has to match; `%d` skips
white space and reads an optionally signed decimal number.  What follows the
number does not change the count of conversions. -/
def sscanf_photo (name : List Nat) : Option Int :=
  if [112, 104, 111, 116, 111, 95].isPrefixOf name then
    let s := (name.drop 6).dropWhile isspace
    let t := if s.head? = some 45 ∨ s.head? = some 43 then s.tail else s
    if (t.takeWhile isdigit) = [] then none else some (strtol10 s)
  else none

/-- Decimal digits of `n` as characters, most significant first; `fuel` bounds
their number. -/
def decimal_digits_fuel : Nat → Nat → List Nat
  | 0, _ => []
  | fuel + 1, n =>
    if n < 10 then [48 + n] else decimal_digits_fuel fuel (n / 10) ++ [48 + n % 10]

/-- Decimal digits of a number as `printf` writes them. -/
def decimal_digits (n : Nat) : List Nat := decimal_digits_fuel (n + 1) n

/-- The conversion `%04d` of `snprintf`: at least four characters, padded with
zeros on the left, the sign counted in the width. -/
def fmt_04d (i : Int) : List Nat :=
  if i < 0 then
    45 :: (List.replicate (3 - (decimal_digits i.natAbs).length) 48 ++ decimal_digits i.natAbs)
  else
    List.replicate (4 - (decimal_digits i.natAbs).length) 48 ++ decimal_digits i.natAbs

/-! ## Program state -/

/-- The global variables of `main.c`. -/
structure Globals where
  uart_rx_buf : List Nat
  uart_rx_len : Nat
  jpeg_buffer : List Nat
  jpeg_len : Nat
  file_counter : Nat
  receiving_jpeg : Bool
  jpeg_complete : Bool
  expected_jpeg_len : Nat
deriving DecidableEq, Repr

/-- The globals as the C runtime initialises them. -/
def Globals.init : Globals where
  uart_rx_buf := List.replicate UART_BUF_SIZE 0
  uart_rx_len := 0
  jpeg_buffer := List.replicate JPEG_MAX_SIZE 0
  jpeg_len := 0
  file_counter := 0
  receiving_jpeg := false
  jpeg_complete := false
  expected_jpeg_len := 0

/-- The arrays have their declared sizes. -/
structure Globals.WF (g : Globals) : Prop where
  rx_size : g.uart_rx_buf.length = UART_BUF_SIZE
  jpeg_size : g.jpeg_buffer.length = JPEG_MAX_SIZE

/-- A call the program makes on the file system. -/
inductive FsCall where
  | fs_open (name : List Nat)
  | fs_write (offset : Nat) (data : List Nat)
  | fs_close
deriving DecidableEq, Repr

/-- The three ways `receive_jpeg` reports a finished payload in the log. -/
inductive Integrity where
  | checksum_ok (checksum : Nat)
  | checksum_mismatch (received calculated : Nat)
  | end_marker_missing
deriving DecidableEq, Repr

/-- The program together with what surrounds it: the bytes that will arrive on
the UART during each coming sleep, and the traces of what the program did. -/
structure World where
  g : Globals
  rx : List (List Nat)
  slept : List Nat
  tx : List Nat
  fs : List FsCall
  log : List Integrity
deriving DecidableEq, Repr

/-! ## UART interrupt handler -/

/-- The body of the innermost loop of `uart_isr` for one received byte. -/
def isr_byte (g : Globals) (c : Nat) : Globals :=
  if g.receiving_jpeg then
    if g.jpeg_len < JPEG_MAX_SIZE then
      { g with jpeg_buffer := g.jpeg_buffer.set g.jpeg_len c, jpeg_len := g.jpeg_len + 1 }
    else g
  else
    if g.uart_rx_len < UART_BUF_SIZE - 1 then
      { g with
        uart_rx_buf := (g.uart_rx_buf.set g.uart_rx_len c).set (g.uart_rx_len + 1) 0,
        uart_rx_len := g.uart_rx_len + 1 }
    else g

/-- The handler `uart_isr` on the bytes found in the FIFO. -/
def uart_isr (g : Globals) (fifo : List Nat) : Globals := fifo.foldl isr_byte g

/-- The call `k_msleep(ms)`: the next batch of bytes arrives and is handled by the
interrupt handler while the main loop sleeps. -/
def k_msleep (ms : Nat) (w : World) : World :=
  { w with g := uart_isr w.g (w.rx.headD []), rx := w.rx.tail, slept := w.slept ++ [ms] }

/-- The function `uart_send`. -/
def uart_send (data : List Nat) (w : World) : World :=
  { w with tx := w.tx ++ cstr data }

/-! ## XOR checksum -/

/-- Local state of `calculate_checksum`: the memory it was handed and its accumulator. -/
structure ChecksumRun where
  data : List Nat
  checksum : Nat
deriving DecidableEq, Repr

/-- The `for` loop of `calculate_checksum`, from index `i`, with `n` iterations left. -/
def checksum_loop : Nat → Nat → ChecksumRun → ChecksumRun
  | 0, _, r => r
  | n + 1, i, r => checksum_loop n (i + 1) { r with checksum := (r.checksum ^^^ r.data.getD i 0) % 256 }

/-- The function `calculate_checksum(data, len)` with the memory it leaves. -/
def calculate_checksum_run (data : List Nat) (len : Nat) : ChecksumRun :=
  checksum_loop len 0 { data := data, checksum := 0 }

/-- The value `calculate_checksum(data, len)` returns. -/
def calculate_checksum (data : List Nat) (len : Nat) : Nat :=
  (calculate_checksum_run data len).checksum

/-! ## Capture request -/

/-- The function `request_capture`. -/
def request_capture (w : World) : Int × World :=
  let g := { w.g with
    uart_rx_len := 0,
    uart_rx_buf := List.replicate UART_BUF_SIZE 0,
    jpeg_len := 0,
    receiving_jpeg := false,
    jpeg_complete := false,
    expected_jpeg_len := 0 }
  (0, uart_send CMD_CAPTURE { w with g := g })

/-! ## Receiving the JPEG -/

/-- How one pass through the body of a polling loop ends. -/
inductive Poll where
  | returned (ret : Int) (w : World)
  | broke (w : World)
  | continued (w : World)
deriving DecidableEq, Repr

/-- How a loop is left: by a `return` of the function, or to the statement after it. -/
inductive Flow where
  | returned (ret : Int) (w : World)
  | fell_through (w : World)
deriving DecidableEq, Repr

/-- Body of the header loop of `receive_jpeg` after the sleep: the search for
`"IMG:"` and a newline behind it, the parse of the size, the check for `"ERR:"`. -/
def header_poll (w : World) : Poll :=
  let text := cstr w.g.uart_rx_buf
  let error_check : Poll :=
    if (strstr text RESP_ERR).isSome then .returned (- EIO) w else .continued w
  match strstr text RESP_IMG with
  | some i =>
    if strchr (text.drop i) 10 then
      let expected := to_u32 (atoi (text.drop (i + 4)))
      let w := { w with g := { w.g with expected_jpeg_len := expected } }
      if expected = 0 ∨ expected > JPEG_MAX_SIZE then
        .returned (- EINVAL) w
      else
        .broke { w with g := { w.g with receiving_jpeg := true, jpeg_len := 0, uart_rx_len := 0 } }
    else error_check
  | none => error_check

/-- The header loop of `receive_jpeg`: `while (elapsed < timeout_ms)`. -/
def header_loop (timeout_ms : Nat) : Nat → Nat → World → Option Flow
  | 0, _, _ => none
  | fuel + 1, elapsed, w =>
    if elapsed < timeout_ms then
      match header_poll (k_msleep 10 w) with
      | .returned ret w => some (.returned ret w)
      | .broke w => some (.fell_through w)
      | .continued w => header_loop timeout_ms fuel (elapsed + 10) w
    else some (.fell_through w)

/-- The `for` loop that looks for `"\nEND:"` in the last ten bytes: the first
index `i` with `jpeg_len - 10 ≤ i < jpeg_len - 4` at which `memcmp` finds the
pattern. -/
def find_end_marker (jpeg_buffer : List Nat) (jpeg_len : Nat) : Option Nat :=
  (List.range' (jpeg_len - 10) ((jpeg_len - 4) - (jpeg_len - 10))).find?
    (fun i => (jpeg_buffer.drop i).take 5 = END_PATTERN)

/-- What `receive_jpeg` does with the payload after the extra sleep: leaving
binary mode, the search for the end marker in the last ten bytes, the parse of
the checksum behind it and the comparison.  Every path returns 0 with
`jpeg_complete` set. -/
def end_marker_check (w : World) : Int × World :=
  let w := { w with g := { w.g with receiving_jpeg := false } }
  let missing : Int × World :=
    (0, { w with g := { w.g with jpeg_complete := true }, log := w.log ++ [.end_marker_missing] })
  if w.g.jpeg_len > 10 then
    match find_end_marker w.g.jpeg_buffer w.g.jpeg_len with
    | some i =>
      let w := { w with g := { w.g with jpeg_len := i } }
      match sscanf_02hhX (w.g.jpeg_buffer.drop (i + 5)) with
      | some received_checksum =>
        let calc_checksum := calculate_checksum w.g.jpeg_buffer w.g.jpeg_len
        if calc_checksum = received_checksum then
          (0, { w with g := { w.g with jpeg_complete := true },
                       log := w.log ++ [.checksum_ok calc_checksum] })
        else
          (0, { w with g := { w.g with jpeg_complete := true },
                       log := w.log ++ [.checksum_mismatch received_checksum calc_checksum] })
      | none =>
        (0, { w with g := { w.g with jpeg_complete := true }, log := w.log ++ [.end_marker_missing] })
    | none => missing
  else missing

/-- What `receive_jpeg` does once `jpeg_len >= expected_jpeg_len` has been seen:
`k_msleep(100)` to wait for the end marker, then the check. -/
def finish_payload (w : World) : Int × World :=
  end_marker_check (k_msleep 100 w)

/-- Body of the payload loop of `receive_jpeg` after the sleep.  The progress
message of the loop only writes to the log and is left out. -/
def payload_poll (w : World) : Poll :=
  if w.g.jpeg_len ≥ w.g.expected_jpeg_len then
    let r := finish_payload w
    .returned r.1 r.2
  else .continued w

/-- The payload loop of `receive_jpeg`: `while (elapsed < timeout_ms)`. -/
def payload_loop (timeout_ms : Nat) : Nat → Nat → World → Option Flow
  | 0, _, _ => none
  | fuel + 1, elapsed, w =>
    if elapsed < timeout_ms then
      match payload_poll (k_msleep 10 w) with
      | .returned ret w => some (.returned ret w)
      | .broke w => some (.fell_through w)
      | .continued w => payload_loop timeout_ms fuel (elapsed + 10) w
    else some (.fell_through w)

/-- The function `receive_jpeg`. -/
def receive_jpeg (fuel : Nat) (w : World) : Option (Int × World) :=
  let timeout_ms := 30000
  match header_loop timeout_ms fuel 0 w with
  | none => none
  | some (.returned ret w) => some (ret, w)
  | some (.fell_through w) =>
    if !w.g.receiving_jpeg then some (- ETIMEDOUT, w)
    else
      match payload_loop timeout_ms fuel 0 w with
      | none => none
      | some (.returned ret w) => some (ret, w)
      | some (.fell_through w) =>
        some (- ETIMEDOUT, { w with g := { w.g with receiving_jpeg := false } })

/-! ## Saving to the SD card -/

/-- The file name `snprintf` builds: `"/SD:/photo_%04d.jpg"` with the counter read as `int`. -/
def photo_filename (file_counter : Nat) : List Nat :=
  [47, 83, 68, 58, 47, 112, 104, 111, 116, 111, 95] ++ fmt_04d (to_i32 file_counter)
    ++ [46, 106, 112, 103]

/-- The write loop of `save_jpeg_to_sd`: `while (written < jpeg_len)`.  `wr k`
is what the `k`-th call of `fs_write` returns.  The result is the error of a
failed write, if any, and the trace. -/
def write_loop (g : Globals) (wr : Nat → Int) : Nat → Nat → Nat → List FsCall → Option (Option Int × List FsCall)
  | 0, _, _, _ => none
  | fuel + 1, k, written, fs =>
    if written < g.jpeg_len then
      let to_write := min 4096 (g.jpeg_len - written)
      let fs := fs ++ [.fs_write written ((g.jpeg_buffer.drop written).take to_write)]
      let result := wr k
      if result < 0 then some (some result, fs)
      else write_loop g wr fuel (k + 1) (written + result.toNat) fs
    else some (none, fs)

/-- The function `save_jpeg_to_sd`; `open_ret` is what `fs_open` returns. -/
def save_jpeg_to_sd (fuel : Nat) (open_ret : Int) (wr : Nat → Int) (w : World) : Option (Int × World) :=
  if !w.g.jpeg_complete ∨ w.g.jpeg_len = 0 then some (- ENODATA, w)
  else
    let filename := photo_filename w.g.file_counter
    let w := { w with fs := w.fs ++ [.fs_open filename] }
    if open_ret ≠ 0 then some (open_ret, w)
    else
      match write_loop w.g wr fuel 0 0 w.fs with
      | none => none
      | some (some result, fs) => some (result, { w with fs := fs ++ [.fs_close] })
      | some (none, fs) =>
        some (0, { w with fs := fs ++ [.fs_close],
                          g := { w.g with file_counter := (w.g.file_counter + 1) % WORD } })

/-! ## Capture cycle -/

/-- The function `capture_and_save`. -/
def capture_and_save (fuel : Nat) (open_ret : Int) (wr : Nat → Int) (w : World) : Option (Int × World) :=
  let r := request_capture w
  if r.1 ≠ 0 then some r
  else
    match receive_jpeg fuel r.2 with
    | none => none
    | some (ret, w) =>
      if ret ≠ 0 then some (ret, w)
      else save_jpeg_to_sd fuel open_ret wr w

/-! ## Recovering the file counter -/

/-- Body of the directory loop of `init_sd_card` for one entry name. -/
def scan_entry (file_counter : Nat) (name : List Nat) : Nat :=
  if (strstr name [112, 104, 111, 116, 111, 95]).isSome then
    match sscanf_photo name with
    | some num => if to_u32 num ≥ file_counter then to_u32 (num + 1) else file_counter
    | none => file_counter
  else file_counter

/-- The function `init_sd_card`.  `disk_ret`, `mount_ret` and `opendir_ret` are the
results of `disk_access_init`, `fs_mount` and `fs_opendir`; `entries` are the
names `fs_readdir` yields, as strings, the listing ending at the first empty name. -/
def init_sd_card (disk_ret mount_ret opendir_ret : Int) (entries : List (List Nat)) (g : Globals) : Int × Globals :=
  if disk_ret ≠ 0 then (disk_ret, g)
  else if mount_ret ≠ 0 then (mount_ret, g)
  else if opendir_ret = 0 then
    (0, { g with file_counter :=
      (entries.takeWhile (fun name => name ≠ [])).foldl scan_entry g.file_counter })
  else (0, g)


/-! ## Notions the statements use -/

/-- The exclusive-or fold of a byte sequence, starting from 0. -/
def xor_fold (bs : List Nat) : Nat := bs.foldl (fun acc b => acc ^^^ b) 0

/-- The header line `"IMG:<digits>\n"`. -/
def img_header (digits : List Nat) : List Nat := RESP_IMG ++ digits ++ [10]

/-- The upper-case hexadecimal digit for a value below 16. -/
def hex_upper (v : Nat) : Nat := if v < 10 then 48 + v else 55 + v

/-- The trailer `"\nEND:"`, two upper-case hexadecimal digits, `"\n"`. -/
def trailer (checksum : Nat) : List Nat :=
  END_PATTERN ++ [hex_upper (checksum / 16), hex_upper (checksum % 16), 10]

/-- What the camera sends for a payload: the bytes, then the trailer with their checksum. -/
def jpeg_frame (payload : List Nat) : List Nat := payload ++ trailer (xor_fold payload)

/-- The text holds `"IMG:"` with a newline somewhere behind it. -/
def header_seen (text : List Nat) : Prop :=
  ∃ pre post, text = pre ++ RESP_IMG ++ post ∧ 10 ∈ post

/-- The text holds `"ERR:"`. -/
def error_seen (text : List Nat) : Prop :=
  ∃ pre post, text = pre ++ RESP_ERR ++ post

/-- The five bytes of the buffer from index `i` are `"\nEND:"`. -/
def marker_at (buf : List Nat) (i : Nat) : Prop := (buf.drop i).take 5 = END_PATTERN

instance (buf : List Nat) (i : Nat) : Decidable (marker_at buf i) := by
  unfold marker_at; infer_instance

/-- The run of `receive_jpeg` from `w0` comes to the end-marker check in world
`u`: the header loop is left in binary mode, the first `k` polls of the payload
loop see fewer bytes than expected, the next poll sees the expected length, and
`u` is the world when the extra sleep of 100 ms is over. -/
def reaches_check (fuel : Nat) (w0 u : World) : Prop :=
  ∃ (w : World) (k : Nat),
    header_loop 30000 fuel 0 w0 = some (.fell_through w) ∧ w.g.receiving_jpeg = true ∧
    k < 3000 ∧ k < fuel ∧
    (∀ j < k, ((k_msleep 10)^[j + 1] w).g.jpeg_len < ((k_msleep 10)^[j + 1] w).g.expected_jpeg_len) ∧
    ((k_msleep 10)^[k + 1] w).g.expected_jpeg_len ≤ ((k_msleep 10)^[k + 1] w).g.jpeg_len ∧
    u = k_msleep 100 ((k_msleep 10)^[k + 1] w)

/-- The world at boot, with the batches of bytes that will arrive. -/
def World.boot (rx : List (List Nat)) : World :=
  { g := Globals.init, rx := rx, slept := [], tx := [], fs := [], log := [] }

/-- The world at the `n`-th poll of a polling loop entered in world `w`, as long as
the loop has not been left: `n` sleeps of 10 ms have passed. -/
def World.at_poll (w : World) (n : Nat) : World := (k_msleep 10)^[n] w

/-- The world in which the end-marker check runs when, after a capture request in
world `w`, the header for length `L` arrived during the first sleep and was
accepted, the bytes `data` arrived in binary mode, the payload was seen
complete at the poll number `polls` of the payload loop, and `rest` are the
batches still to come. -/
def world_at_check (w : World) (L : Nat) (data : List Nat) (polls : Nat) (rest : List (List Nat)) :
    World :=
  { w with
    g := { w.g with
      uart_rx_buf := img_header (decimal_digits L)
        ++ List.replicate (UART_BUF_SIZE - (img_header (decimal_digits L)).length) 0,
      uart_rx_len := 0,
      jpeg_buffer := data.take JPEG_MAX_SIZE ++ w.g.jpeg_buffer.drop (min data.length JPEG_MAX_SIZE),
      jpeg_len := min data.length JPEG_MAX_SIZE,
      receiving_jpeg := true,
      jpeg_complete := false,
      expected_jpeg_len := L },
    rx := rest,
    slept := w.slept ++ [10] ++ List.replicate polls 10 ++ [100],
    tx := w.tx ++ CMD_CAPTURE }

/-- Scenario A in small: after boot the header `"IMG:3\n"` arrives, then the payload
`"abc"` with its trailer `"\nEND:60\n"`. -/
def scenario_a : World := World.boot [img_header (decimal_digits 3), jpeg_frame [97, 98, 99], []]

/-- The world in which the end-marker check of scenario A runs. -/
def scenario_a_check : World := world_at_check scenario_a 3 (jpeg_frame [97, 98, 99]) 1 []

/-- Scenario C in small: after boot the header `"IMG:3\n"` arrives, then twelve
payload bytes and no trailer. -/
def scenario_c : World :=
  World.boot [img_header (decimal_digits 3), [1, 2, 3, 4, 5, 6, 7, 8, 9, 10, 11, 12], []]

/-- The world in which the end-marker check of scenario C runs. -/
def scenario_c_check : World :=
  world_at_check scenario_c 3 [1, 2, 3, 4, 5, 6, 7, 8, 9, 10, 11, 12] 1 []

/-- Scenario B: after boot only the header `"IMG:0\n"` arrives. -/
def scenario_b : World := World.boot [img_header (decimal_digits 0)]

/-- Scenario D: after boot nothing ever arrives. -/
def scenario_d : World := World.boot []

/-- Bytes accepted by the first `k` calls of `fs_write` of a save: what `written`
is when the `k`-th call is made, as long as no call has failed. -/
def written_after (wr : Nat → Int) : Nat → Nat
  | 0 => 0
  | k + 1 => written_after wr k + (wr k).toNat

/-- The chunk `save_jpeg_to_sd` offers to `fs_write` when `written` bytes are done. -/
def chunk_at (g : Globals) (written : Nat) : List Nat :=
  (g.jpeg_buffer.drop written).take (min 4096 (g.jpeg_len - written))

/-- The calls of `fs_write` number `k`, ..., `k + n - 1` of a save. -/
def write_calls (g : Globals) (wr : Nat → Int) (k n : Nat) : List FsCall :=
  (List.range' k n).map (fun j => FsCall.fs_write (written_after wr j) (chunk_at g (written_after wr j)))

/-- The names of the files opened in a trace, in order. -/
def opened (fs : List FsCall) : List (List Nat) :=
  fs.filterMap (fun c => match c with
    | .fs_open name => some name
    | _ => none)

/-- The artifact name for the sequence number `n`: `"/SD:/photo_"`, `n` in decimal
padded with zeros to four digits, `".jpg"`. -/
def photo_name (n : Nat) : List Nat :=
  [47, 83, 68, 58, 47, 112, 104, 111, 116, 111, 95] ++ fmt_04d (n : Int) ++ [46, 106, 112, 103]

/-- The directory entry of the artifact with sequence number `n`: `photo_name n`
without the mount point. -/
def photo_entry (n : Nat) : List Nat :=
  [112, 104, 111, 116, 111, 95] ++ fmt_04d (n : Int) ++ [46, 106, 112, 103]

/-- Consecutive calls of `save_jpeg_to_sd`.  Each call comes with the globals it
finds (the payload of the capture before it) and with the answers of the file
system; the file counter and the trace are the ones the call before left.  The
result lists what the calls returned. -/
def save_sequence (fuel : Nat) : List (Globals × Int × (Nat → Int)) → World → Option (List Int × World)
  | [], w => some ([], w)
  | (payload, open_ret, wr) :: calls, w =>
    match save_jpeg_to_sd fuel open_ret wr
        { w with g := { payload with file_counter := w.g.file_counter } } with
    | none => none
    | some (ret, w') => (save_sequence fuel calls w').map (fun r => (ret :: r.1, r.2))

/-- The world of scenario A after `receive_jpeg` has returned: three payload bytes,
`jpeg_complete` set. -/
def scenario_a_received : World :=
  { scenario_a_check with
    g := { scenario_a_check.g with receiving_jpeg := false, jpeg_len := 3, jpeg_complete := true },
    log := scenario_a_check.log ++ [.checksum_ok 96] }

/-- A store whose every `fs_write` fails with -5. -/
def failing_store : Nat → Int := fun _ => -5

/-- One past the largest of the sequence numbers, 0 when there is none. -/
def next_sequence_number (ns : List Nat) : Nat := ns.foldl (fun acc n => max acc (n + 1)) 0

/-- A directory entry: the artifact with a sequence number, or some other name. -/
def entry_name : Nat ⊕ List Nat → List Nat
  | .inl n => photo_entry n
  | .inr name => name

/-- A payload of `JPEG_MAX_SIZE` zero bytes, announced by its header and sent with its trailer. -/
def scenario_full : World :=
  World.boot [img_header (decimal_digits JPEG_MAX_SIZE),
    jpeg_frame (List.replicate JPEG_MAX_SIZE 0), []]

/-- The world in which the end-marker check of `scenario_full` runs. -/
def scenario_full_check : World :=
  world_at_check scenario_full JPEG_MAX_SIZE (jpeg_frame (List.replicate JPEG_MAX_SIZE 0)) 1 []

/-! ## Further scenarios and notions -/

/-- The world a pass through the body of a polling loop leaves. -/
def Poll.world : Poll → World
  | .returned _ w => w
  | .broke w => w
  | .continued w => w

/-- One step of the system: a byte arrives and the interrupt handler files it, or
the main loop does one of its steps. -/
inductive Step where
  | arrive (c : Nat)
  | sleep (ms : Nat)
  | mount (disk_ret mount_ret opendir_ret : Int) (entries : List (List Nat))
  | request
  | poll_header
  | poll_payload
  | give_up
  | save (fuel : Nat) (open_ret : Int) (wr : Nat → Int)

/-- What a step does to the world.  `arrive` is one pass through the innermost loop
of `uart_isr`, `sleep` a `k_msleep` with the bytes arriving meanwhile, `mount`
is `init_sd_card`, `request` is `request_capture`, `poll_header` and
`poll_payload` are the bodies of the two loops of `receive_jpeg` after their
sleep, `give_up` is the statement after the payload loop, and `save` is
`save_jpeg_to_sd` (which changes nothing it has not yet returned from). -/
def Step.apply : Step → World → World
  | .arrive c, w => { w with g := isr_byte w.g c }
  | .sleep ms, w => k_msleep ms w
  | .mount disk_ret mount_ret opendir_ret entries, w =>
    { w with g := (init_sd_card disk_ret mount_ret opendir_ret entries w.g).2 }
  | .request, w => (request_capture w).2
  | .poll_header, w => (header_poll w).world
  | .poll_payload, w => (payload_poll w).world
  | .give_up, w => { w with g := { w.g with receiving_jpeg := false } }
  | .save fuel open_ret wr, w => ((save_jpeg_to_sd fuel open_ret wr w).map Prod.snd).getD w

/-- The world after a sequence of steps. -/
def run_steps (steps : List Step) (w : World) : World := steps.foldl (fun w s => s.apply w) w

/-- The counters of both buffers are within the capacity the handler checks. -/
structure Globals.Bounded (g : Globals) : Prop where
  jpeg_len_le : g.jpeg_len ≤ JPEG_MAX_SIZE
  uart_rx_len_le : g.uart_rx_len ≤ UART_BUF_SIZE - 1

/-- The buffer the mode selects has no room for another byte. -/
def selected_buffer_full (g : Globals) : Prop :=
  (g.receiving_jpeg = true ∧ g.jpeg_len = JPEG_MAX_SIZE) ∨
  (g.receiving_jpeg = false ∧ g.uart_rx_len = UART_BUF_SIZE - 1)

/-- After boot a batch of 2050 bytes arrives: more than the text buffer holds. -/
def scenario_text_overflow : World := World.boot [List.replicate 2050 65]

instance (g : Globals) : Decidable (selected_buffer_full g) := by
  unfold selected_buffer_full; infer_instance

/-- The worlds in which the header loop of `receive_jpeg` polls: the world after
each of its sleeps, as long as the loop goes on. -/
def header_loop_polls (timeout_ms : Nat) : Nat → Nat → World → List World
  | 0, _, _ => []
  | fuel + 1, elapsed, w =>
    if elapsed < timeout_ms then
      k_msleep 10 w ::
        match header_poll (k_msleep 10 w) with
        | .continued w => header_loop_polls timeout_ms fuel (elapsed + 10) w
        | _ => []
    else []

/-- The worlds the payload loop of `receive_jpeg` passes through before the
end-marker check: the world after each of its sleeps and, once the payload is
seen complete, the world after the extra sleep of 100 ms. -/
def payload_loop_polls (timeout_ms : Nat) : Nat → Nat → World → List World
  | 0, _, _ => []
  | fuel + 1, elapsed, w =>
    if elapsed < timeout_ms then
      k_msleep 10 w ::
        if (k_msleep 10 w).g.jpeg_len ≥ (k_msleep 10 w).g.expected_jpeg_len then
          [k_msleep 100 (k_msleep 10 w)]
        else payload_loop_polls timeout_ms fuel (elapsed + 10) (k_msleep 10 w)
    else []

/-- The characters of the text between the marker `"IMG:"` at offset `i` and the
first newline behind it. -/
def between_marker_and_newline (text : List Nat) (i : Nat) : List Nat :=
  (text.drop (i + 4)).takeWhile (fun c => c != 10)

/-- The header arrives without its newline: the text is `"IMG:10"`. -/
def scenario_header_partial : World := World.boot [bytes "IMG:10"]

/-- The marker is directly followed by the newline and the digits come behind it:
the text is `"IMG:\n12"`. -/
def scenario_header_newline_first : World := World.boot [bytes "IMG:\n12"]

/-- The digits are preceded by a minus sign: the text is `"IMG:-5\n"`. -/
def scenario_header_negative : World := World.boot [bytes "IMG:-5\n"]

/-- The writes of a trace, in order: offset and data of each `fs_write`. -/
def writes (fs : List FsCall) : List (Nat × List Nat) :=
  fs.filterMap (fun c => match c with
    | .fs_write offset data => some (offset, data)
    | _ => none)

/-- Chunk number `k` of a payload of `n` bytes held in `buf`, cut at multiples of
4096: its offset and its bytes. -/
def payload_chunk (buf : List Nat) (n k : Nat) : Nat × List Nat :=
  (4096 * k, (buf.drop (4096 * k)).take (min 4096 (n - 4096 * k)))

/-- A store whose every `fs_write` accepts all the bytes it is offered, for a
payload of `n` bytes. -/
def accepting_store (n : Nat) : Nat → Int :=
  fun k => ((min 4096 (n - 4096 * k) : Nat) : Int)

/-- Header, payload `"abc"` and trailer all arrive during the first sleep after the
capture request, and nothing arrives later. -/
def scenario_early : World :=
  World.boot [img_header (decimal_digits 3) ++ [97, 98, 99] ++ trailer (xor_fold [97, 98, 99])]

/-- Two capture cycles after boot.  In the first the header `"IMG:6\n"` arrives, then
the payload `"abcdef"` with its trailer `"\nEND:07\n"`.  In the second the
header `"IMG:6\n"` arrives, then the payload `"fedcba"` and `"\nEND:"`; the
rest of the trailer is not there when the end-marker check runs. -/
def scenario_stale : World :=
  World.boot [img_header (decimal_digits 6), jpeg_frame [97, 98, 99, 100, 101, 102], [],
    img_header (decimal_digits 6), [102, 101, 100, 99, 98, 97] ++ END_PATTERN, []]

/-- The second cycle of `scenario_stale` alone, right after boot. -/
def scenario_stale_fresh : World :=
  World.boot [img_header (decimal_digits 6), [102, 101, 100, 99, 98, 97] ++ END_PATTERN, []]

/-- Two calls of `capture_and_save` in a row, as the main loop makes them. -/
def two_cycles (fuel : Nat) (open_ret : Int) (wr : Nat → Int) (w : World) : Option (Int × World) :=
  (capture_and_save fuel open_ret wr w).bind (fun r => capture_and_save fuel open_ret wr r.2)

/-- A store that accepts no byte: every `fs_write` returns 0, as on a full volume. -/
def stalled_store : Nat → Int := fun _ => 0

/-- Scenario A with the second payload byte corrupted on the way: `"aXc"` arrives
with the trailer `"\nEND:60\n"` of `"abc"`. -/
def scenario_corrupted : World :=
  World.boot [img_header (decimal_digits 3), [97, 88, 99] ++ trailer (xor_fold [97, 98, 99]), []]

/-- A payload of one byte, corrupted on the way: `"b"` arrives with the trailer
`"\nEND:61\n"` of `"a"`. -/
def scenario_corrupted_short : World :=
  World.boot [img_header (decimal_digits 1), [98] ++ trailer (xor_fold [97]), []]

/-- An acknowledgement line and, behind it in the same batch, the header `"IMG:5\n"`:
the text is `"OK:ready\nIMG:5\n"`. -/
def scenario_ok_then_header : World := World.boot [bytes "OK:ready\nIMG:5\n"]

/-- A bare marker with its newline and, behind it, the header `"IMG:5\n"`: the text is
`"IMG:\nIMG:5\n"`. -/
def scenario_header_behind_marker : World := World.boot [bytes "IMG:\nIMG:5\n"]

/-- A NUL byte and, behind it, the header `"IMG:5\n"`: the buffer holds the header,
the C string in it is empty. -/
def scenario_header_behind_nul : World := World.boot [0 :: bytes "IMG:5\n"]

/-- An acknowledgement line and the header `"IMG:3\n"` arrive during the first sleep,
then the payload `"abc"` with its trailer. -/
def scenario_ok_frame : World :=
  World.boot [bytes "OK:ready\n" ++ img_header (decimal_digits 3), jpeg_frame [97, 98, 99], []]

/-- The world of `scenario_ok_frame` when the header has been accepted at the first poll. -/
def scenario_ok_frame_accepted : World :=
  { (request_capture scenario_ok_frame).2.at_poll (0 + 1) with
    g := { ((request_capture scenario_ok_frame).2.at_poll (0 + 1)).g with
      expected_jpeg_len := 3, receiving_jpeg := true, jpeg_len := 0, uart_rx_len := 0 } }

/-- An acknowledgement line and the header `"IMG:3\n"` arrive during the first sleep,
then the payload `"abc"` corrupted to `"aXc"` with the trailer of `"abc"`. -/
def scenario_ok_corrupted : World :=
  World.boot [bytes "OK:ready\n" ++ img_header (decimal_digits 3),
    [97, 88, 99] ++ trailer (xor_fold [97, 98, 99]), []]

/-- The world of `scenario_ok_corrupted` when the header has been accepted at the first poll. -/
def scenario_ok_corrupted_accepted : World :=
  { (request_capture scenario_ok_corrupted).2.at_poll (0 + 1) with
    g := { ((request_capture scenario_ok_corrupted).2.at_poll (0 + 1)).g with
      expected_jpeg_len := 3, receiving_jpeg := true, jpeg_len := 0, uart_rx_len := 0 } }

/-- The world in which the end-marker check of `scenario_corrupted` runs. -/
def scenario_corrupted_check : World :=
  world_at_check scenario_corrupted 3 ([97, 88, 99] ++ trailer (xor_fold [97, 98, 99])) 1 []

/-- Scenario A with another checksum declared: `"abc"` arrives with the trailer
`"\nEND:61\n"`, while the XOR of `"abc"` is `0x60`. -/
def scenario_wrong_sum : World :=
  World.boot [img_header (decimal_digits 3), [97, 98, 99] ++ trailer 97, []]

/-- The world in which the end-marker check of `scenario_wrong_sum` runs. -/
def scenario_wrong_sum_check : World :=
  world_at_check scenario_wrong_sum 3 ([97, 98, 99] ++ trailer 97) 1 []


/-! ## The checksum loop -/

theorem checksum_loop_data (n i : Nat) (r : ChecksumRun) : (checksum_loop n i r).data = r.data := by
  induction n generalizing i r with
  | zero => rfl
  | succ n ih => simp [checksum_loop, ih]

theorem xor_byte_lt {a b : Nat} (ha : a < 256) (hb : b < 256) : a ^^^ b < 256 := by
  have := @Nat.xor_lt_two_pow a b 8 (by simpa using ha) (by simpa using hb)
  simpa using this

theorem foldl_xor_lt (bs : List Nat) (acc : Nat) (hacc : acc < 256) (hbs : ∀ b ∈ bs, b < 256) :
    bs.foldl (fun acc b => acc ^^^ b) acc < 256 := by
  induction bs generalizing acc with
  | nil => simpa using hacc
  | cons b bs ih =>
    simp only [List.foldl_cons]
    exact ih _ (xor_byte_lt hacc (hbs b (by simp))) (fun c hc => hbs c (by simp [hc]))

theorem xor_fold_lt (bs : List Nat) (hbs : ∀ b ∈ bs, b < 256) : xor_fold bs < 256 :=
  foldl_xor_lt bs 0 (by norm_num) hbs

theorem checksum_loop_eq (n i : Nat) (r : ChecksumRun) (hlen : i + n ≤ r.data.length)
    (hacc : r.checksum < 256) (hbytes : ∀ b ∈ (r.data.drop i).take n, b < 256) :
    (checksum_loop n i r).checksum
      = ((r.data.drop i).take n).foldl (fun acc b => acc ^^^ b) r.checksum := by
  induction n generalizing i r with
  | zero => simp [checksum_loop]
  | succ n ih =>
    have hi : i < r.data.length := by omega
    have hget : r.data.getD i 0 = r.data[i] := by
      simp [List.getD_eq_getElem?_getD, List.getElem?_eq_getElem hi]
    have hsplit : (r.data.drop i).take (n + 1) = r.data[i] :: (r.data.drop (i + 1)).take n := by
      rw [List.drop_eq_getElem_cons hi, List.take_succ_cons]
    rw [hsplit] at hbytes
    have hb : r.data[i] < 256 := hbytes _ (by simp)
    have hx : r.checksum ^^^ r.data[i] < 256 := xor_byte_lt hacc hb
    rw [checksum_loop, ih (i + 1) _ (by simpa using (by omega : i + 1 + n ≤ r.data.length))
      (by simpa [hget] using Nat.mod_lt _ (by norm_num))
      (by intro b hb'; exact hbytes b (by simp only [List.mem_cons]; exact Or.inr hb'))]
    simp only [hget, Nat.mod_eq_of_lt hx]
    rw [hsplit, List.foldl_cons]

/-- The checksum of a prefix whose bytes are below 256 is its exclusive-or fold;
what lies behind the prefix in the array does not matter. -/
theorem calculate_checksum_take (data : List Nat) (len : Nat) (hlen : len ≤ data.length)
    (hbytes : ∀ b ∈ data.take len, b < 256) :
    calculate_checksum data len = xor_fold (data.take len) := by
  unfold calculate_checksum calculate_checksum_run xor_fold
  rw [checksum_loop_eq len 0 _ (by simpa using hlen) (by norm_num) (by simpa using hbytes)]
  simp

/-! ## The library functions -/

theorem strstr_of_isPrefixOf (hay needle : List Nat) (h : needle.isPrefixOf hay = true) :
    strstr hay needle = some 0 := by
  cases hay with
  | nil =>
    cases needle with
    | nil => simp [strstr]
    | cons a n => simp [List.isPrefixOf] at h
  | cons c hay => simp [strstr, h]

theorem strstr_append_left (needle post : List Nat) : strstr (needle ++ post) needle = some 0 :=
  strstr_of_isPrefixOf _ _ (by simp)

/-- Where `strstr` finds the needle, the needle stands. -/
theorem strstr_some_split (hay needle : List Nat) (i : Nat) (h : strstr hay needle = some i) :
    ∃ pre post, hay = pre ++ needle ++ post ∧ pre.length = i := by
  induction hay generalizing i with
  | nil =>
    by_cases hn : needle = []
    · subst hn
      simp [strstr] at h
      exact ⟨[], [], by simp, by simpa using h⟩
    · simp [strstr, hn] at h
  | cons c hay ih =>
    by_cases hp : needle.isPrefixOf (c :: hay) = true
    · simp [strstr, hp] at h
      obtain ⟨post, hpost⟩ := List.isPrefixOf_iff_prefix.mp hp
      exact ⟨[], post, by simpa using hpost.symm, by simpa using h⟩
    · simp only [strstr, hp, Bool.false_eq_true, ↓reduceIte, Option.map_eq_some'] at h
      obtain ⟨j, hj, hji⟩ := h
      obtain ⟨pre, post, hsplit, hlen⟩ := ih j hj
      exact ⟨c :: pre, post, by simp [hsplit], by simp [hlen, hji]⟩

/-- Where the needle stands somewhere, `strstr` finds it. -/
theorem strstr_isSome_of_split (pre needle post : List Nat) :
    (strstr (pre ++ needle ++ post) needle).isSome = true := by
  induction pre with
  | nil => simp [strstr_append_left]
  | cons c pre ih =>
    simp only [List.cons_append, strstr]
    split
    · rfl
    · simpa using ih

theorem strchr_iff (s : List Nat) (c : Nat) : strchr s c = true ↔ c ∈ s := by
  simp [strchr]

theorem decimal_value_append (xs : List Nat) (d : Nat) :
    decimal_value (xs ++ [d]) = decimal_value xs * 10 + (d - 48) := by
  simp [decimal_value, List.foldl_append]

theorem decimal_digits_fuel_value (fuel n : Nat) (h : n < fuel) :
    decimal_value (decimal_digits_fuel fuel n) = n := by
  induction fuel generalizing n with
  | zero => omega
  | succ fuel ih =>
    unfold decimal_digits_fuel
    split
    · simp [decimal_value]
    · rw [decimal_value_append, ih (n / 10) (by omega)]
      omega

theorem decimal_digits_value (n : Nat) : decimal_value (decimal_digits n) = n :=
  decimal_digits_fuel_value (n + 1) n (by omega)

theorem decimal_digits_fuel_isdigit (fuel n : Nat) :
    ∀ d ∈ decimal_digits_fuel fuel n, isdigit d = true := by
  induction fuel generalizing n with
  | zero => simp [decimal_digits_fuel]
  | succ fuel ih =>
    unfold decimal_digits_fuel
    split
    · intro d hd
      simp only [List.mem_singleton] at hd
      subst hd
      simp [isdigit]; omega
    · intro d hd
      simp only [List.mem_append, List.mem_singleton] at hd
      rcases hd with hd | hd
      · exact ih _ d hd
      · subst hd
        simp [isdigit]; omega

theorem decimal_digits_isdigit (n : Nat) : ∀ d ∈ decimal_digits n, isdigit d = true :=
  decimal_digits_fuel_isdigit _ _

theorem decimal_digits_fuel_ne_nil (fuel n : Nat) : decimal_digits_fuel (fuel + 1) n ≠ [] := by
  unfold decimal_digits_fuel
  split <;> simp

theorem decimal_digits_ne_nil (n : Nat) : decimal_digits n ≠ [] :=
  decimal_digits_fuel_ne_nil _ _

/-! ## The header poll -/

theorem isdigit_iff (d : Nat) : isdigit d = true ↔ 48 ≤ d ∧ d ≤ 57 := by
  simp [isdigit]

theorem isspace_of_isdigit (d : Nat) (h : isdigit d = true) : isspace d = false := by
  rw [isdigit_iff] at h
  simp [isspace]
  omega

theorem strtol10_digits (ds post : List Nat) (hne : ds ≠ []) (hdig : ∀ d ∈ ds, isdigit d = true) :
    strtol10 (ds ++ 10 :: post) = min ((decimal_value ds : Nat) : Int) INT_MAX := by
  cases ds with
  | nil => exact absurd rfl hne
  | cons d ds =>
    have hd : isdigit d = true := hdig d (by simp)
    have hd' := (isdigit_iff d).mp hd
    have hsp : isspace d = false := isspace_of_isdigit d hd
    have h45 : d ≠ 45 := by omega
    have h43 : d ≠ 43 := by omega
    have htw : List.takeWhile isdigit (d :: ds ++ 10 :: post) = d :: ds := by
      rw [List.takeWhile_append_of_pos hdig]
      simp [isdigit]
    unfold strtol10
    simp only [List.cons_append, List.dropWhile_cons, hsp, Bool.false_eq_true, ↓reduceIte,
      List.head?_cons, Option.some.injEq, h45, h43, or_self, decide_False]
    rw [← List.cons_append, htw]

theorem to_u32_of_nonneg (n : Nat) (h : n < WORD) : to_u32 (n : Int) = n := by
  unfold to_u32
  rw [Int.emod_eq_of_lt (by omega) (by exact_mod_cast h)]
  simp

/-- The size `header_poll` records for the header `"IMG:<digits>\n"`. -/
theorem header_size (ds : List Nat) :
    to_u32 (min ((decimal_value ds : Nat) : Int) INT_MAX) = min (decimal_value ds) 2147483647 := by
  have h : min ((decimal_value ds : Nat) : Int) INT_MAX = ((min (decimal_value ds) 2147483647 : Nat) : Int) := by
    unfold INT_MAX
    omega
  rw [h, to_u32_of_nonneg _ (by unfold WORD; omega)]

theorem img_header_text (ds post : List Nat) :
    img_header ds ++ post = RESP_IMG ++ (ds ++ 10 :: post) := by
  simp [img_header]

/-- What `header_poll` does when the text starts with the header `"IMG:<digits>\n"`. -/
theorem header_poll_header (w : World) (ds post : List Nat) (hne : ds ≠ [])
    (hdig : ∀ d ∈ ds, isdigit d = true) (htext : cstr w.g.uart_rx_buf = img_header ds ++ post) :
    header_poll w =
      if min (decimal_value ds) 2147483647 = 0 ∨ min (decimal_value ds) 2147483647 > JPEG_MAX_SIZE then
        .returned (- EINVAL)
          { w with g := { w.g with expected_jpeg_len := min (decimal_value ds) 2147483647 } }
      else
        .broke { w with g := { w.g with
          expected_jpeg_len := min (decimal_value ds) 2147483647,
          receiving_jpeg := true, jpeg_len := 0, uart_rx_len := 0 } } := by
  have hstr : strstr (img_header ds ++ post) RESP_IMG = some 0 := by
    rw [img_header_text]; exact strstr_append_left _ _
  have hchr : strchr (img_header ds ++ post) 10 = true := by
    rw [strchr_iff]; simp [img_header]
  have hdrop : List.drop 4 (img_header ds ++ post) = ds ++ 10 :: post := by
    simp [img_header, RESP_IMG]
  unfold header_poll
  simp only [htext, hstr, List.drop_zero, hchr, ↓reduceIte, Nat.zero_add, hdrop, atoi,
    strtol10_digits ds post hne hdig, header_size]

/-! ## The interrupt handler -/

theorem set_replicate_self (k j : Nat) (a : Nat) : (List.replicate k a).set j a = List.replicate k a := by
  apply List.ext_getElem?
  intro n
  simp [List.getElem?_set, List.getElem?_replicate]

theorem set_append_replicate (xs : List Nat) (k c : Nat) :
    ((xs ++ List.replicate (k + 1) 0).set xs.length c).set (xs.length + 1) 0
      = (xs ++ [c]) ++ List.replicate k 0 := by
  rw [List.set_append, if_neg (by omega), Nat.sub_self, List.replicate_succ, List.set_cons_zero,
    List.set_append, if_neg (by omega)]
  simp [set_replicate_self]

theorem isr_byte_text (g : Globals) (xs : List Nat) (c : Nat)
    (hmode : g.receiving_jpeg = false)
    (hbuf : g.uart_rx_buf = xs ++ List.replicate (UART_BUF_SIZE - xs.length) 0)
    (hlen : g.uart_rx_len = xs.length) (hfit : xs.length < UART_BUF_SIZE - 1) :
    isr_byte g c = { g with
      uart_rx_buf := (xs ++ [c]) ++ List.replicate (UART_BUF_SIZE - (xs.length + 1)) 0,
      uart_rx_len := xs.length + 1 } := by
  unfold isr_byte
  have hk : UART_BUF_SIZE - xs.length = (UART_BUF_SIZE - (xs.length + 1)) + 1 := by omega
  simp only [hmode, Bool.false_eq_true, ↓reduceIte, hlen, hfit, hbuf]
  rw [hk, set_append_replicate]

theorem uart_isr_text (bs xs : List Nat) (g : Globals)
    (hmode : g.receiving_jpeg = false)
    (hbuf : g.uart_rx_buf = xs ++ List.replicate (UART_BUF_SIZE - xs.length) 0)
    (hlen : g.uart_rx_len = xs.length) (hfit : xs.length ≤ UART_BUF_SIZE - 1) :
    uart_isr g bs = { g with
      uart_rx_buf := (xs ++ bs).take (UART_BUF_SIZE - 1)
        ++ List.replicate (UART_BUF_SIZE - ((xs ++ bs).take (UART_BUF_SIZE - 1)).length) 0,
      uart_rx_len := ((xs ++ bs).take (UART_BUF_SIZE - 1)).length } := by
  induction bs generalizing xs g with
  | nil =>
    have : (xs ++ []).take (UART_BUF_SIZE - 1) = xs := by
      simp [List.take_of_length_le hfit]
    rw [this, ← hbuf, ← hlen]
    rfl
  | cons c bs ih =>
    show uart_isr (isr_byte g c) bs = _
    by_cases hlt : xs.length < UART_BUF_SIZE - 1
    · rw [isr_byte_text g xs c hmode hbuf hlen hlt]
      have h := ih (xs ++ [c]) { g with
        uart_rx_buf := (xs ++ [c]) ++ List.replicate (UART_BUF_SIZE - (xs.length + 1)) 0,
        uart_rx_len := xs.length + 1 } hmode (by rw [List.length_append]; rfl)
        (by rw [List.length_append]; rfl) (by rw [List.length_append]; simp; omega)
      rw [h]
      simp
    · have heq : xs.length = UART_BUF_SIZE - 1 := by omega
      have hfull : isr_byte g c = g := by
        unfold isr_byte
        simp [hmode, hlen, heq]
      have h1 : (xs ++ c :: bs).take (UART_BUF_SIZE - 1) = (xs ++ bs).take (UART_BUF_SIZE - 1) := by
        rw [List.take_append_eq_append_take, List.take_append_eq_append_take]
        simp [heq]
      rw [hfull, ih xs g hmode hbuf hlen hfit, h1]


theorem uart_isr_append (g : Globals) (as bs : List Nat) :
    uart_isr g (as ++ bs) = uart_isr (uart_isr g as) bs := by
  simp [uart_isr, List.foldl_append]

theorem isr_byte_receiving (g : Globals) (c : Nat) :
    (isr_byte g c).receiving_jpeg = g.receiving_jpeg := by
  unfold isr_byte
  split <;> split <;> rfl

theorem uart_isr_receiving (bs : List Nat) (g : Globals) :
    (uart_isr g bs).receiving_jpeg = g.receiving_jpeg := by
  induction bs generalizing g with
  | nil => rfl
  | cons c bs ih =>
    show (uart_isr (isr_byte g c) bs).receiving_jpeg = _
    rw [ih, isr_byte_receiving]

/-- In binary mode the handler writes the bytes behind the ones already received,
as far as the array reaches, and touches nothing else. -/
theorem uart_isr_binary (bs : List Nat) (g : Globals)
    (hmode : g.receiving_jpeg = true)
    (hsize : g.jpeg_buffer.length = JPEG_MAX_SIZE) (hlen : g.jpeg_len ≤ JPEG_MAX_SIZE) :
    uart_isr g bs = { g with
      jpeg_buffer := g.jpeg_buffer.take g.jpeg_len ++ bs.take (JPEG_MAX_SIZE - g.jpeg_len)
        ++ g.jpeg_buffer.drop (min (g.jpeg_len + bs.length) JPEG_MAX_SIZE),
      jpeg_len := min (g.jpeg_len + bs.length) JPEG_MAX_SIZE } := by
  induction bs generalizing g with
  | nil =>
    simp only [uart_isr, List.foldl_nil, List.take_nil, List.append_nil, List.length_nil,
      Nat.add_zero, Nat.min_eq_left hlen, List.take_append_drop]
  | cons c bs ih =>
    show uart_isr (isr_byte g c) bs = _
    by_cases hlt : g.jpeg_len < JPEG_MAX_SIZE
    · have hstep : isr_byte g c = { g with
          jpeg_buffer := g.jpeg_buffer.set g.jpeg_len c, jpeg_len := g.jpeg_len + 1 } := by
        unfold isr_byte
        simp [hmode, hlt]
      have hl : g.jpeg_len < g.jpeg_buffer.length := by omega
      have h := ih { g with
          jpeg_buffer := g.jpeg_buffer.set g.jpeg_len c, jpeg_len := g.jpeg_len + 1 } hmode
          (by show (g.jpeg_buffer.set g.jpeg_len c).length = _; rw [List.length_set]; exact hsize)
          (Nat.succ_le_of_lt hlt)
      rw [hstep, h]
      have e1 : (g.jpeg_buffer.set g.jpeg_len c).take (g.jpeg_len + 1)
          = g.jpeg_buffer.take g.jpeg_len ++ [c] := by
        rw [List.set_eq_take_append_cons_drop, if_pos hl, List.take_append_eq_append_take]
        simp [List.length_take, Nat.min_eq_left (Nat.le_of_lt hl)]
      have e2 : (g.jpeg_buffer.set g.jpeg_len c).drop (min (g.jpeg_len + 1 + bs.length) JPEG_MAX_SIZE)
          = g.jpeg_buffer.drop (min (g.jpeg_len + 1 + bs.length) JPEG_MAX_SIZE) := by
        rw [List.drop_set, if_pos (by omega)]
      have e3 : (c :: bs).take (JPEG_MAX_SIZE - g.jpeg_len)
          = c :: bs.take (JPEG_MAX_SIZE - (g.jpeg_len + 1)) := by
        have : JPEG_MAX_SIZE - g.jpeg_len = (JPEG_MAX_SIZE - (g.jpeg_len + 1)) + 1 := by omega
        rw [this, List.take_succ_cons]
      simp only [e1, e2, e3, List.length_cons]
      have e4 : g.jpeg_len + 1 + bs.length = g.jpeg_len + (bs.length + 1) := by omega
      simp [e4]
    · have heq : g.jpeg_len = JPEG_MAX_SIZE := by omega
      have hfull : isr_byte g c = g := by
        unfold isr_byte
        simp [hmode, heq]
      rw [hfull, ih g hmode hsize hlen]
      simp [heq]

theorem uart_isr_wf (bs : List Nat) (g : Globals) (h : g.WF) : (uart_isr g bs).WF := by
  induction bs generalizing g with
  | nil => exact h
  | cons c bs ih =>
    show (uart_isr (isr_byte g c) bs).WF
    apply ih
    unfold isr_byte
    split <;> split <;> first | exact h | exact ⟨by simpa using h.rx_size, by simpa using h.jpeg_size⟩


/-! ## The polling loops -/

/-- The world after `n` sleeps of `ms` milliseconds in a row. -/
theorem k_msleep_iterate (ms n : Nat) (w : World) :
    (k_msleep ms)^[n] w = { w with
      g := uart_isr w.g (w.rx.take n).flatten,
      rx := w.rx.drop n,
      slept := w.slept ++ List.replicate n ms } := by
  induction n generalizing w with
  | zero => simp [uart_isr]
  | succ n ih =>
    rw [Function.iterate_succ_apply, ih]
    cases hrx : w.rx with
    | nil => simp [k_msleep, hrx, uart_isr, List.replicate_succ]
    | cons b rest =>
      simp [k_msleep, hrx, uart_isr, List.foldl_append, List.replicate_succ]

theorem header_poll_quiet (w : World) (h1 : ¬ header_seen (cstr w.g.uart_rx_buf))
    (h2 : ¬ error_seen (cstr w.g.uart_rx_buf)) : header_poll w = .continued w := by
  have herr : strstr (cstr w.g.uart_rx_buf) RESP_ERR = none := by
    cases h : strstr (cstr w.g.uart_rx_buf) RESP_ERR with
    | none => rfl
    | some i =>
      obtain ⟨pre, post, hsplit, -⟩ := strstr_some_split _ _ _ h
      exact absurd ⟨pre, post, hsplit⟩ h2
  unfold header_poll
  cases h : strstr (cstr w.g.uart_rx_buf) RESP_IMG with
  | none => simp [h, herr]
  | some i =>
    obtain ⟨pre, post, hsplit, hlen⟩ := strstr_some_split _ _ _ h
    have hno : strchr ((cstr w.g.uart_rx_buf).drop i) 10 = false := by
      rw [Bool.eq_false_iff]
      intro hc
      rw [strchr_iff, hsplit, ← hlen] at hc
      simp [RESP_IMG] at hc
      exact h1 ⟨pre, post, hsplit, hc⟩
    simp [h, hno, herr]

/-- The header loop passes over polls at which `header_poll` finds nothing. -/
theorem header_loop_skip (timeout_ms n : Nat) : ∀ (fuel elapsed : Nat) (w : World),
    (∀ j < n, header_poll ((k_msleep 10)^[j + 1] w) = .continued ((k_msleep 10)^[j + 1] w)) →
    (∀ j < n, elapsed + 10 * j < timeout_ms) → n ≤ fuel →
    header_loop timeout_ms fuel elapsed w
      = header_loop timeout_ms (fuel - n) (elapsed + 10 * n) ((k_msleep 10)^[n] w) := by
  induction n with
  | zero => intro fuel elapsed w _ _ _; simp
  | succ n ih =>
    intro fuel elapsed w hq ht hf
    obtain ⟨fuel, rfl⟩ : ∃ f, fuel = f + 1 := ⟨fuel - 1, by omega⟩
    have h0 := hq 0 (by omega)
    have t0 := ht 0 (by omega)
    simp only [Function.iterate_succ, Function.iterate_zero, Function.comp_apply, id_eq] at h0
    rw [header_loop, if_pos (by simpa using t0), h0]
    simp only
    rw [ih fuel (elapsed + 10) (k_msleep 10 w)
      (fun j hj => by simpa [Function.iterate_succ_apply] using hq (j + 1) (by omega))
      (fun j hj => by have := ht (j + 1) (by omega); omega) (by omega)]
    rw [Function.iterate_succ_apply]
    congr 1 <;> omega

/-- The payload loop passes over polls at which the payload is still short. -/
theorem payload_loop_skip (timeout_ms n : Nat) : ∀ (fuel elapsed : Nat) (w : World),
    (∀ j < n, ((k_msleep 10)^[j + 1] w).g.jpeg_len < ((k_msleep 10)^[j + 1] w).g.expected_jpeg_len) →
    (∀ j < n, elapsed + 10 * j < timeout_ms) → n ≤ fuel →
    payload_loop timeout_ms fuel elapsed w
      = payload_loop timeout_ms (fuel - n) (elapsed + 10 * n) ((k_msleep 10)^[n] w) := by
  induction n with
  | zero => intro fuel elapsed w _ _ _; simp
  | succ n ih =>
    intro fuel elapsed w hq ht hf
    obtain ⟨fuel, rfl⟩ : ∃ f, fuel = f + 1 := ⟨fuel - 1, by omega⟩
    have h0 := hq 0 (by omega)
    have t0 := ht 0 (by omega)
    simp only [Function.iterate_succ, Function.iterate_zero, Function.comp_apply, id_eq] at h0
    have hp : payload_poll (k_msleep 10 w) = .continued (k_msleep 10 w) := by
      unfold payload_poll
      rw [if_neg (by omega)]
    rw [payload_loop, if_pos (by simpa using t0), hp]
    simp only
    rw [ih fuel (elapsed + 10) (k_msleep 10 w)
      (fun j hj => by simpa [Function.iterate_succ_apply] using hq (j + 1) (by omega))
      (fun j hj => by have := ht (j + 1) (by omega); omega) (by omega)]
    rw [Function.iterate_succ_apply]
    congr 1 <;> omega


/-! ## The end marker -/

theorem find?_range'_first (p : Nat → Bool) (n : Nat) : ∀ (s i : Nat), s ≤ i → i < s + n →
    p i = true → (∀ j, s ≤ j → j < i → p j = false) → (List.range' s n).find? p = some i := by
  induction n with
  | zero => intro s i h1 h2; omega
  | succ n ih =>
    intro s i h1 h2 hp hfirst
    rw [List.range'_succ, List.find?_cons]
    by_cases hsi : s = i
    · subst hsi; simp [hp]
    · rw [hfirst s (Nat.le_refl _) (by omega)]
      exact ih (s + 1) i (by omega) (by omega) hp (fun j hj hji => hfirst j (by omega) hji)

theorem find?_range'_none (p : Nat → Bool) (s n : Nat)
    (h : ∀ j, s ≤ j → j < s + n → p j = false) : (List.range' s n).find? p = none := by
  rw [List.find?_eq_none]
  intro x hx
  rw [List.mem_range'] at hx
  obtain ⟨k, hk, rfl⟩ := hx
  have := h (s + k) (by omega) (by omega)
  simp [this]

theorem find_end_marker_none (buf : List Nat) (len : Nat)
    (h : ∀ i, len - 10 ≤ i → i + 5 ≤ len → ¬ marker_at buf i) : find_end_marker buf len = none := by
  unfold find_end_marker
  apply find?_range'_none
  intro j h1 h2
  have := h j h1 (by omega)
  simpa [marker_at] using this

theorem find_end_marker_some (buf : List Nat) (len i : Nat) (hwin : len - 10 ≤ i)
    (hfit : i + 5 ≤ len) (hmark : marker_at buf i)
    (hfirst : ∀ j, len - 10 ≤ j → j < i → ¬ marker_at buf j) : find_end_marker buf len = some i := by
  unfold find_end_marker
  apply find?_range'_first _ _ _ _ hwin (by omega)
  · simpa [marker_at] using hmark
  · intro j h1 h2
    simpa [marker_at] using hfirst j h1 h2

theorem marker_at_getElem? (buf : List Nat) (i k : Nat) (h : marker_at buf i) (hk : k < 5) :
    buf[i + k]? = END_PATTERN[k]? := by
  have h1 : ((buf.drop i).take 5)[k]? = END_PATTERN[k]? := by rw [h]
  rw [List.getElem?_take_of_lt hk, List.getElem?_drop] at h1
  exact h1

/-- Two occurrences of `"\nEND:"` do not overlap. -/
theorem marker_at_apart (buf : List Nat) (i j : Nat) (hi : marker_at buf i) (hj : marker_at buf j)
    (hlt : j < i) : j + 5 ≤ i := by
  by_contra hcon
  have h0 := marker_at_getElem? buf i 0 hi (by omega)
  obtain ⟨d, hd, hd1, hd4⟩ : ∃ d, i = j + d ∧ 1 ≤ d ∧ d ≤ 4 := ⟨i - j, by omega, by omega, by omega⟩
  have h1 := marker_at_getElem? buf j d hj (by omega)
  rw [Nat.add_zero, hd, h1] at h0
  interval_cases d <;> simp [END_PATTERN, RESP_END] at h0

theorem hexval_some (c v : Nat) (h : hexval c = some v) :
    ((48 ≤ c ∧ c ≤ 57) ∨ (65 ≤ c ∧ c ≤ 70) ∨ (97 ≤ c ∧ c ≤ 102)) ∧ v < 16 := by
  unfold hexval at h
  split at h
  · simp at h; omega
  · split at h
    · simp at h; omega
    · split at h
      · simp at h; omega
      · simp at h

/-- `sscanf` with `%02hhX` on two hexadecimal digits reads both. -/
theorem sscanf_two_hex (d1 d2 v1 v2 : Nat) (rest : List Nat) (h1 : hexval d1 = some v1)
    (h2 : hexval d2 = some v2) : sscanf_02hhX (d1 :: d2 :: rest) = some (16 * v1 + v2) := by
  have r1 := (hexval_some d1 v1 h1).1
  have r2 := (hexval_some d2 v2 h2).1
  have hsp : isspace d1 = false := by simp [isspace]; omega
  have hs1 : ¬ (d1 = 45 ∨ d1 = 43) := by omega
  have hx : ¬ (d1 = 48 ∧ (d2 = 120 ∨ d2 = 88)) := by omega
  unfold sscanf_02hhX
  simp only [List.dropWhile_cons, hsp, Bool.false_eq_true, ↓reduceIte, hs1, h1, hx, h2]

theorem hexval_hex_upper (v : Nat) (h : v < 16) : hexval (hex_upper v) = some v := by
  unfold hexval hex_upper
  interval_cases v <;> simp


/-! ## The end-marker check -/

theorem end_marker_check_missing (w : World)
    (h : w.g.jpeg_len ≤ 10 ∨ find_end_marker w.g.jpeg_buffer w.g.jpeg_len = none) :
    end_marker_check w = (0, { w with
      g := { w.g with receiving_jpeg := false, jpeg_complete := true },
      log := w.log ++ [.end_marker_missing] }) := by
  unfold end_marker_check
  rcases h with h | h
  · simp only [gt_iff_lt, Nat.not_lt.mpr h, ↓reduceIte]
  · simp only [h]
    split <;> rfl

theorem end_marker_check_found (w : World) (i rc : Nat) (hlen : 10 < w.g.jpeg_len)
    (hfind : find_end_marker w.g.jpeg_buffer w.g.jpeg_len = some i)
    (hscan : sscanf_02hhX (w.g.jpeg_buffer.drop (i + 5)) = some rc) :
    end_marker_check w = (0, { w with
      g := { w.g with receiving_jpeg := false, jpeg_len := i, jpeg_complete := true },
      log := w.log ++ [if calculate_checksum w.g.jpeg_buffer i = rc then .checksum_ok rc
        else .checksum_mismatch rc (calculate_checksum w.g.jpeg_buffer i)] }) := by
  unfold end_marker_check
  simp only [gt_iff_lt, hlen, ↓reduceIte, hfind, hscan]
  split
  · next h => simp [h]
  · rfl

theorem end_marker_check_unparsed (w : World) (i : Nat) (hlen : 10 < w.g.jpeg_len)
    (hfind : find_end_marker w.g.jpeg_buffer w.g.jpeg_len = some i)
    (hscan : sscanf_02hhX (w.g.jpeg_buffer.drop (i + 5)) = none) :
    end_marker_check w = (0, { w with
      g := { w.g with receiving_jpeg := false, jpeg_len := i, jpeg_complete := true },
      log := w.log ++ [.end_marker_missing] }) := by
  unfold end_marker_check
  simp only [gt_iff_lt, hlen, ↓reduceIte, hfind, hscan]

/-- A run that comes to the end-marker check returns what the check returns. -/
theorem receive_jpeg_of_reaches_check (fuel : Nat) (w0 u : World) (h : reaches_check fuel w0 u) :
    receive_jpeg fuel w0 = some (end_marker_check u) := by
  obtain ⟨w, k, hhdr, hbin, hk, hfuel, hshort, hreach, hu⟩ := h
  unfold receive_jpeg
  simp only [hhdr, hbin, Bool.not_true, Bool.false_eq_true, ↓reduceIte]
  rw [payload_loop_skip 30000 k fuel 0 w hshort (fun j hj => by omega) (by omega)]
  obtain ⟨f, hf⟩ : ∃ f, fuel - k = f + 1 := ⟨fuel - k - 1, by omega⟩
  rw [hf, payload_loop, if_pos (by omega)]
  have hp : payload_poll (k_msleep 10 ((k_msleep 10)^[k] w))
      = .returned (end_marker_check u).1 (end_marker_check u).2 := by
    rw [← Function.iterate_succ_apply' (k_msleep 10) k w]
    unfold payload_poll
    rw [if_pos hreach, hu]
    rfl
  rw [hp]


/-! ## The first poll after a capture request -/

theorem cstr_append_zeros (xs : List Nat) (k : Nat) (h : ∀ x ∈ xs, x ≠ 0) :
    cstr (xs ++ List.replicate (k + 1) 0) = xs := by
  unfold cstr
  rw [List.takeWhile_append_of_pos (by intro a ha; simpa using h a ha)]
  simp [List.replicate_succ]

theorem cstr_append_of_nonzero (xs ys : List Nat) (h : ∀ x ∈ xs, x ≠ 0) :
    cstr (xs ++ ys) = xs ++ cstr ys := by
  unfold cstr
  rw [List.takeWhile_append_of_pos (by intro a ha; simpa using h a ha)]

theorem img_header_nonzero (ds : List Nat) (hdig : ∀ d ∈ ds, isdigit d = true) :
    ∀ x ∈ img_header ds, x ≠ 0 := by
  intro x hx
  simp only [img_header, RESP_IMG, List.cons_append, List.nil_append, List.mem_cons,
    List.mem_append, List.mem_singleton, List.not_mem_nil, or_false] at hx
  rcases hx with h | h | h | h | h | h
  · omega
  · omega
  · omega
  · omega
  · have := (isdigit_iff x).mp (hdig x h); omega
  · omega

theorem request_capture_snd (w : World) :
    (request_capture w).2 = { w with
      g := { w.g with
        uart_rx_len := 0, uart_rx_buf := List.replicate UART_BUF_SIZE 0, jpeg_len := 0,
        receiving_jpeg := false, jpeg_complete := false, expected_jpeg_len := 0 },
      tx := w.tx ++ CMD_CAPTURE } := by
  simp [request_capture, uart_send, cstr, CMD_CAPTURE]

/-- The text buffer at a poll when, since the capture request, the bytes `bs`
have arrived and they fit into the buffer. -/
theorem text_after_request (w : World) (bs : List Nat) (hfit : bs.length ≤ UART_BUF_SIZE - 1) :
    uart_isr (request_capture w).2.g bs = { (request_capture w).2.g with
      uart_rx_buf := bs ++ List.replicate (UART_BUF_SIZE - bs.length) 0,
      uart_rx_len := bs.length } := by
  rw [uart_isr_text bs [] (request_capture w).2.g (by simp [request_capture_snd])
    (by simp [request_capture_snd]) (by simp [request_capture_snd]) (by simp)]
  simp [List.take_of_length_le hfit]



theorem first_poll_after_request (w : World) (bs : List Nat) (rest : List (List Nat))
    (hrx : w.rx = bs :: rest) (hfit : bs.length ≤ UART_BUF_SIZE - 1) :
    k_msleep 10 (request_capture w).2 = { w with
      g := { w.g with
        uart_rx_buf := bs ++ List.replicate (UART_BUF_SIZE - bs.length) 0,
        uart_rx_len := bs.length, jpeg_len := 0, receiving_jpeg := false,
        jpeg_complete := false, expected_jpeg_len := 0 },
      rx := rest, slept := w.slept ++ [10], tx := w.tx ++ CMD_CAPTURE } := by
  have hrx' : (request_capture w).2.rx = bs :: rest := by rw [request_capture_snd]; exact hrx
  unfold k_msleep
  rw [hrx', List.headD_cons, List.tail_cons, text_after_request w bs hfit]
  simp [request_capture_snd]

theorem min_int_max_of_le (n : Nat) (h : n ≤ JPEG_MAX_SIZE) : min n 2147483647 = n := by
  unfold JPEG_MAX_SIZE at h; omega

/-- A valid header that arrives during the first sleep after the capture request is
accepted at the first poll. -/
theorem header_loop_accept_first (fuel : Nat) (w : World) (ds : List Nat) (rest : List (List Nat))
    (hne : ds ≠ []) (hdig : ∀ d ∈ ds, isdigit d = true)
    (hvalid : 0 < decimal_value ds ∧ decimal_value ds ≤ JPEG_MAX_SIZE)
    (hrx : w.rx = img_header ds :: rest) (hfit : (img_header ds).length ≤ UART_BUF_SIZE - 1) :
    header_loop 30000 (fuel + 1) 0 (request_capture w).2 = some (.fell_through
      { w with
        g := { w.g with
          uart_rx_buf := img_header ds ++ List.replicate (UART_BUF_SIZE - (img_header ds).length) 0,
          uart_rx_len := 0, jpeg_len := 0, receiving_jpeg := true, jpeg_complete := false,
          expected_jpeg_len := decimal_value ds },
        rx := rest, slept := w.slept ++ [10], tx := w.tx ++ CMD_CAPTURE }) := by
  have hk : UART_BUF_SIZE - (img_header ds).length
      = (UART_BUF_SIZE - (img_header ds).length - 1) + 1 := by
    unfold UART_BUF_SIZE at hfit ⊢; omega
  have htext : cstr (img_header ds ++ List.replicate (UART_BUF_SIZE - (img_header ds).length) 0)
      = img_header ds ++ [] := by
    rw [hk, cstr_append_zeros _ _ (img_header_nonzero ds hdig), List.append_nil]
  rw [header_loop, if_pos (by norm_num), first_poll_after_request w _ rest hrx hfit,
    header_poll_header _ ds [] hne hdig htext, min_int_max_of_le _ hvalid.2,
    if_neg (by omega)]


/-! ## From arriving batches to the end-marker check -/

theorem flatten_take_length_le (q : List (List Nat)) (j : Nat) :
    (q.take j).flatten.length ≤ q.flatten.length := by
  conv_rhs => rw [← List.take_append_drop j q]
  rw [List.flatten_append, List.length_append]
  omega

/-- The world in which the end-marker check runs when, after the header loop has
been left in binary mode with an empty payload, the batches `quiet` arrive
without completing the payload, `last` completes it, and `late` arrives during
the extra sleep. -/
theorem reaches_check_of_batches (fuel : Nat) (w0 w : World) (quiet : List (List Nat))
    (last late : List Nat) (rest : List (List Nat))
    (hhdr : header_loop 30000 fuel 0 w0 = some (.fell_through w))
    (hbin : w.g.receiving_jpeg = true) (hsize : w.g.jpeg_buffer.length = JPEG_MAX_SIZE)
    (hzero : w.g.jpeg_len = 0) (hmax : w.g.expected_jpeg_len ≤ JPEG_MAX_SIZE)
    (hrx : w.rx = quiet ++ last :: late :: rest)
    (hshort : quiet.flatten.length < w.g.expected_jpeg_len)
    (hfull : w.g.expected_jpeg_len ≤ quiet.flatten.length + last.length)
    (hk : quiet.length < 3000) (hfuel : quiet.length < fuel) :
    reaches_check fuel w0 { w with
      g := { w.g with
        jpeg_buffer := (quiet.flatten ++ last ++ late).take JPEG_MAX_SIZE
          ++ w.g.jpeg_buffer.drop (min (quiet.flatten ++ last ++ late).length JPEG_MAX_SIZE),
        jpeg_len := min (quiet.flatten ++ last ++ late).length JPEG_MAX_SIZE },
      rx := rest,
      slept := w.slept ++ List.replicate (quiet.length + 1) 10 ++ [100] } := by
  have hisr : ∀ bs, uart_isr w.g bs = { w.g with
      jpeg_buffer := bs.take JPEG_MAX_SIZE ++ w.g.jpeg_buffer.drop (min bs.length JPEG_MAX_SIZE),
      jpeg_len := min bs.length JPEG_MAX_SIZE } := by
    intro bs
    rw [uart_isr_binary bs w.g hbin hsize (by omega)]
    simp [hzero]
  refine ⟨w, quiet.length, hhdr, hbin, hk, hfuel, ?_, ?_, ?_⟩
  · intro j hj
    rw [k_msleep_iterate, hrx, List.take_append_of_le_length (by omega)]
    simp only [hisr]
    have := flatten_take_length_le quiet (j + 1)
    omega
  · rw [k_msleep_iterate, hrx, List.take_append_eq_append_take]
    simp only [hisr, List.take_of_length_le (show quiet.length ≤ quiet.length + 1 by omega)]
    have : quiet.length + 1 - quiet.length = 1 := by omega
    simp only [this, List.take_succ_cons, List.take_zero, List.flatten_append, List.flatten_cons,
      List.flatten_nil, List.append_nil, List.length_append]
    omega
  · rw [k_msleep_iterate, hrx]
    have h1 : (quiet ++ last :: late :: rest).take (quiet.length + 1) = quiet ++ [last] := by
      rw [List.take_append_eq_append_take]
      simp
    have h2 : (quiet ++ last :: late :: rest).drop (quiet.length + 1) = late :: rest := by
      rw [List.drop_append_eq_append_drop]
      simp
    unfold k_msleep
    simp only [h1, h2, List.headD_cons, List.tail_cons, ← uart_isr_append]
    simp only [hisr, List.flatten_append, List.flatten_cons, List.flatten_nil, List.append_nil,
      List.append_assoc]



theorem decimal_digits_fuel_length (fuel : Nat) : ∀ (n k : Nat), n < 10 ^ (k + 1) →
    (decimal_digits_fuel fuel n).length ≤ k + 1 := by
  induction fuel with
  | zero => intro n k _; simp [decimal_digits_fuel]
  | succ fuel ih =>
    intro n k hn
    unfold decimal_digits_fuel
    split
    · simp
    · next h10 =>
      cases k with
      | zero => simp at hn; omega
      | succ k =>
        have : n / 10 < 10 ^ (k + 1) := by
          rw [Nat.div_lt_iff_lt_mul (by norm_num)]
          calc n < 10 ^ (k + 1 + 1) := hn
            _ = 10 ^ (k + 1) * 10 := by ring
        have := ih (n / 10) k this
        simp only [List.length_append, List.length_singleton]
        omega

theorem img_header_length (L : Nat) (h : L ≤ JPEG_MAX_SIZE) :
    (img_header (decimal_digits L)).length ≤ UART_BUF_SIZE - 1 := by
  have := decimal_digits_fuel_length (L + 1) L 5 (by unfold JPEG_MAX_SIZE at h; omega)
  simp only [img_header, RESP_IMG, List.length_append, List.length_cons, List.length_nil,
    decimal_digits, UART_BUF_SIZE] at this ⊢
  omega

theorem jpeg_frame_length (p : List Nat) : (jpeg_frame p).length = p.length + 8 := by
  simp [jpeg_frame, trailer, END_PATTERN, RESP_END]

/-- The payload buffer after a whole frame, or a frame short of its last newline, has
been stored from index 0. -/
theorem frame_in_buffer (p old : List Nat) (hfit : p.length + 7 ≤ JPEG_MAX_SIZE) :
    ∃ tail, (jpeg_frame p).take JPEG_MAX_SIZE ++ old
      = p ++ (END_PATTERN ++ (hex_upper (xor_fold p / 16) :: hex_upper (xor_fold p % 16) :: tail)) := by
  refine ⟨[10].take (JPEG_MAX_SIZE - (p.length + 7)) ++ old, ?_⟩
  have : jpeg_frame p = (p ++ (END_PATTERN ++ [hex_upper (xor_fold p / 16), hex_upper (xor_fold p % 16)])) ++ [10] := by
    simp [jpeg_frame, trailer]
  rw [this, List.take_append_eq_append_take, List.take_of_length_le (by
    simp [END_PATTERN, RESP_END]; omega)]
  simp [END_PATTERN, RESP_END]



/-- After a capture request, a valid header in the first batch and the payload batches
bring the run of `receive_jpeg` to the end-marker check in `world_at_check`. -/
theorem reaches_check_after_request (fuel : Nat) (w : World) (L : Nat)
    (quiet : List (List Nat)) (last late : List Nat) (rest : List (List Nat))
    (hL : 0 < L ∧ L ≤ JPEG_MAX_SIZE) (hsize : w.g.jpeg_buffer.length = JPEG_MAX_SIZE)
    (hrx : w.rx = img_header (decimal_digits L) :: (quiet ++ last :: late :: rest))
    (hshort : quiet.flatten.length < L) (hfull : L ≤ quiet.flatten.length + last.length)
    (hk : quiet.length < 3000) (hfuel : quiet.length < fuel) :
    reaches_check fuel (request_capture w).2
      (world_at_check w L (quiet.flatten ++ last ++ late) (quiet.length + 1) rest) := by
  obtain ⟨f, rfl⟩ : ∃ f, fuel = f + 1 := ⟨fuel - 1, by omega⟩
  have hhdr := header_loop_accept_first f w (decimal_digits L) (quiet ++ last :: late :: rest)
    (decimal_digits_ne_nil L) (decimal_digits_isdigit L)
    (by rw [decimal_digits_value]; exact hL) hrx (img_header_length L hL.2)
  rw [decimal_digits_value] at hhdr
  have hreach := reaches_check_of_batches (f + 1) _ _ quiet last late rest hhdr rfl hsize rfl
    hL.2 rfl hshort hfull hk hfuel
  simpa [world_at_check] using hreach


/-! ## Auxiliary facts for the integrity claims -/

theorem save_jpeg_to_sd_log (fuel : Nat) (open_ret : Int) (wr : Nat → Int) (w : World)
    (l : List Integrity) :
    (save_jpeg_to_sd fuel open_ret wr { w with log := l }).map (fun r => (r.1, r.2.g, r.2.fs))
      = (save_jpeg_to_sd fuel open_ret wr w).map (fun r => (r.1, r.2.g, r.2.fs)) := by
  unfold save_jpeg_to_sd
  simp only
  split
  · rfl
  · split
    · rfl
    · cases write_loop w.g wr fuel 0 0 (w.fs ++ [FsCall.fs_open (photo_filename w.g.file_counter)]) with
      | none => rfl
      | some r =>
        obtain ⟨e, fs⟩ := r
        cases e <;> rfl

theorem scenario_c_reaches_check :
    reaches_check 1 (request_capture scenario_c).2 scenario_c_check :=
  reaches_check_after_request 1 scenario_c 3 [] [1, 2, 3, 4, 5, 6, 7, 8, 9, 10, 11, 12] [] []
    (by decide) (by simp [scenario_c, World.boot, Globals.init]) rfl (by decide) (by decide)
    (by decide) (by decide)

/-! ## The header loop up to a poll -/

theorem isr_byte_keeps (g : Globals) (c : Nat) :
    (isr_byte g c).file_counter = g.file_counter ∧
    (isr_byte g c).jpeg_complete = g.jpeg_complete ∧
    (isr_byte g c).expected_jpeg_len = g.expected_jpeg_len := by
  unfold isr_byte
  split <;> split <;> exact ⟨rfl, rfl, rfl⟩

theorem uart_isr_keeps (bs : List Nat) (g : Globals) :
    (uart_isr g bs).file_counter = g.file_counter ∧
    (uart_isr g bs).jpeg_complete = g.jpeg_complete ∧
    (uart_isr g bs).expected_jpeg_len = g.expected_jpeg_len := by
  induction bs generalizing g with
  | nil => exact ⟨rfl, rfl, rfl⟩
  | cons c bs ih =>
    show (uart_isr (isr_byte g c) bs).file_counter = _ ∧ (uart_isr (isr_byte g c) bs).jpeg_complete = _
      ∧ (uart_isr (isr_byte g c) bs).expected_jpeg_len = _
    obtain ⟨h1, h2, h3⟩ := ih (isr_byte g c)
    obtain ⟨k1, k2, k3⟩ := isr_byte_keeps g c
    exact ⟨h1.trans k1, h2.trans k2, h3.trans k3⟩

/-- What sleeping through polls leaves alone. -/
theorem at_poll_keeps (w : World) (n : Nat) :
    (w.at_poll n).fs = w.fs ∧ (w.at_poll n).tx = w.tx ∧ (w.at_poll n).log = w.log ∧
    (w.at_poll n).slept = w.slept ++ List.replicate n 10 ∧
    (w.at_poll n).g.file_counter = w.g.file_counter ∧
    (w.at_poll n).g.receiving_jpeg = w.g.receiving_jpeg ∧
    (w.at_poll n).g.jpeg_complete = w.g.jpeg_complete := by
  unfold World.at_poll
  rw [k_msleep_iterate]
  exact ⟨rfl, rfl, rfl, rfl, (uart_isr_keeps _ _).1, uart_isr_receiving _ _, (uart_isr_keeps _ _).2.1⟩

/-- The header loop up to a poll before which nothing was seen in the text buffer. -/
theorem header_loop_to_poll (fuel k : Nat) (w : World) (hk : k < 3000) (hfuel : k < fuel)
    (hquiet : ∀ j < k, ¬ header_seen (cstr (w.at_poll (j + 1)).g.uart_rx_buf) ∧
      ¬ error_seen (cstr (w.at_poll (j + 1)).g.uart_rx_buf)) :
    header_loop 30000 fuel 0 w =
      match header_poll (w.at_poll (k + 1)) with
      | .returned ret w => some (.returned ret w)
      | .broke w => some (.fell_through w)
      | .continued w => header_loop 30000 (fuel - k - 1) (10 * k + 10) w := by
  rw [header_loop_skip 30000 k fuel 0 w
    (fun j hj => header_poll_quiet _ (hquiet j hj).1 (hquiet j hj).2) (fun j hj => by omega)
    (by omega)]
  obtain ⟨f, hf⟩ : ∃ f, fuel - k = f + 1 := ⟨fuel - k - 1, by omega⟩
  rw [hf, header_loop, if_pos (by omega)]
  have : k_msleep 10 ((k_msleep 10)^[k] w) = w.at_poll (k + 1) := by
    unfold World.at_poll
    rw [Function.iterate_succ_apply']
  rw [this]
  have e1 : f + 1 - 1 = f := by omega
  have e2 : 0 + 10 * k + 10 = 10 * k + 10 := by omega
  rw [e1, e2]


/-! ## Scenario D -/

theorem cstr_replicate_zero (n : Nat) : cstr (List.replicate n 0) = [] := by
  cases n <;> simp [cstr, List.replicate_succ]

theorem scenario_d_text (n : Nat) : cstr ((request_capture scenario_d).2.at_poll n).g.uart_rx_buf = [] := by
  have : ((request_capture scenario_d).2.at_poll n).g.uart_rx_buf = List.replicate UART_BUF_SIZE 0 := by
    unfold World.at_poll
    rw [k_msleep_iterate]
    simp [request_capture_snd, scenario_d, World.boot, uart_isr]
  rw [this, cstr_replicate_zero]

/-! ## The write loop -/

theorem write_calls_succ (g : Globals) (wr : Nat → Int) (k n : Nat) :
    write_calls g wr k (n + 1)
      = FsCall.fs_write (written_after wr k) (chunk_at g (written_after wr k))
        :: write_calls g wr (k + 1) n := by
  simp [write_calls, List.range'_succ]

/-- The write loop passes through calls that return a count and leave the payload unfinished. -/
theorem write_loop_steps (g : Globals) (wr : Nat → Int) (n : Nat) :
    ∀ (fuel k : Nat) (fs : List FsCall),
    (∀ j, k ≤ j → j < k + n → 0 ≤ wr j ∧ written_after wr j < g.jpeg_len) → n ≤ fuel →
    write_loop g wr fuel k (written_after wr k) fs
      = write_loop g wr (fuel - n) (k + n) (written_after wr (k + n)) (fs ++ write_calls g wr k n) := by
  induction n with
  | zero => intro fuel k fs _ _; simp [write_calls]
  | succ n ih =>
    intro fuel k fs h hf
    obtain ⟨fuel, rfl⟩ : ∃ f, fuel = f + 1 := ⟨fuel - 1, by omega⟩
    obtain ⟨h0, h1⟩ := h k (Nat.le_refl _) (by omega)
    rw [write_loop, if_pos h1]
    simp only
    rw [if_neg (by omega)]
    have hw : written_after wr k + (wr k).toNat = written_after wr (k + 1) := rfl
    rw [hw, ih fuel (k + 1) _ (fun j hj1 hj2 => h j (by omega) (by omega)) (by omega),
      write_calls_succ]
    have e1 : fuel + 1 - (n + 1) = fuel - n := by omega
    have e2 : k + 1 + n = k + (n + 1) := by omega
    rw [e1, e2]
    simp [chunk_at]

/-- What a run of the write loop that ends has done. -/
theorem write_loop_some (g : Globals) (wr : Nat → Int) (fuel : Nat) :
    ∀ (k : Nat) (fs : List FsCall) (e : Option Int) (fs' : List FsCall),
    write_loop g wr fuel k (written_after wr k) fs = some (e, fs') →
    ∃ n, (∀ j, k ≤ j → j < k + n → 0 ≤ wr j ∧ written_after wr j < g.jpeg_len) ∧
      ((e = none ∧ g.jpeg_len ≤ written_after wr (k + n) ∧ fs' = fs ++ write_calls g wr k n) ∨
       (e = some (wr (k + n)) ∧ wr (k + n) < 0 ∧ written_after wr (k + n) < g.jpeg_len ∧
         fs' = fs ++ write_calls g wr k (n + 1))) := by
  induction fuel with
  | zero => intro k fs e fs' h; simp [write_loop] at h
  | succ fuel ih =>
    intro k fs e fs' h
    rw [write_loop] at h
    by_cases hlt : written_after wr k < g.jpeg_len
    · rw [if_pos hlt] at h
      simp only at h
      by_cases hneg : wr k < 0
      · rw [if_pos hneg] at h
        simp only [Option.some.injEq, Prod.mk.injEq] at h
        refine ⟨0, fun j h1 h2 => by omega, Or.inr ⟨h.1.symm, hneg, hlt, ?_⟩⟩
        rw [← h.2]
        simp [write_calls, chunk_at]
      · rw [if_neg hneg] at h
        have hw : written_after wr k + (wr k).toNat = written_after wr (k + 1) := rfl
        rw [hw] at h
        obtain ⟨n, hn, hres⟩ := ih (k + 1) _ e fs' h
        refine ⟨n + 1, ?_, ?_⟩
        · intro j h1 h2
          by_cases hj : j = k
          · subst hj; exact ⟨by omega, hlt⟩
          · exact hn j (by omega) (by omega)
        · have e2 : k + 1 + n = k + (n + 1) := by omega
          rw [e2] at hres
          rcases hres with ⟨a, b, c⟩ | ⟨a, b, c, d⟩
          · exact Or.inl ⟨a, b, by rw [c, write_calls_succ]; simp [chunk_at]⟩
          · exact Or.inr ⟨a, b, c, by rw [d, write_calls_succ g wr k (n + 1)]; simp [chunk_at]⟩
    · rw [if_neg hlt] at h
      simp only [Option.some.injEq, Prod.mk.injEq] at h
      exact ⟨0, fun j h1 h2 => by omega, Or.inl ⟨h.1.symm, by simpa using Nat.le_of_not_lt hlt,
        by rw [← h.2]; simp [write_calls]⟩⟩



theorem written_after_mono (wr : Nat → Int) (a b : Nat) (h : a ≤ b) :
    written_after wr a ≤ written_after wr b := by
  induction b with
  | zero =>
    have : a = 0 := by omega
    subst this; exact Nat.le_refl _
  | succ b ih =>
    by_cases hab : a = b + 1
    · subst hab; exact Nat.le_refl _
    · have := ih (by omega)
      show _ ≤ written_after wr b + (wr b).toNat
      omega

/-- If the counts of the first `n` writes add up to the payload, some first number of
writes does. -/
theorem first_complete (wr : Nat → Int) (len n : Nat) (h : len ≤ written_after wr n) :
    ∃ m, m ≤ n ∧ len ≤ written_after wr m ∧ ∀ j < m, written_after wr j < len := by
  induction n with
  | zero => exact ⟨0, Nat.le_refl _, h, fun j hj => by omega⟩
  | succ n ih =>
    by_cases hn : len ≤ written_after wr n
    · obtain ⟨m, hm, h1, h2⟩ := ih hn
      exact ⟨m, by omega, h1, h2⟩
    · refine ⟨n + 1, Nat.le_refl _, h, fun j hj => ?_⟩
      have := written_after_mono wr j n (by omega)
      omega

/-- The save of a present payload, once the file is open, is the write loop. -/
theorem save_jpeg_to_sd_open (fuel : Nat) (wr : Nat → Int) (w : World)
    (hdata : w.g.jpeg_complete = true) (hlen : w.g.jpeg_len ≠ 0) :
    save_jpeg_to_sd fuel 0 wr w =
      match write_loop w.g wr fuel 0 0 (w.fs ++ [.fs_open (photo_filename w.g.file_counter)]) with
      | none => none
      | some (some result, fs) => some (result, { w with fs := fs ++ [.fs_close] })
      | some (none, fs) =>
        some (0, { w with fs := fs ++ [.fs_close],
                          g := { w.g with file_counter := (w.g.file_counter + 1) % WORD } }) := by
  unfold save_jpeg_to_sd
  simp [hdata, hlen]

theorem save_jpeg_to_sd_open_failed (fuel : Nat) (open_ret : Int) (wr : Nat → Int) (w : World)
    (hdata : w.g.jpeg_complete = true) (hlen : w.g.jpeg_len ≠ 0) (hopen : open_ret ≠ 0) :
    save_jpeg_to_sd fuel open_ret wr w
      = some (open_ret, { w with fs := w.fs ++ [.fs_open (photo_filename w.g.file_counter)] }) := by
  unfold save_jpeg_to_sd
  simp [hdata, hlen, hopen]

/-- A save whose writes return counts that add up to the payload succeeds. -/
theorem save_jpeg_to_sd_complete (fuel : Nat) (wr : Nat → Int) (w : World) (n : Nat)
    (hdata : w.g.jpeg_complete = true) (hlen : w.g.jpeg_len ≠ 0)
    (hok : ∀ j < n, 0 ≤ wr j) (hall : w.g.jpeg_len ≤ written_after wr n) (hfuel : n < fuel) :
    ∃ m, m ≤ n ∧ save_jpeg_to_sd fuel 0 wr w = some (0, { w with
      fs := w.fs ++ [.fs_open (photo_filename w.g.file_counter)] ++ write_calls w.g wr 0 m
        ++ [.fs_close],
      g := { w.g with file_counter := (w.g.file_counter + 1) % WORD } }) := by
  obtain ⟨m, hm, h1, h2⟩ := first_complete wr _ n hall
  refine ⟨m, hm, ?_⟩
  rw [save_jpeg_to_sd_open fuel wr w hdata hlen]
  have hsteps := write_loop_steps w.g wr m fuel 0
    (w.fs ++ [.fs_open (photo_filename w.g.file_counter)])
    (fun j _ hj => ⟨hok j (by omega), h2 j (by omega)⟩) (by omega)
  have h0 : written_after wr 0 = 0 := rfl
  rw [h0] at hsteps
  rw [hsteps]
  obtain ⟨f, hf⟩ : ∃ f, fuel - m = f + 1 := ⟨fuel - m - 1, by omega⟩
  rw [hf, write_loop, Nat.zero_add, if_neg (by omega)]

/-- A save whose `k`-th write is the first to fail returns the error of that write. -/
theorem save_jpeg_to_sd_write_failed (fuel : Nat) (wr : Nat → Int) (w : World) (k : Nat)
    (hdata : w.g.jpeg_complete = true) (hlen : w.g.jpeg_len ≠ 0)
    (hok : ∀ j < k, 0 ≤ wr j) (hshort : written_after wr k < w.g.jpeg_len) (hfail : wr k < 0)
    (hfuel : k < fuel) :
    save_jpeg_to_sd fuel 0 wr w = some (wr k, { w with
      fs := w.fs ++ [.fs_open (photo_filename w.g.file_counter)] ++ write_calls w.g wr 0 (k + 1)
        ++ [.fs_close] }) := by
  rw [save_jpeg_to_sd_open fuel wr w hdata hlen]
  have hsteps := write_loop_steps w.g wr k fuel 0
    (w.fs ++ [.fs_open (photo_filename w.g.file_counter)])
    (fun j _ hj => ⟨hok j (by omega), by
      have := written_after_mono wr j k (by omega)
      omega⟩) (by omega)
  have h0 : written_after wr 0 = 0 := rfl
  rw [h0] at hsteps
  rw [hsteps]
  obtain ⟨f, hf⟩ : ∃ f, fuel - k = f + 1 := ⟨fuel - k - 1, by omega⟩
  rw [hf, write_loop, Nat.zero_add, if_pos hshort]
  simp only
  rw [if_pos hfail]
  simp only
  have : write_calls w.g wr 0 (k + 1) = write_calls w.g wr 0 k
      ++ [.fs_write (written_after wr k) (chunk_at w.g (written_after wr k))] := by
    simp [write_calls, List.range'_concat]
  rw [this]
  simp [chunk_at]


/-! ## Names and successful saves -/

theorem decimal_value_zeros (k : Nat) (ds : List Nat) :
    decimal_value (List.replicate k 48 ++ ds) = decimal_value ds := by
  have h : ∀ k, List.foldl (fun acc d => acc * 10 + (d - 48)) 0 (List.replicate k 48) = 0 := by
    intro k
    induction k with
    | zero => rfl
    | succ k ih =>
      rw [List.replicate_succ', List.foldl_append, ih]
      rfl
  unfold decimal_value
  rw [List.foldl_append, h]

theorem decimal_value_fmt_04d (n : Nat) : decimal_value (fmt_04d (n : Int)) = n := by
  unfold fmt_04d
  rw [if_neg (by omega)]
  simp only [Int.natAbs_ofNat]
  rw [decimal_value_zeros, decimal_digits_value]

theorem photo_name_injective : Function.Injective photo_name := by
  intro a b h
  unfold photo_name at h
  have h1 := List.append_cancel_right h
  have h2 := List.append_cancel_left h1
  have := congrArg decimal_value h2
  rwa [decimal_value_fmt_04d, decimal_value_fmt_04d] at this

theorem to_i32_of_lt (n : Nat) (h : n < 2 ^ 31) : to_i32 n = (n : Int) := by
  unfold to_i32 WORD
  have : n % 2 ^ 32 = n := Nat.mod_eq_of_lt (by omega)
  rw [this, if_pos h]

theorem photo_filename_eq (n : Nat) (h : n < 2 ^ 31) : photo_filename n = photo_name n := by
  unfold photo_filename photo_name
  rw [to_i32_of_lt n h]

theorem opened_append (a b : List FsCall) : opened (a ++ b) = opened a ++ opened b := by
  simp [opened, List.filterMap_append]

theorem opened_write_calls (g : Globals) (wr : Nat → Int) (k n : Nat) :
    opened (write_calls g wr k n) = [] := by
  induction n generalizing k with
  | zero => rfl
  | succ n ih => rw [write_calls_succ]; simpa [opened] using ih (k + 1)

/-- What a save that returns 0 has done to the counter and to the list of opened files. -/
theorem save_jpeg_to_sd_ok (fuel : Nat) (open_ret : Int) (wr : Nat → Int) (w w' : World)
    (h : save_jpeg_to_sd fuel open_ret wr w = some (0, w')) :
    w'.g.file_counter = (w.g.file_counter + 1) % WORD ∧
    opened w'.fs = opened w.fs ++ [photo_filename w.g.file_counter] ∧
    w.g.jpeg_complete = true ∧ w.g.jpeg_len ≠ 0 ∧ open_ret = 0 ∧
    ∃ n, (∀ j < n, 0 ≤ wr j) ∧ w.g.jpeg_len ≤ written_after wr n := by
  by_cases hdata : w.g.jpeg_complete = true ∧ w.g.jpeg_len ≠ 0
  · obtain ⟨hd, hl⟩ := hdata
    by_cases hopen : open_ret = 0
    · subst hopen
      rw [save_jpeg_to_sd_open fuel wr w hd hl] at h
      cases hloop : write_loop w.g wr fuel 0 0 (w.fs ++ [.fs_open (photo_filename w.g.file_counter)]) with
      | none => rw [hloop] at h; simp at h
      | some r =>
        obtain ⟨e, fs'⟩ := r
        rw [hloop] at h
        obtain ⟨n, hn, hres⟩ := write_loop_some w.g wr fuel 0 _ e fs' hloop
        rw [Nat.zero_add] at hres
        rcases hres with ⟨he, hall, hfs⟩ | ⟨he, hneg, -, -⟩
        · subst he
          simp only [Option.some.injEq, Prod.mk.injEq, true_and] at h
          subst h
          refine ⟨rfl, ?_, hd, hl, rfl, n, fun j hj => (hn j (by omega) (by omega)).1, hall⟩
          show opened (fs' ++ [FsCall.fs_close]) = _
          rw [hfs, opened_append, opened_append, opened_append, opened_write_calls]
          simp [opened]
        · subst he
          simp only [Option.some.injEq, Prod.mk.injEq] at h
          omega
    · rw [save_jpeg_to_sd_open_failed fuel open_ret wr w hd hl hopen] at h
      simp only [Option.some.injEq, Prod.mk.injEq] at h
      exact absurd h.1 hopen
  · unfold save_jpeg_to_sd at h
    have : (!w.g.jpeg_complete) = true ∨ w.g.jpeg_len = 0 := by
      by_cases hc : w.g.jpeg_complete = true
      · right
        by_contra hl
        exact hdata ⟨hc, hl⟩
      · left; simpa using hc
    rw [if_pos this] at h
    simp only [Option.some.injEq, Prod.mk.injEq] at h
    have : (- ENODATA : Int) ≠ 0 := by decide
    exact absurd h.1 this


/-! ## Consecutive saves -/

theorem save_sequence_ok (fuel : Nat) : ∀ (calls : List (Globals × Int × (Nat → Int)))
    (w : World) (rets : List Int) (w' : World),
    save_sequence fuel calls w = some (rets, w') → (∀ r ∈ rets, r = 0) →
    w.g.file_counter + calls.length ≤ 2 ^ 31 →
    opened w'.fs = opened w.fs ++ (List.range' w.g.file_counter calls.length).map photo_name ∧
    w'.g.file_counter = w.g.file_counter + calls.length := by
  intro calls
  induction calls with
  | nil =>
    intro w rets w' h _ _
    simp only [save_sequence, Option.some.injEq, Prod.mk.injEq] at h
    rw [← h.2]
    simp
  | cons call calls ih =>
    intro w rets w' h hok hrange
    obtain ⟨payload, open_ret, wr⟩ := call
    rw [save_sequence] at h
    cases hsave : save_jpeg_to_sd fuel open_ret wr
        { w with g := { payload with file_counter := w.g.file_counter } } with
    | none => rw [hsave] at h; simp at h
    | some r =>
      obtain ⟨ret, w1⟩ := r
      rw [hsave] at h
      simp only [Option.map_eq_some', Prod.mk.injEq] at h
      obtain ⟨⟨rets', w2⟩, hseq, hrets, hw⟩ := h
      simp only at hrets hw
      subst hrets hw
      have hret : ret = 0 := hok ret (by simp)
      subst hret
      obtain ⟨hc, ho, -⟩ := save_jpeg_to_sd_ok fuel open_ret wr _ w1 hsave
      simp only at hc ho
      simp only [List.length_cons] at hrange ⊢
      have hc1 : w1.g.file_counter = w.g.file_counter + 1 := by
        rw [hc]
        exact Nat.mod_eq_of_lt (by unfold WORD; omega)
      obtain ⟨h1, h2⟩ := ih w1 rets' w2 hseq (fun r hr => hok r (by simp [hr]))
        (by rw [hc1]; omega)
      rw [h1, h2, ho, hc1, List.range'_succ, List.map_cons,
        photo_filename_eq _ (by show w.g.file_counter < 2 ^ 31; omega)]
      constructor
      · simp
      · omega

/-! ## Recovering the counter -/

theorem strtol10_digits_then (ds : List Nat) (c : Nat) (post : List Nat) (hne : ds ≠ [])
    (hdig : ∀ d ∈ ds, isdigit d = true) (hc : isdigit c = false) :
    strtol10 (ds ++ c :: post) = min ((decimal_value ds : Nat) : Int) INT_MAX := by
  cases ds with
  | nil => exact absurd rfl hne
  | cons d ds =>
    have hd : isdigit d = true := hdig d (by simp)
    have hd' := (isdigit_iff d).mp hd
    have hsp : isspace d = false := isspace_of_isdigit d hd
    have h45 : d ≠ 45 := by omega
    have h43 : d ≠ 43 := by omega
    have htw : List.takeWhile isdigit (d :: ds ++ c :: post) = d :: ds := by
      rw [List.takeWhile_append_of_pos hdig]
      simp [hc]
    unfold strtol10
    simp only [List.cons_append, List.dropWhile_cons, hsp, Bool.false_eq_true, ↓reduceIte,
      List.head?_cons, Option.some.injEq, h45, h43, or_self, decide_False]
    rw [← List.cons_append, htw]

theorem fmt_04d_isdigit (n : Nat) : ∀ d ∈ fmt_04d (n : Int), isdigit d = true := by
  unfold fmt_04d
  rw [if_neg (by omega)]
  intro d hd
  simp only [Int.natAbs_ofNat, List.mem_append, List.mem_replicate] at hd
  rcases hd with ⟨-, h⟩ | h
  · subst h; rfl
  · exact decimal_digits_isdigit n d h

theorem fmt_04d_ne_nil (n : Nat) : fmt_04d (n : Int) ≠ [] := by
  unfold fmt_04d
  rw [if_neg (by omega)]
  simp [decimal_digits_ne_nil]

/-- `sscanf` with `"photo_%d.jpg"` reads the sequence number back from an artifact name. -/
theorem sscanf_photo_entry (n : Nat) (h : n ≤ 2147483647) :
    sscanf_photo (photo_entry n) = some (n : Int) := by
  obtain ⟨d, ds, hds⟩ : ∃ d ds, fmt_04d (n : Int) = d :: ds := by
    cases hf : fmt_04d (n : Int) with
    | nil => exact absurd hf (fmt_04d_ne_nil n)
    | cons d ds => exact ⟨d, ds, rfl⟩
  have hdig := fmt_04d_isdigit n
  have hval := decimal_value_fmt_04d n
  rw [hds] at hdig hval
  have hd : isdigit d = true := hdig d (by simp)
  have hd' := (isdigit_iff d).mp hd
  have hsp : isspace d = false := isspace_of_isdigit d hd
  have h45 : d ≠ 45 := by omega
  have h43 : d ≠ 43 := by omega
  have htw : List.takeWhile isdigit (d :: ds ++ [46, 106, 112, 103]) = d :: ds := by
    rw [List.takeWhile_append_of_pos hdig]
    simp [isdigit]
  have hstr := strtol10_digits_then (d :: ds) 46 [106, 112, 103] (by simp) hdig (by decide)
  rw [hval, min_eq_left (show (n : Int) ≤ INT_MAX by show (n : Int) ≤ 2147483647; omega)] at hstr
  unfold sscanf_photo photo_entry
  rw [hds]
  simp only [List.cons_append, List.nil_append, List.isPrefixOf_cons₂_self, List.isPrefixOf,
    ↓reduceIte, List.drop_succ_cons, List.drop_zero, List.dropWhile_cons, hsp,
    Bool.false_eq_true, List.head?_cons, Option.some.injEq, h45, h43, or_self]
  rw [← List.cons_append, htw]
  simp only [List.cons_append] at hstr
  simp only [beq_self_eq_true, Bool.and_self, ↓reduceIte, List.cons_append, hstr,
    Option.some.injEq]
  rw [if_neg (by simp)]

theorem scan_entry_photo (c n : Nat) (h : n < 2147483647) :
    scan_entry c (photo_entry n) = max c (n + 1) := by
  have hstr : (strstr (photo_entry n) [112, 104, 111, 116, 111, 95]).isSome = true := by
    have := strstr_append_left [112, 104, 111, 116, 111, 95] (fmt_04d (n : Int) ++ [46, 106, 112, 103])
    unfold photo_entry
    rw [List.append_assoc, this]
    rfl
  unfold scan_entry
  rw [if_pos hstr, sscanf_photo_entry n (by omega)]
  simp only
  have h1 : to_u32 (n : Int) = n := to_u32_of_nonneg n (by unfold WORD; omega)
  have h2 : to_u32 ((n : Int) + 1) = n + 1 := by
    have := to_u32_of_nonneg (n + 1) (by unfold WORD; omega)
    simpa using this
  rw [h1, h2]
  split <;> omega

theorem scan_entry_other (c : Nat) (name : List Nat) (h : sscanf_photo name = none) :
    scan_entry c name = c := by
  unfold scan_entry
  rw [h]
  split <;> rfl

theorem foldl_scan_entry (items : List (Nat ⊕ List Nat)) (c : Nat) (hc : c ≤ 2147483647)
    (hitems : ∀ e ∈ items, match e with
      | .inl n => n < 2147483647
      | .inr name => sscanf_photo name = none) :
    (items.map entry_name).foldl scan_entry c
      = (items.filterMap (fun e => e.getLeft?)).foldl (fun acc n => max acc (n + 1)) c := by
  induction items generalizing c with
  | nil => rfl
  | cons e items ih =>
    have he := hitems e (by simp)
    have hrest : ∀ e' ∈ items, match e' with
        | .inl n => n < 2147483647
        | .inr name => sscanf_photo name = none := fun e' h' => hitems e' (by simp [h'])
    cases e with
    | inl n =>
      simp only at he
      simp only [List.map_cons, entry_name, List.foldl_cons, List.filterMap_cons,
        Sum.getLeft?_inl]
      rw [scan_entry_photo c n he]
      exact ih _ (by omega) hrest
    | inr name =>
      simp only at he
      simp only [List.map_cons, entry_name, List.foldl_cons, List.filterMap_cons,
        Sum.getLeft?_inr]
      rw [scan_entry_other c name he]
      exact ih _ hc hrest

/-- Recovery of the counter from a listing of artifact names mixed with names from which
`sscanf` converts no number: one past the largest sequence number, 0 for none. -/
theorem init_sd_card_recovers (items : List (Nat ⊕ List Nat)) (g : Globals)
    (hzero : g.file_counter = 0)
    (hnames : ∀ e ∈ items, entry_name e ≠ [])
    (hitems : ∀ e ∈ items, match e with
      | .inl n => n < 2147483647
      | .inr name => sscanf_photo name = none) :
    (init_sd_card 0 0 0 (items.map entry_name) g).2.file_counter
      = next_sequence_number (items.filterMap (fun e => e.getLeft?)) := by
  have htw : List.takeWhile (fun name => decide (name ≠ [])) (items.map entry_name)
      = items.map entry_name := by
    rw [List.takeWhile_eq_self_iff]
    intro name hname
    obtain ⟨e, he, rfl⟩ := List.mem_map.mp hname
    simpa using hnames e he
  unfold init_sd_card next_sequence_number
  simp only [ne_eq, not_true_eq_false, ↓reduceIte, htw, hzero]
  exact foldl_scan_entry items 0 (by omega) hitems


/-! ## A payload that fills the buffer -/

/-- The case of `reaches_check_after_request` in which the whole payload arrives during
the first sleep of the payload loop and nothing during the extra sleep. -/
theorem reaches_check_single_batch (fuel : Nat) (w : World) (L : Nat) (data : List Nat)
    (rest : List (List Nat))
    (hL : 0 < L ∧ L ≤ JPEG_MAX_SIZE) (hsize : w.g.jpeg_buffer.length = JPEG_MAX_SIZE)
    (hrx : w.rx = [img_header (decimal_digits L), data, []] ++ rest)
    (hfull : L ≤ data.length) (hfuel : 0 < fuel) :
    reaches_check fuel (request_capture w).2 (world_at_check w L data 1 rest) := by
  have h := reaches_check_after_request fuel w L [] data [] rest hL hsize (by simpa using hrx)
    (by simpa using hL.1) (by simpa using hfull) (by decide) (by simpa using hfuel)
  simpa using h

theorem full_frame_length :
    (jpeg_frame (List.replicate JPEG_MAX_SIZE 0)).length = JPEG_MAX_SIZE + 8 := by
  rw [jpeg_frame_length, List.length_replicate]

theorem scenario_full_reaches_check :
    reaches_check 1 (request_capture scenario_full).2 scenario_full_check :=
  reaches_check_single_batch 1 scenario_full JPEG_MAX_SIZE
    (jpeg_frame (List.replicate JPEG_MAX_SIZE 0)) [] ⟨by decide, Nat.le_refl _⟩
    (by simp [scenario_full, World.boot, Globals.init])
    (by simp only [scenario_full, World.boot, List.append_nil])
    (by rw [full_frame_length]; omega) (by decide)

theorem scenario_full_check_len : scenario_full_check.g.jpeg_len = JPEG_MAX_SIZE := by
  have hM : JPEG_MAX_SIZE = 524288 := rfl
  show min (jpeg_frame (List.replicate JPEG_MAX_SIZE 0)).length JPEG_MAX_SIZE = _
  rw [jpeg_frame_length, List.length_replicate]
  omega

theorem scenario_full_check_buffer (i : Nat) (hi : i < JPEG_MAX_SIZE) :
    scenario_full_check.g.jpeg_buffer[i]? = some 0 := by
  show (List.take JPEG_MAX_SIZE (jpeg_frame (List.replicate JPEG_MAX_SIZE 0)) ++ _)[i]? = _
  have : List.take JPEG_MAX_SIZE (jpeg_frame (List.replicate JPEG_MAX_SIZE 0))
      = List.replicate JPEG_MAX_SIZE 0 := by
    unfold jpeg_frame
    rw [List.take_append_eq_append_take, List.length_replicate, Nat.sub_self, List.take_zero,
      List.append_nil, List.take_of_length_le (by simp)]
  rw [this, List.getElem?_append_left (by simpa using hi), List.getElem?_replicate, if_pos hi]

/-- A payload that fills the whole buffer: the trailer behind it is dropped by the
interrupt handler and the run ends with "END marker not found". -/
theorem scenario_full_run :
    receive_jpeg 1 (request_capture scenario_full).2 = some (0, { scenario_full_check with
      g := { scenario_full_check.g with receiving_jpeg := false, jpeg_complete := true },
      log := scenario_full_check.log ++ [.end_marker_missing] }) := by
  have hM : JPEG_MAX_SIZE = 524288 := rfl
  rw [receive_jpeg_of_reaches_check _ _ _ scenario_full_reaches_check,
    end_marker_check_missing _ (Or.inr (find_end_marker_none _ _ (by
      intro i h1 h2 hm
      rw [scenario_full_check_len] at h1 h2
      have h0 := marker_at_getElem? _ i 0 hm (by omega)
      rw [Nat.add_zero, scenario_full_check_buffer i (by omega)] at h0
      simp [END_PATTERN] at h0)))]

/-- C3. A missing trailer is not fatal: if the run of `receive_jpeg` comes to the
end-marker check (so `jpeg_len >= expected_jpeg_len` was seen) and `"\nEND:"`
stands nowhere in the last ten received bytes, `receive_jpeg` returns 0 with
`jpeg_complete` set, and `jpeg_len` and `jpeg_buffer` are as received. -/
theorem missing_trailer_nonfatal (fuel : Nat) (w0 u : World)
    (hrun : reaches_check fuel w0 u)
    (hnone : ∀ i, u.g.jpeg_len - 10 ≤ i → i + 5 ≤ u.g.jpeg_len → ¬ marker_at u.g.jpeg_buffer i) :
    receive_jpeg fuel w0 = some (0, { u with
      g := { u.g with receiving_jpeg := false, jpeg_complete := true },
      log := u.log ++ [.end_marker_missing] }) := by
  rw [receive_jpeg_of_reaches_check _ _ _ hrun,
    end_marker_check_missing u (Or.inr (find_end_marker_none _ _ hnone))]

/-- Counterexample to C4 as stated, at both ends of the range of lengths.  For the
declared length 1 the payload `"a"` with its trailer `"\nEND:61\n"` is nine
bytes, the end marker is not looked for, and `receive_jpeg` returns with
`jpeg_len = 9`, the trailer still in the payload, and logs "END marker not
found".  For the declared length `JPEG_MAX_SIZE` the payload fills the buffer,
the trailer is dropped, and `receive_jpeg` logs "END marker not found". -/
theorem framing_round_trip_fails_at_both_ends :
    (receive_jpeg 1 (request_capture (World.boot
        [img_header (decimal_digits 1), jpeg_frame [97], []])).2).map
      (fun r => (r.1, r.2.g.expected_jpeg_len, r.2.g.jpeg_len, r.2.g.jpeg_buffer.take 9, r.2.log))
      = some (0, 1, 9, [97, 10, 69, 78, 68, 58, 54, 49, 10], [.end_marker_missing]) ∧
    (receive_jpeg 1 (request_capture scenario_full).2).map
      (fun r => (r.1, r.2.g.expected_jpeg_len, r.2.g.jpeg_len, r.2.log))
      = some (0, JPEG_MAX_SIZE, JPEG_MAX_SIZE, [.end_marker_missing]) := by
  refine ⟨by decide, ?_⟩
  rw [scenario_full_run]
  show some ((0 : Int), scenario_full_check.g.expected_jpeg_len, scenario_full_check.g.jpeg_len,
    scenario_full_check.log ++ [Integrity.end_marker_missing]) = _
  rw [scenario_full_check_len]
  rfl

/-- Witness for C3: scenario C, twelve bytes received and no marker among the last ten. -/
theorem missing_trailer_nonfatal_witness :
    receive_jpeg 1 (request_capture scenario_c).2 = some (0, { scenario_c_check with
      g := { scenario_c_check.g with receiving_jpeg := false, jpeg_complete := true },
      log := scenario_c_check.log ++ [.end_marker_missing] }) :=
  missing_trailer_nonfatal 1 (request_capture scenario_c).2 scenario_c_check
    scenario_c_reaches_check (by
      intro i h1 h2
      have hlen : scenario_c_check.g.jpeg_len = 12 := by decide
      rw [hlen] at h1 h2
      have hi : 2 ≤ i ∧ i ≤ 7 := by omega
      obtain ⟨hlo, hhi⟩ := hi
      interval_cases i <;> decide)


/-! ## Claims about the header loop -/

/-- C10. Header timeout.  If after a capture request the text buffer holds neither
`"IMG:"` with a newline behind it nor `"ERR:"` at any of the first 3000 polls,
then `receive_jpeg` returns `-ETIMEDOUT` after exactly 3000 sleeps of 10 ms,
`receiving_jpeg` is false at every poll and at the end, and `capture_and_save`
returns `-ETIMEDOUT` without a call to the file system and with the file
counter unchanged. -/
theorem header_timeout (fuel : Nat) (open_ret : Int) (wr : Nat → Int) (w : World)
    (hfuel : 3000 < fuel)
    (hquiet : ∀ j < 3000,
      ¬ header_seen (cstr ((request_capture w).2.at_poll (j + 1)).g.uart_rx_buf) ∧
      ¬ error_seen (cstr ((request_capture w).2.at_poll (j + 1)).g.uart_rx_buf)) :
    receive_jpeg fuel (request_capture w).2
      = some (- ETIMEDOUT, (request_capture w).2.at_poll 3000) ∧
    capture_and_save fuel open_ret wr w
      = some (- ETIMEDOUT, (request_capture w).2.at_poll 3000) ∧
    ((request_capture w).2.at_poll 3000).slept = w.slept ++ List.replicate 3000 10 ∧
    (∀ n, ((request_capture w).2.at_poll n).g.receiving_jpeg = false) ∧
    ((request_capture w).2.at_poll 3000).fs = w.fs ∧
    ((request_capture w).2.at_poll 3000).g.file_counter = w.g.file_counter := by
  have hloop : header_loop 30000 fuel 0 (request_capture w).2
      = some (.fell_through ((request_capture w).2.at_poll 3000)) := by
    rw [header_loop_skip 30000 3000 fuel 0 (request_capture w).2
      (fun j hj => header_poll_quiet _ (hquiet j hj).1 (hquiet j hj).2) (fun j hj => by omega)
      (by omega)]
    obtain ⟨f, hf⟩ : ∃ f, fuel - 3000 = f + 1 := ⟨fuel - 3000 - 1, by omega⟩
    rw [hf, header_loop, if_neg (by omega)]
    rfl
  have hmode : ∀ n, ((request_capture w).2.at_poll n).g.receiving_jpeg = false := fun n =>
    (at_poll_keeps (request_capture w).2 n).2.2.2.2.2.1
  have hrecv : receive_jpeg fuel (request_capture w).2
      = some (- ETIMEDOUT, (request_capture w).2.at_poll 3000) := by
    unfold receive_jpeg
    simp only [hloop, hmode 3000, Bool.not_false, ↓reduceIte]
  obtain ⟨k1, -, -, k4, k5, -, -⟩ := at_poll_keeps (request_capture w).2 3000
  refine ⟨hrecv, ?_, k4, hmode, k1, k5⟩
  unfold capture_and_save
  have h0 : (request_capture w).1 = 0 := rfl
  have hne : (- ETIMEDOUT : Int) ≠ 0 := by decide
  simp only [h0, ne_eq, not_true_eq_false, ↓reduceIte, hrecv, hne, not_false_eq_true]

/-- Witness for C10: scenario D, nothing ever arrives. -/
theorem header_timeout_witness :
    receive_jpeg 3001 (request_capture scenario_d).2
      = some (- ETIMEDOUT, (request_capture scenario_d).2.at_poll 3000) ∧
    capture_and_save 3001 0 (fun _ => 4096) scenario_d
      = some (- ETIMEDOUT, (request_capture scenario_d).2.at_poll 3000) ∧
    ((request_capture scenario_d).2.at_poll 3000).slept = scenario_d.slept ++ List.replicate 3000 10 ∧
    (∀ n, ((request_capture scenario_d).2.at_poll n).g.receiving_jpeg = false) ∧
    ((request_capture scenario_d).2.at_poll 3000).fs = scenario_d.fs ∧
    ((request_capture scenario_d).2.at_poll 3000).g.file_counter = scenario_d.g.file_counter :=
  header_timeout 3001 0 (fun _ => 4096) scenario_d (by decide) (fun j _ => by
    rw [scenario_d_text]
    constructor
    · rintro ⟨pre, post, h, -⟩
      simp [RESP_IMG] at h
    · rintro ⟨pre, post, h⟩
      simp [RESP_ERR] at h)

/-! ## Claims about `save_jpeg_to_sd` -/

/-- C7 (amended). Sequence numbering of saves while the counter stays below `2 ^ 31`:
if `N` consecutive calls of `save_jpeg_to_sd` all return 0 and the initial
counter `C` has `C + N ≤ 2 ^ 31`, the files they open are
`"/SD:/photo_%04d.jpg"` for `C`, `C + 1`, ..., `C + N - 1` in that order, the
names are pairwise different, and the counter is `C + N` afterwards. -/
theorem save_sequence_numbering (fuel : Nat) (calls : List (Globals × Int × (Nat → Int)))
    (w : World)
    (hok : (save_sequence fuel calls w).map Prod.fst = some (List.replicate calls.length 0))
    (hrange : w.g.file_counter + calls.length ≤ 2 ^ 31) :
    (save_sequence fuel calls w).map (fun r => (opened r.2.fs, r.2.g.file_counter))
      = some (opened w.fs ++ (List.range' w.g.file_counter calls.length).map photo_name,
          w.g.file_counter + calls.length) ∧
    ((List.range' w.g.file_counter calls.length).map photo_name).Nodup := by
  refine ⟨?_, List.Nodup.map photo_name_injective (List.nodup_range' _ _)⟩
  cases hrun : save_sequence fuel calls w with
  | none => rw [hrun] at hok; simp at hok
  | some r =>
    obtain ⟨rets, w'⟩ := r
    rw [hrun] at hok
    simp only [Option.map_some', Option.some.injEq] at hok
    obtain ⟨h1, h2⟩ := save_sequence_ok fuel calls w rets w' hrun
      (fun r hr => by rw [hok] at hr; exact (List.mem_replicate.mp hr).2) hrange
    simp [h1, h2]

/-- Witness for C7: two saves of the payload of scenario A, starting from the counter 0. -/
theorem save_sequence_numbering_witness :
    (save_sequence 2 [(scenario_a_received.g, 0, fun _ => 3), (scenario_a_received.g, 0, fun _ => 3)]
        scenario_a_received).map (fun r => (opened r.2.fs, r.2.g.file_counter))
      = some (opened scenario_a_received.fs
          ++ (List.range' scenario_a_received.g.file_counter
            [(scenario_a_received.g, (0 : Int), fun (_ : Nat) => (3 : Int)),
              (scenario_a_received.g, 0, fun _ => 3)].length).map photo_name,
          scenario_a_received.g.file_counter
            + [(scenario_a_received.g, (0 : Int), fun (_ : Nat) => (3 : Int)),
              (scenario_a_received.g, 0, fun _ => 3)].length) ∧
    ((List.range' scenario_a_received.g.file_counter
      [(scenario_a_received.g, (0 : Int), fun (_ : Nat) => (3 : Int)),
        (scenario_a_received.g, 0, fun _ => 3)].length).map photo_name).Nodup :=
  save_sequence_numbering 2 _ scenario_a_received (by decide) (by decide)

/-- Counterexample to C7 as stated: from the counter `2 ^ 32 - 1` one successful save
opens `"/SD:/photo_-001.jpg"` and leaves the counter 0; from the counter
`2 ^ 31` one successful save opens `"/SD:/photo_-2147483648.jpg"`.  The counter
`2 ^ 32 - 1` is what `init_sd_card` recovers from a directory that holds a file
named `photo_-2.jpg`. -/
theorem save_sequence_numbering_fails_at_wrap :
    (save_sequence 2 [(scenario_a_received.g, 0, fun _ => 3)]
        { scenario_a_received with
          g := { scenario_a_received.g with file_counter := 4294967295 } }).map
      (fun r => (r.1, opened r.2.fs, r.2.g.file_counter))
      = some ([0], [bytes "/SD:/photo_-001.jpg"], 0) ∧
    (save_sequence 2 [(scenario_a_received.g, 0, fun _ => 3)]
        { scenario_a_received with
          g := { scenario_a_received.g with file_counter := 2147483648 } }).map
      (fun r => (r.1, opened r.2.fs, r.2.g.file_counter))
      = some ([0], [bytes "/SD:/photo_-2147483648.jpg"], 2147483649) ∧
    (init_sd_card 0 0 0 [bytes "photo_-2.jpg"] Globals.init).2.file_counter = 4294967295 := by
  refine ⟨by decide, by decide, by decide⟩

/-! ## Claims about `calculate_checksum` -/

/-- C6. `calculate_checksum(data, len)` on an array of bytes is the exclusive-or fold of
its first `len` bytes from 0, an 8-bit value; it is 0 for `len = 0`; and the
function leaves the array as it was. -/
theorem calculate_checksum_is_xor_fold (data : List Nat) (len : Nat) (hlen : len ≤ data.length)
    (hbytes : ∀ b ∈ data, b < 256) :
    calculate_checksum data len = xor_fold (data.take len) ∧
    calculate_checksum data len < 256 ∧
    calculate_checksum data 0 = 0 ∧
    (calculate_checksum_run data len).data = data := by
  have htake : ∀ b ∈ data.take len, b < 256 := fun b hb => hbytes b (List.mem_of_mem_take hb)
  have h := calculate_checksum_take data len hlen htake
  refine ⟨h, ?_, rfl, checksum_loop_data _ _ _⟩
  rw [h]
  exact xor_fold_lt _ htake

/-- Witness for C6: the first two of the three bytes `FF 5A 03`. -/
theorem calculate_checksum_is_xor_fold_witness :
    calculate_checksum [255, 90, 3] 2 = xor_fold ([255, 90, 3].take 2) ∧
    calculate_checksum [255, 90, 3] 2 < 256 ∧
    calculate_checksum [255, 90, 3] 0 = 0 ∧
    (calculate_checksum_run [255, 90, 3] 2).data = [255, 90, 3] :=
  calculate_checksum_is_xor_fold [255, 90, 3] 2 (by decide) (by decide)

/-! ## Claim about `init_sd_card` -/

/-- C8, the code at the failing input.  A directory that holds only `photo_0007.txt`,
which is no artifact name, makes `init_sd_card` set the counter to 8 where the
claim says 0; next to the artifact `photo_0003.jpg` it makes the counter 8
where the claim says 4. -/
theorem init_sd_card_counts_other_extension :
    (init_sd_card 0 0 0 [bytes "photo_0007.txt"] Globals.init).2.file_counter = 8 ∧
    (init_sd_card 0 0 0 [bytes "photo_0003.jpg", bytes "photo_0007.txt"]
      Globals.init).2.file_counter = 8 ∧
    bytes "photo_0003.jpg" = photo_entry 3 ∧
    (∀ n, photo_entry n ≠ bytes "photo_0007.txt") := by
  refine ⟨by decide, by decide, by decide, ?_⟩
  intro n h
  have h1 := congrArg List.getLast? h
  have h2 : (bytes "photo_0007.txt").getLast? = some 116 := by decide
  have h3 : (photo_entry n).getLast? = some 103 := by
    unfold photo_entry
    rw [show ([46, 106, 112, 103] : List Nat) = [46, 106, 112] ++ [103] from rfl,
      ← List.append_assoc, List.getLast?_append]
    rfl
  rw [h2, h3] at h1
  simp at h1


/-! ## The error line -/

/-- Without a header in the text, `header_poll` only looks for `"ERR:"` and leaves
the world as it is. -/
theorem header_poll_no_header (w : World) (h1 : ¬ header_seen (cstr w.g.uart_rx_buf)) :
    header_poll w =
      if (strstr (cstr w.g.uart_rx_buf) RESP_ERR).isSome then .returned (- EIO) w
      else .continued w := by
  unfold header_poll
  cases h : strstr (cstr w.g.uart_rx_buf) RESP_IMG with
  | none => simp only [h]
  | some i =>
    obtain ⟨pre, post, hsplit, hlen⟩ := strstr_some_split _ _ _ h
    have hno : strchr ((cstr w.g.uart_rx_buf).drop i) 10 = false := by
      rw [Bool.eq_false_iff]
      intro hc
      rw [strchr_iff, hsplit, ← hlen] at hc
      simp [RESP_IMG] at hc
      exact h1 ⟨pre, post, hsplit, hc⟩
    simp only [h, hno, Bool.false_eq_true, ↓reduceIte]

theorem isr_byte_bounded (g : Globals) (c : Nat) (h : g.Bounded) : (isr_byte g c).Bounded := by
  obtain ⟨h1, h2⟩ := h
  unfold isr_byte
  split <;> split
  · exact ⟨Nat.succ_le_of_lt (by assumption), h2⟩
  · exact ⟨h1, h2⟩
  · exact ⟨h1, Nat.succ_le_of_lt (by assumption)⟩
  · exact ⟨h1, h2⟩

theorem isr_byte_wf (g : Globals) (c : Nat) (h : g.WF) : (isr_byte g c).WF := by
  unfold isr_byte
  split <;> split <;>
    first | exact h | exact ⟨by simpa using h.rx_size, by simpa using h.jpeg_size⟩

theorem uart_isr_bounded (bs : List Nat) (g : Globals) (h : g.Bounded) : (uart_isr g bs).Bounded := by
  induction bs generalizing g with
  | nil => exact h
  | cons c bs ih => exact ih (isr_byte g c) (isr_byte_bounded g c h)

/-- A byte that finds the selected buffer full changes nothing. -/
theorem isr_byte_full (g : Globals) (c : Nat) (h : selected_buffer_full g) : isr_byte g c = g := by
  unfold isr_byte
  rcases h with ⟨hm, hl⟩ | ⟨hm, hl⟩
  · rw [if_pos hm, if_neg (by omega)]
  · rw [if_neg (by simp [hm]), if_neg (by omega)]

theorem find_end_marker_bounds (buf : List Nat) (len i : Nat)
    (h : find_end_marker buf len = some i) : len - 10 ≤ i ∧ i + 5 ≤ len ∧ marker_at buf i := by
  unfold find_end_marker at h
  have hmem := List.mem_of_find?_eq_some h
  have hp := List.find?_some h
  rw [List.mem_range'] at hmem
  obtain ⟨k, hk, rfl⟩ := hmem
  refine ⟨by omega, by omega, ?_⟩
  simpa [marker_at] using hp

/-- What the end-marker check leaves: it returns 0 with `jpeg_complete` set and text
mode restored, cuts at most ten bytes off a payload of more than ten, and
touches neither the buffers nor anything else. -/
theorem end_marker_check_result (w : World) :
    (end_marker_check w).1 = 0 ∧
    (end_marker_check w).2.g.jpeg_complete = true ∧
    (end_marker_check w).2.g.receiving_jpeg = false ∧
    (end_marker_check w).2.g.jpeg_len ≤ w.g.jpeg_len ∧
    w.g.jpeg_len ≤ (end_marker_check w).2.g.jpeg_len + 10 ∧
    (1 ≤ w.g.jpeg_len → 1 ≤ (end_marker_check w).2.g.jpeg_len) ∧
    (end_marker_check w).2.g.jpeg_buffer = w.g.jpeg_buffer ∧
    (end_marker_check w).2.g.uart_rx_buf = w.g.uart_rx_buf ∧
    (end_marker_check w).2.g.uart_rx_len = w.g.uart_rx_len ∧
    (end_marker_check w).2.g.expected_jpeg_len = w.g.expected_jpeg_len ∧
    (end_marker_check w).2.g.file_counter = w.g.file_counter ∧
    (end_marker_check w).2.fs = w.fs ∧ (end_marker_check w).2.rx = w.rx ∧
    (end_marker_check w).2.slept = w.slept ∧ (end_marker_check w).2.tx = w.tx := by
  by_cases hlen : w.g.jpeg_len ≤ 10
  · rw [end_marker_check_missing w (Or.inl hlen)]
    exact ⟨rfl, rfl, rfl, Nat.le_refl _, Nat.le_add_right _ _, fun h => h, rfl, rfl, rfl, rfl,
      rfl, rfl, rfl, rfl, rfl⟩
  · cases hfind : find_end_marker w.g.jpeg_buffer w.g.jpeg_len with
    | none =>
      rw [end_marker_check_missing w (Or.inr hfind)]
      exact ⟨rfl, rfl, rfl, Nat.le_refl _, Nat.le_add_right _ _, fun h => h, rfl, rfl, rfl, rfl,
        rfl, rfl, rfl, rfl, rfl⟩
    | some i =>
      obtain ⟨b1, b2, -⟩ := find_end_marker_bounds _ _ _ hfind
      cases hscan : sscanf_02hhX (w.g.jpeg_buffer.drop (i + 5)) with
      | none =>
        rw [end_marker_check_unparsed w i (by omega) hfind hscan]
        exact ⟨rfl, rfl, rfl, by show i ≤ _; omega, by show _ ≤ i + 10; omega,
          fun _ => by show 1 ≤ i; omega, rfl, rfl, rfl, rfl, rfl, rfl, rfl, rfl, rfl⟩
      | some rc =>
        rw [end_marker_check_found w i rc (by omega) hfind hscan]
        exact ⟨rfl, rfl, rfl, by show i ≤ _; omega, by show _ ≤ i + 10; omega,
          fun _ => by show 1 ≤ i; omega, rfl, rfl, rfl, rfl, rfl, rfl, rfl, rfl, rfl⟩

/-- The four ways a pass through the body of the header loop can end. -/
theorem header_poll_cases (w : World) :
    header_poll w = .continued w ∨ header_poll w = .returned (- EIO) w ∨
    (∃ e, (e = 0 ∨ JPEG_MAX_SIZE < e) ∧
      header_poll w = .returned (- EINVAL) { w with g := { w.g with expected_jpeg_len := e } }) ∨
    (∃ e, 0 < e ∧ e ≤ JPEG_MAX_SIZE ∧
      header_poll w = .broke { w with g := { w.g with
        expected_jpeg_len := e, receiving_jpeg := true, jpeg_len := 0, uart_rx_len := 0 } }) := by
  have herr : ∀ p : Poll,
      p = (if (strstr (cstr w.g.uart_rx_buf) RESP_ERR).isSome then .returned (- EIO) w
        else .continued w) → p = .continued w ∨ p = .returned (- EIO) w := by
    intro p hp
    by_cases h : (strstr (cstr w.g.uart_rx_buf) RESP_ERR).isSome = true
    · rw [if_pos h] at hp; exact Or.inr hp
    · rw [if_neg h] at hp; exact Or.inl hp
  cases h : strstr (cstr w.g.uart_rx_buf) RESP_IMG with
  | none =>
    have hp : header_poll w = if (strstr (cstr w.g.uart_rx_buf) RESP_ERR).isSome
        then .returned (- EIO) w else .continued w := by
      unfold header_poll; simp only [h]
    rcases herr _ hp with h1 | h1
    · exact Or.inl h1
    · exact Or.inr (Or.inl h1)
  | some i =>
    by_cases hnl : strchr ((cstr w.g.uart_rx_buf).drop i) 10 = true
    · by_cases hbad : to_u32 (atoi ((cstr w.g.uart_rx_buf).drop (i + 4))) = 0 ∨
          to_u32 (atoi ((cstr w.g.uart_rx_buf).drop (i + 4))) > JPEG_MAX_SIZE
      · refine Or.inr (Or.inr (Or.inl ⟨_, hbad, ?_⟩))
        unfold header_poll
        simp only [h, hnl, ↓reduceIte]
        rw [if_pos hbad]
      · refine Or.inr (Or.inr (Or.inr ⟨to_u32 (atoi ((cstr w.g.uart_rx_buf).drop (i + 4))),
          by omega, by omega, ?_⟩))
        unfold header_poll
        simp only [h, hnl, ↓reduceIte]
        rw [if_neg hbad]
    · have hp : header_poll w = if (strstr (cstr w.g.uart_rx_buf) RESP_ERR).isSome
          then .returned (- EIO) w else .continued w := by
        unfold header_poll; simp only [h, hnl, Bool.false_eq_true, ↓reduceIte]
      rcases herr _ hp with h1 | h1
      · exact Or.inl h1
      · exact Or.inr (Or.inl h1)

theorem header_poll_bounded (w : World) (h : w.g.Bounded) : (header_poll w).world.g.Bounded := by
  obtain ⟨h1, h2⟩ := h
  rcases header_poll_cases w with hc | hc | ⟨e, -, hc⟩ | ⟨e, -, -, hc⟩ <;> rw [hc]
  · exact ⟨h1, h2⟩
  · exact ⟨h1, h2⟩
  · exact ⟨h1, h2⟩
  · exact ⟨Nat.zero_le _, Nat.zero_le _⟩

theorem header_poll_wf (w : World) (h : w.g.WF) : (header_poll w).world.g.WF := by
  obtain ⟨h1, h2⟩ := h
  rcases header_poll_cases w with hc | hc | ⟨e, -, hc⟩ | ⟨e, -, -, hc⟩ <;> rw [hc] <;> exact ⟨h1, h2⟩

theorem k_msleep_bounded (ms : Nat) (w : World) (h : w.g.Bounded) : (k_msleep ms w).g.Bounded :=
  uart_isr_bounded _ _ h

theorem k_msleep_wf (ms : Nat) (w : World) (h : w.g.WF) : (k_msleep ms w).g.WF :=
  uart_isr_wf _ _ h

theorem payload_poll_bounded (w : World) (h : w.g.Bounded) : (payload_poll w).world.g.Bounded := by
  unfold payload_poll
  split
  · obtain ⟨h1, h2⟩ := k_msleep_bounded 100 w h
    obtain ⟨-, -, -, r1, -, -, -, -, r2, -⟩ := end_marker_check_result (k_msleep 100 w)
    exact ⟨Nat.le_trans r1 h1, by show (finish_payload w).2.g.uart_rx_len ≤ _; unfold finish_payload; omega⟩
  · exact h

theorem payload_poll_wf (w : World) (h : w.g.WF) : (payload_poll w).world.g.WF := by
  unfold payload_poll
  split
  · obtain ⟨h1, h2⟩ := k_msleep_wf 100 w h
    obtain ⟨-, -, -, -, -, -, r1, r2, -⟩ := end_marker_check_result (k_msleep 100 w)
    exact ⟨by show (finish_payload w).2.g.uart_rx_buf.length = _; unfold finish_payload; rw [r2, h1],
      by show (finish_payload w).2.g.jpeg_buffer.length = _; unfold finish_payload; rw [r1, h2]⟩
  · exact h

/-- A save changes no global but the file counter. -/
theorem save_jpeg_to_sd_globals (fuel : Nat) (open_ret : Int) (wr : Nat → Int) (w : World)
    (r : Int × World) (h : save_jpeg_to_sd fuel open_ret wr w = some r) :
    r.2.g = w.g ∨ r.2.g = { w.g with file_counter := (w.g.file_counter + 1) % WORD } := by
  unfold save_jpeg_to_sd at h
  split at h
  · simp only [Option.some.injEq] at h; rw [← h]; exact Or.inl rfl
  · simp only at h
    split at h
    · simp only [Option.some.injEq] at h; rw [← h]; exact Or.inl rfl
    · split at h
      · exact absurd h (by simp)
      · simp only [Option.some.injEq] at h; rw [← h]; exact Or.inl rfl
      · simp only [Option.some.injEq] at h; rw [← h]; exact Or.inr rfl

theorem init_sd_card_globals (disk_ret mount_ret opendir_ret : Int) (entries : List (List Nat))
    (g : Globals) : ∃ c, (init_sd_card disk_ret mount_ret opendir_ret entries g).2
      = { g with file_counter := c } := by
  unfold init_sd_card
  split
  · exact ⟨g.file_counter, rfl⟩
  · split
    · exact ⟨g.file_counter, rfl⟩
    · split
      · exact ⟨_, rfl⟩
      · exact ⟨g.file_counter, rfl⟩

/-- Every step keeps the counters within the capacities and the arrays at their sizes. -/
theorem step_keeps_bounds (s : Step) (w : World) (h : w.g.Bounded ∧ w.g.WF) :
    (s.apply w).g.Bounded ∧ (s.apply w).g.WF := by
  obtain ⟨hb, hw⟩ := h
  cases s with
  | arrive c => exact ⟨isr_byte_bounded _ c hb, isr_byte_wf _ c hw⟩
  | sleep ms => exact ⟨k_msleep_bounded ms w hb, k_msleep_wf ms w hw⟩
  | mount disk_ret mount_ret opendir_ret entries =>
    obtain ⟨c, hc⟩ := init_sd_card_globals disk_ret mount_ret opendir_ret entries w.g
    show ((init_sd_card disk_ret mount_ret opendir_ret entries w.g).2).Bounded ∧
      ((init_sd_card disk_ret mount_ret opendir_ret entries w.g).2).WF
    rw [hc]
    exact ⟨⟨hb.1, hb.2⟩, ⟨hw.1, hw.2⟩⟩
  | request =>
    show (request_capture w).2.g.Bounded ∧ (request_capture w).2.g.WF
    rw [request_capture_snd]
    exact ⟨⟨Nat.zero_le _, Nat.zero_le _⟩, ⟨List.length_replicate _ _, hw.2⟩⟩
  | poll_header => exact ⟨header_poll_bounded w hb, header_poll_wf w hw⟩
  | poll_payload => exact ⟨payload_poll_bounded w hb, payload_poll_wf w hw⟩
  | give_up => exact ⟨⟨hb.1, hb.2⟩, ⟨hw.1, hw.2⟩⟩
  | save fuel open_ret wr =>
    show (((save_jpeg_to_sd fuel open_ret wr w).map Prod.snd).getD w).g.Bounded ∧
      (((save_jpeg_to_sd fuel open_ret wr w).map Prod.snd).getD w).g.WF
    cases hs : save_jpeg_to_sd fuel open_ret wr w with
    | none => exact ⟨hb, hw⟩
    | some r =>
      rcases save_jpeg_to_sd_globals fuel open_ret wr w r hs with hg | hg
      · simp only [Option.map_some', Option.getD_some, hg]; exact ⟨hb, hw⟩
      · simp only [Option.map_some', Option.getD_some, hg]
        exact ⟨⟨hb.1, hb.2⟩, ⟨hw.1, hw.2⟩⟩

theorem run_steps_keeps_bounds (steps : List Step) (w : World) (h : w.g.Bounded ∧ w.g.WF) :
    (run_steps steps w).g.Bounded ∧ (run_steps steps w).g.WF := by
  induction steps generalizing w with
  | nil => exact h
  | cons s steps ih => exact ih (s.apply w) (step_keeps_bounds s w h)

theorem boot_bounds (rx : List (List Nat)) : (World.boot rx).g.Bounded ∧ (World.boot rx).g.WF :=
  ⟨⟨Nat.zero_le _, Nat.zero_le _⟩, ⟨List.length_replicate _ _, List.length_replicate _ _⟩⟩

/-- The text buffer after the bytes `bs` have arrived since the capture request: as
many of them as fit, the others dropped. -/
theorem uart_isr_after_request (w : World) (bs : List Nat) :
    uart_isr (request_capture w).2.g bs = { (request_capture w).2.g with
      uart_rx_buf := bs.take (UART_BUF_SIZE - 1)
        ++ List.replicate (UART_BUF_SIZE - (bs.take (UART_BUF_SIZE - 1)).length) 0,
      uart_rx_len := (bs.take (UART_BUF_SIZE - 1)).length } := by
  rw [uart_isr_text bs [] (request_capture w).2.g (by simp [request_capture_snd])
    (by simp [request_capture_snd]) (by simp [request_capture_snd]) (by simp)]
  simp

/-- A batch that arrives after the capture request and is at least as long as the
text buffer's capacity fills the text buffer. -/
theorem text_buffer_full_after (w : World) (bs : List Nat) (rest : List (List Nat))
    (hrx : w.rx = bs :: rest) (hlong : UART_BUF_SIZE - 1 ≤ bs.length) :
    selected_buffer_full (run_steps [.request, .sleep 10] w).g := by
  have hrx' : (request_capture w).2.rx = bs :: rest := by rw [request_capture_snd]; exact hrx
  have h : (run_steps [.request, .sleep 10] w).g = uart_isr (request_capture w).2.g bs := by
    show (k_msleep 10 (request_capture w).2).g = _
    unfold k_msleep
    rw [hrx', List.headD_cons]
  rw [h, uart_isr_after_request]
  refine Or.inr ⟨by simp [request_capture_snd], ?_⟩
  simp only [List.length_take]
  omega

theorem scenario_text_overflow_full :
    selected_buffer_full (run_steps [.request, .sleep 10] scenario_text_overflow).g :=
  text_buffer_full_after scenario_text_overflow (List.replicate 2050 65) [] rfl
    (by rw [List.length_replicate]; decide)


/-! ## The mode flag along a run of `receive_jpeg` -/

theorem k_msleep_keeps (ms : Nat) (w : World) :
    (k_msleep ms w).g.receiving_jpeg = w.g.receiving_jpeg ∧
    (k_msleep ms w).g.expected_jpeg_len = w.g.expected_jpeg_len ∧
    (k_msleep ms w).g.jpeg_complete = w.g.jpeg_complete ∧
    (k_msleep ms w).g.file_counter = w.g.file_counter ∧
    (k_msleep ms w).fs = w.fs ∧ (k_msleep ms w).tx = w.tx ∧ (k_msleep ms w).log = w.log :=
  ⟨uart_isr_receiving _ _, (uart_isr_keeps _ _).2.2, (uart_isr_keeps _ _).2.1,
    (uart_isr_keeps _ _).1, rfl, rfl, rfl⟩

theorem header_poll_continued (w w' : World) (h : header_poll w = .continued w') : w' = w := by
  rcases header_poll_cases w with hc | hc | ⟨e, -, hc⟩ | ⟨e, -, -, hc⟩ <;> rw [hc] at h
  · exact (Poll.continued.inj h).symm
  · exact absurd h (by simp)
  · exact absurd h (by simp)
  · exact absurd h (by simp)

/-- How the header loop can be left when it is entered in text mode: by a `return`
of `-EIO` or `-EINVAL` in text mode, at the timeout in text mode, or by the
`break` in binary mode with a valid expected length and both counters at 0. -/
theorem header_loop_result (timeout_ms : Nat) : ∀ (fuel elapsed : Nat) (w : World) (flow : Flow),
    w.g.receiving_jpeg = false → header_loop timeout_ms fuel elapsed w = some flow →
    (∃ ret w', flow = .returned ret w' ∧ (ret = - EIO ∨ ret = - EINVAL) ∧
      w'.g.receiving_jpeg = false ∧ w'.g.jpeg_complete = w.g.jpeg_complete ∧ w'.fs = w.fs ∧
      w'.g.file_counter = w.g.file_counter) ∨
    (∃ w', flow = .fell_through w' ∧ w'.g.jpeg_complete = w.g.jpeg_complete ∧ w'.fs = w.fs ∧
      w'.g.file_counter = w.g.file_counter ∧
      (w'.g.receiving_jpeg = false ∨
        (w'.g.receiving_jpeg = true ∧ 0 < w'.g.expected_jpeg_len ∧
          w'.g.expected_jpeg_len ≤ JPEG_MAX_SIZE ∧ w'.g.jpeg_len = 0 ∧ w'.g.uart_rx_len = 0))) := by
  intro fuel
  induction fuel with
  | zero => intro elapsed w flow _ h; simp [header_loop] at h
  | succ fuel ih =>
    intro elapsed w flow hmode h
    obtain ⟨k1, -, k3, k4, k5, -, -⟩ := k_msleep_keeps 10 w
    rw [header_loop] at h
    by_cases ht : elapsed < timeout_ms
    · rw [if_pos ht] at h
      rcases header_poll_cases (k_msleep 10 w) with hc | hc | ⟨e, -, hc⟩ | ⟨e, he1, he2, hc⟩
      · rw [hc] at h
        rcases ih (elapsed + 10) (k_msleep 10 w) flow (k1.trans hmode) h with
          ⟨ret, w', h1, h2, h3, h4, h5, h6⟩ | ⟨w', h1, h4, h5, h6, h3⟩
        · exact Or.inl ⟨ret, w', h1, h2, h3, h4.trans k3, h5.trans k5, h6.trans k4⟩
        · exact Or.inr ⟨w', h1, h4.trans k3, h5.trans k5, h6.trans k4, h3⟩
      · rw [hc] at h
        simp only [Option.some.injEq] at h
        exact Or.inl ⟨_, _, h.symm, Or.inl rfl, k1.trans hmode, k3, k5, k4⟩
      · rw [hc] at h
        simp only [Option.some.injEq] at h
        exact Or.inl ⟨_, _, h.symm, Or.inr rfl, k1.trans hmode, k3, k5, k4⟩
      · rw [hc] at h
        simp only [Option.some.injEq] at h
        exact Or.inr ⟨_, h.symm, k3, k5, k4, Or.inr ⟨rfl, he1, he2, rfl, rfl⟩⟩
    · rw [if_neg ht] at h
      simp only [Option.some.injEq] at h
      exact Or.inr ⟨w, h.symm, rfl, rfl, rfl, Or.inl hmode⟩

/-- The header loop is left after at most 3000 polls. -/
theorem header_loop_total : ∀ (fuel elapsed : Nat) (w : World), 30000 ≤ elapsed + 10 * fuel →
    ∃ flow, header_loop 30000 (fuel + 1) elapsed w = some flow := by
  intro fuel
  induction fuel with
  | zero =>
    intro elapsed w h
    rw [header_loop, if_neg (by omega)]
    exact ⟨_, rfl⟩
  | succ fuel ih =>
    intro elapsed w h
    rw [header_loop]
    by_cases ht : elapsed < 30000
    · rw [if_pos ht]
      cases hp : header_poll (k_msleep 10 w) with
      | returned ret w' => exact ⟨_, rfl⟩
      | broke w' => exact ⟨_, rfl⟩
      | continued w' => exact ih (elapsed + 10) w' (by omega)
    · rw [if_neg ht]
      exact ⟨_, rfl⟩

/-- The payload loop is left after at most 3000 polls. -/
theorem payload_loop_total : ∀ (fuel elapsed : Nat) (w : World), 30000 ≤ elapsed + 10 * fuel →
    ∃ flow, payload_loop 30000 (fuel + 1) elapsed w = some flow := by
  intro fuel
  induction fuel with
  | zero =>
    intro elapsed w h
    rw [payload_loop, if_neg (by omega)]
    exact ⟨_, rfl⟩
  | succ fuel ih =>
    intro elapsed w h
    rw [payload_loop]
    by_cases ht : elapsed < 30000
    · rw [if_pos ht]
      cases hp : payload_poll (k_msleep 10 w) with
      | returned ret w' => exact ⟨_, rfl⟩
      | broke w' => exact ⟨_, rfl⟩
      | continued w' => exact ih (elapsed + 10) w' (by omega)
    · rw [if_neg ht]
      exact ⟨_, rfl⟩

theorem isr_byte_jpeg_len_mono (g : Globals) (c : Nat) : g.jpeg_len ≤ (isr_byte g c).jpeg_len := by
  unfold isr_byte
  split <;> split
  · exact Nat.le_succ _
  · exact Nat.le_refl _
  · exact Nat.le_refl _
  · exact Nat.le_refl _

theorem uart_isr_jpeg_len_mono (bs : List Nat) (g : Globals) : g.jpeg_len ≤ (uart_isr g bs).jpeg_len := by
  induction bs generalizing g with
  | nil => exact Nat.le_refl _
  | cons c bs ih => exact Nat.le_trans (isr_byte_jpeg_len_mono g c) (ih (isr_byte g c))

/-- How the payload loop can be left: by the `return` of the end-marker check, run
after the extra sleep in a world `v` in which the payload was seen complete, or
at the timeout. -/
theorem payload_loop_result (timeout_ms : Nat) : ∀ (fuel elapsed : Nat) (w : World) (flow : Flow),
    payload_loop timeout_ms fuel elapsed w = some flow →
    (∃ v, flow = .returned (end_marker_check (k_msleep 100 v)).1 (end_marker_check (k_msleep 100 v)).2 ∧
      v.g.receiving_jpeg = w.g.receiving_jpeg ∧ v.g.expected_jpeg_len = w.g.expected_jpeg_len ∧
      v.g.expected_jpeg_len ≤ v.g.jpeg_len ∧ (w.g.Bounded → v.g.Bounded) ∧
      v.g.file_counter = w.g.file_counter ∧ v.fs = w.fs) ∨
    (∃ w', flow = .fell_through w' ∧ w'.g.receiving_jpeg = w.g.receiving_jpeg ∧
      w'.g.jpeg_complete = w.g.jpeg_complete ∧ w'.g.file_counter = w.g.file_counter ∧
      w'.fs = w.fs) := by
  intro fuel
  induction fuel with
  | zero => intro elapsed w flow h; simp [payload_loop] at h
  | succ fuel ih =>
    intro elapsed w flow h
    obtain ⟨k1, k2, k3, k4, k5, -, -⟩ := k_msleep_keeps 10 w
    rw [payload_loop] at h
    by_cases ht : elapsed < timeout_ms
    · rw [if_pos ht] at h
      by_cases hc : (k_msleep 10 w).g.jpeg_len ≥ (k_msleep 10 w).g.expected_jpeg_len
      · have hp : payload_poll (k_msleep 10 w)
            = .returned (end_marker_check (k_msleep 100 (k_msleep 10 w))).1
              (end_marker_check (k_msleep 100 (k_msleep 10 w))).2 := by
          unfold payload_poll
          rw [if_pos hc]
          rfl
        rw [hp] at h
        simp only [Option.some.injEq] at h
        exact Or.inl ⟨k_msleep 10 w, h.symm, k1, k2, hc, k_msleep_bounded 10 w, k4, k5⟩
      · have hp : payload_poll (k_msleep 10 w) = .continued (k_msleep 10 w) := by
          unfold payload_poll
          rw [if_neg hc]
        rw [hp] at h
        rcases ih (elapsed + 10) (k_msleep 10 w) flow h with
          ⟨v, h1, h2, h3, h4, h5, h6, h7⟩ | ⟨w', h1, h2, h3, h4, h5⟩
        · exact Or.inl ⟨v, h1, h2.trans k1, h3.trans k2, h4,
            fun hb => h5 (k_msleep_bounded 10 w hb), h6.trans k4, h7.trans k5⟩
        · exact Or.inr ⟨w', h1, h2.trans k1, h3.trans k3, h4.trans k4, h5.trans k5⟩
    · rw [if_neg ht] at h
      simp only [Option.some.injEq] at h
      exact Or.inr ⟨w, h.symm, rfl, rfl, rfl, rfl⟩

/-- The header loop entered in text mode polls in text mode. -/
theorem header_loop_polls_mode (timeout_ms : Nat) : ∀ (fuel elapsed : Nat) (w : World),
    w.g.receiving_jpeg = false →
    ∀ v ∈ header_loop_polls timeout_ms fuel elapsed w, v.g.receiving_jpeg = false := by
  intro fuel
  induction fuel with
  | zero => intro elapsed w _ v hv; simp [header_loop_polls] at hv
  | succ fuel ih =>
    intro elapsed w hmode v hv
    have k1 := (k_msleep_keeps 10 w).1
    rw [header_loop_polls] at hv
    by_cases ht : elapsed < timeout_ms
    · rw [if_pos ht, List.mem_cons] at hv
      rcases hv with hv | hv
      · rw [hv]; exact k1.trans hmode
      · cases hp : header_poll (k_msleep 10 w) with
        | returned ret w' => rw [hp] at hv; simp at hv
        | broke w' => rw [hp] at hv; simp at hv
        | continued w' =>
          rw [hp] at hv
          have hw' := header_poll_continued _ _ hp
          exact ih (elapsed + 10) w' (by rw [hw']; exact k1.trans hmode) v hv
    · rw [if_neg ht] at hv
      simp at hv

/-- The payload loop keeps the mode and the expected length up to the end-marker check. -/
theorem payload_loop_polls_mode (timeout_ms : Nat) : ∀ (fuel elapsed : Nat) (w : World),
    ∀ v ∈ payload_loop_polls timeout_ms fuel elapsed w,
      v.g.receiving_jpeg = w.g.receiving_jpeg ∧ v.g.expected_jpeg_len = w.g.expected_jpeg_len := by
  intro fuel
  induction fuel with
  | zero => intro elapsed w v hv; simp [payload_loop_polls] at hv
  | succ fuel ih =>
    intro elapsed w v hv
    obtain ⟨k1, k2, -⟩ := k_msleep_keeps 10 w
    rw [payload_loop_polls] at hv
    by_cases ht : elapsed < timeout_ms
    · rw [if_pos ht, List.mem_cons] at hv
      rcases hv with hv | hv
      · rw [hv]; exact ⟨k1, k2⟩
      · by_cases hc : (k_msleep 10 w).g.jpeg_len ≥ (k_msleep 10 w).g.expected_jpeg_len
        · rw [if_pos hc, List.mem_singleton] at hv
          obtain ⟨j1, j2, -⟩ := k_msleep_keeps 100 (k_msleep 10 w)
          rw [hv]
          exact ⟨j1.trans k1, j2.trans k2⟩
        · rw [if_neg hc] at hv
          obtain ⟨h1, h2⟩ := ih (elapsed + 10) (k_msleep 10 w) v hv
          exact ⟨h1.trans k1, h2.trans k2⟩
    · rw [if_neg ht] at hv
      simp at hv

/-- The function `receive_jpeg` returns when it is given fuel for its 3000 polls per loop. -/
theorem receive_jpeg_total (fuel : Nat) (w : World) (hfuel : 3000 < fuel) :
    ∃ r, receive_jpeg fuel w = some r := by
  obtain ⟨f, rfl⟩ : ∃ f, fuel = f + 1 := ⟨fuel - 1, by omega⟩
  obtain ⟨flow, hflow⟩ := header_loop_total f 0 w (by omega)
  unfold receive_jpeg
  simp only [hflow]
  cases flow with
  | returned ret w' => exact ⟨_, rfl⟩
  | fell_through w1 =>
    simp only
    by_cases hm : w1.g.receiving_jpeg = true
    · obtain ⟨flow2, hflow2⟩ := payload_loop_total f 0 w1 (by omega)
      simp only [hm, Bool.not_true, Bool.false_eq_true, ↓reduceIte, hflow2]
      cases flow2 <;> exact ⟨_, rfl⟩
    · simp only [hm, Bool.not_false, ↓reduceIte]
      exact ⟨_, rfl⟩

/-- What a run of `receive_jpeg` entered in text mode returns: an error from the
header loop or a timeout, in text mode and with `jpeg_complete` as found, or
the result of the end-marker check, run on a payload that was seen complete in
binary mode with a valid expected length. -/
theorem receive_jpeg_result (fuel : Nat) (w : World) (ret : Int) (w' : World)
    (hmode : w.g.receiving_jpeg = false) (h : receive_jpeg fuel w = some (ret, w')) :
    ((ret = - EIO ∨ ret = - EINVAL ∨ ret = - ETIMEDOUT) ∧ w'.g.receiving_jpeg = false ∧
      w'.g.jpeg_complete = w.g.jpeg_complete ∧ w'.fs = w.fs ∧
      w'.g.file_counter = w.g.file_counter) ∨
    (∃ v, (ret, w') = end_marker_check (k_msleep 100 v) ∧ v.g.receiving_jpeg = true ∧
      0 < v.g.expected_jpeg_len ∧ v.g.expected_jpeg_len ≤ JPEG_MAX_SIZE ∧
      v.g.expected_jpeg_len ≤ v.g.jpeg_len ∧ v.g.Bounded ∧
      v.g.file_counter = w.g.file_counter ∧ v.fs = w.fs) := by
  unfold receive_jpeg at h
  dsimp only at h
  cases hflow : header_loop 30000 fuel 0 w with
  | none => rw [hflow] at h; simp at h
  | some flow =>
    rw [hflow] at h
    rcases header_loop_result 30000 fuel 0 w flow hmode hflow with
      ⟨r, u, rfl, hr, h1, h2, h3, h4⟩ | ⟨w1, rfl, h2, h3, h4, hcase⟩
    · simp only [Option.some.injEq, Prod.mk.injEq] at h
      obtain ⟨rfl, rfl⟩ := h
      exact Or.inl ⟨by rcases hr with hr | hr <;> simp [hr], h1, h2, h3, h4⟩
    · simp only at h
      rcases hcase with hm | ⟨hm, e1, e2, e3, e4⟩
      · simp only [hm, Bool.not_false, ↓reduceIte, Option.some.injEq, Prod.mk.injEq] at h
        obtain ⟨rfl, rfl⟩ := h
        exact Or.inl ⟨Or.inr (Or.inr rfl), hm, h2, h3, h4⟩
      · simp only [hm, Bool.not_true, Bool.false_eq_true, ↓reduceIte] at h
        cases hflow2 : payload_loop 30000 fuel 0 w1 with
        | none => rw [hflow2] at h; simp at h
        | some flow2 =>
          rw [hflow2] at h
          rcases payload_loop_result 30000 fuel 0 w1 flow2 hflow2 with
            ⟨v, rfl, p1, p2, p3, p4, p5, p6⟩ | ⟨w2, rfl, p1, p2, p3, p4⟩
          · simp only [Option.some.injEq] at h
            refine Or.inr ⟨v, h.symm, p1.trans hm, by omega, by omega, p3,
              p4 ⟨by omega, by omega⟩, p5.trans h4, p6.trans h3⟩
          · simp only [Option.some.injEq, Prod.mk.injEq] at h
            obtain ⟨rfl, rfl⟩ := h
            exact Or.inl ⟨Or.inr (Or.inr rfl), rfl, p2.trans h2, p4.trans h3, p3.trans h4⟩


/-! ## Parsing the header -/

/-- The offset `strstr` returns is the first at which the needle stands. -/
theorem strstr_first (needle : List Nat) : ∀ (hay : List Nat) (i : Nat),
    strstr hay needle = some i →
    needle.isPrefixOf (hay.drop i) = true ∧ ∀ j < i, needle.isPrefixOf (hay.drop j) = false := by
  intro hay
  induction hay with
  | nil =>
    intro i h
    simp only [strstr] at h
    split at h
    · next hn =>
      simp only [Option.some.injEq] at h
      subst h hn
      exact ⟨by simp, fun j hj => absurd hj (Nat.not_lt_zero j)⟩
    · exact absurd h (by simp)
  | cons c hay ih =>
    intro i h
    simp only [strstr] at h
    split at h
    · next hp =>
      simp only [Option.some.injEq] at h
      subst h
      exact ⟨by simpa using hp, fun j hj => absurd hj (Nat.not_lt_zero j)⟩
    · next hp =>
      cases hs : strstr hay needle with
      | none => rw [hs] at h; simp at h
      | some k =>
        rw [hs] at h
        simp only [Option.map_some', Option.some.injEq] at h
        subst h
        obtain ⟨h1, h2⟩ := ih k hs
        refine ⟨by simpa using h1, fun j hj => ?_⟩
        cases j with
        | zero =>
          show needle.isPrefixOf (c :: hay) = false
          exact Bool.eq_false_iff.mpr hp
        | succ j => simpa using h2 j (by omega)

/-- The poll finds a newline behind the marker exactly when one stands behind its four characters. -/
theorem strchr_behind_marker (text : List Nat) (i : Nat) (h : strstr text RESP_IMG = some i) :
    strchr (text.drop i) 10 = true ↔ 10 ∈ text.drop (i + 4) := by
  obtain ⟨pre, post, hsplit, hlen⟩ := strstr_some_split _ _ _ h
  rw [strchr_iff, hsplit, ← hlen]
  simp [RESP_IMG]


/-! ## The chunks of a save -/

/-- While every write accepts what it is offered, `written` advances in steps of 4096
up to the payload length. -/
theorem written_after_accepting (wr : Nat → Int) (n : Nat)
    (hwr : ∀ k, written_after wr k < n → wr k = ((min 4096 (n - written_after wr k) : Nat) : Int)) :
    ∀ k, 4096 * k ≤ n + 4095 → written_after wr k = min (4096 * k) n := by
  intro k
  induction k with
  | zero => intro _; simp [written_after]
  | succ k ih =>
    intro hk
    have hprev := ih (by omega)
    have hlt : written_after wr k < n := by omega
    have hw := hwr k hlt
    show written_after wr k + (wr k).toNat = _
    rw [hw, Int.toNat_ofNat, hprev]
    omega

theorem writes_append (a b : List FsCall) : writes (a ++ b) = writes a ++ writes b := by
  simp [writes, List.filterMap_append]

theorem writes_write_calls (g : Globals) (wr : Nat → Int) (k n : Nat) :
    writes (write_calls g wr k n)
      = (List.range' k n).map (fun j => (written_after wr j, chunk_at g (written_after wr j))) := by
  induction n generalizing k with
  | zero => rfl
  | succ n ih =>
    rw [write_calls_succ, List.range'_succ, List.map_cons, ← ih (k + 1)]
    rfl

/-- The chunks up to number `m` put together are the first bytes of the buffer. -/
theorem payload_chunks_flatten (buf : List Nat) (n : Nat) : ∀ m,
    ((List.range m).map (fun k => (payload_chunk buf n k).2)).flatten
      = buf.take (min n (4096 * m)) := by
  intro m
  induction m with
  | zero => simp
  | succ m ih =>
    rw [List.range_succ, List.map_append, List.flatten_append, ih]
    simp only [List.map_cons, List.map_nil, List.flatten_cons, List.flatten_nil, List.append_nil,
      payload_chunk]
    by_cases h : n ≤ 4096 * m
    · have e1 : min 4096 (n - 4096 * m) = 0 := by omega
      have e2 : min n (4096 * (m + 1)) = min n (4096 * m) := by omega
      rw [e1, e2, List.take_zero, List.append_nil]
    · have e1 : min n (4096 * m) = 4096 * m := by omega
      have e2 : min n (4096 * (m + 1)) = 4096 * m + min 4096 (n - 4096 * m) := by omega
      rw [e1, e2, List.take_add]

theorem payload_chunk_length (buf : List Nat) (n k : Nat) (hfit : n ≤ buf.length) :
    (payload_chunk buf n k).2.length = min 4096 (n - 4096 * k) := by
  simp only [payload_chunk, List.length_take, List.length_drop]
  omega

/-- The calls of `fs_write` of a save whose writes accept all they are offered. -/
theorem write_calls_accepting (g : Globals) (wr : Nat → Int)
    (hwr : ∀ k, written_after wr k < g.jpeg_len →
      wr k = ((min 4096 (g.jpeg_len - written_after wr k) : Nat) : Int)) :
    write_calls g wr 0 ((g.jpeg_len + 4095) / 4096)
      = (List.range ((g.jpeg_len + 4095) / 4096)).map (fun k =>
          FsCall.fs_write (payload_chunk g.jpeg_buffer g.jpeg_len k).1
            (payload_chunk g.jpeg_buffer g.jpeg_len k).2) := by
  unfold write_calls
  rw [List.range_eq_range']
  apply List.map_congr_left
  intro j hj
  rw [List.mem_range'] at hj
  obtain ⟨i, hi, rfl⟩ := hj
  have hw := written_after_accepting wr g.jpeg_len hwr (0 + 1 * i) (by omega)
  have hmin : min (4096 * (0 + 1 * i)) g.jpeg_len = 4096 * (0 + 1 * i) := by omega
  rw [hw, hmin]
  rfl

/-- A save whose writes accept all they are offered: the whole run. -/
theorem save_jpeg_to_sd_accepting (fuel : Nat) (wr : Nat → Int) (w : World)
    (hdata : w.g.jpeg_complete = true) (hpos : 0 < w.g.jpeg_len)
    (hwr : ∀ k, written_after wr k < w.g.jpeg_len →
      wr k = ((min 4096 (w.g.jpeg_len - written_after wr k) : Nat) : Int))
    (hfuel : (w.g.jpeg_len + 4095) / 4096 < fuel) :
    save_jpeg_to_sd fuel 0 wr w = some (0, { w with
      fs := w.fs ++ [.fs_open (photo_filename w.g.file_counter)]
        ++ (List.range ((w.g.jpeg_len + 4095) / 4096)).map (fun k =>
            FsCall.fs_write (payload_chunk w.g.jpeg_buffer w.g.jpeg_len k).1
              (payload_chunk w.g.jpeg_buffer w.g.jpeg_len k).2)
        ++ [.fs_close],
      g := { w.g with file_counter := (w.g.file_counter + 1) % WORD } }) := by
  have hwa := written_after_accepting wr w.g.jpeg_len hwr
  rw [save_jpeg_to_sd_open fuel wr w hdata (by omega)]
  have hsteps := write_loop_steps w.g wr ((w.g.jpeg_len + 4095) / 4096) fuel 0
    (w.fs ++ [.fs_open (photo_filename w.g.file_counter)])
    (fun j _ hj => by
      have h1 := hwa j (by omega)
      have h2 : written_after wr j < w.g.jpeg_len := by omega
      refine ⟨?_, h2⟩
      rw [hwr j h2]
      exact Int.ofNat_nonneg _) (by omega)
  have h0 : written_after wr 0 = 0 := rfl
  rw [h0] at hsteps
  rw [hsteps]
  obtain ⟨f, hf⟩ : ∃ f, fuel - (w.g.jpeg_len + 4095) / 4096 = f + 1 :=
    ⟨fuel - (w.g.jpeg_len + 4095) / 4096 - 1, by omega⟩
  have hend := hwa ((w.g.jpeg_len + 4095) / 4096) (by omega)
  rw [hf, write_loop, Nat.zero_add, if_neg (by omega), write_calls_accepting w.g wr hwr]

theorem written_after_accepting_store (n : Nat) : ∀ k,
    written_after (accepting_store n) k = min (4096 * k) n := by
  intro k
  induction k with
  | zero => simp [written_after]
  | succ k ih =>
    show written_after (accepting_store n) k + (accepting_store n k).toNat = _
    rw [ih]
    simp only [accepting_store, Int.toNat_ofNat]
    omega

/-- The store `accepting_store n` returns, at each call of a save of `n` bytes, the
number of bytes offered. -/
theorem accepting_store_accepts (n : Nat) (k : Nat)
    (h : written_after (accepting_store n) k < n) :
    accepting_store n k = ((min 4096 (n - written_after (accepting_store n) k) : Nat) : Int) := by
  rw [written_after_accepting_store] at h ⊢
  have : min (4096 * k) n = 4096 * k := by omega
  rw [this]
  rfl

theorem world_at_check_jpeg_size (w : World) (L : Nat) (data : List Nat) (polls : Nat)
    (rest : List (List Nat)) (h : w.g.jpeg_buffer.length = JPEG_MAX_SIZE) :
    (world_at_check w L data polls rest).g.jpeg_buffer.length = JPEG_MAX_SIZE := by
  show (data.take JPEG_MAX_SIZE ++ w.g.jpeg_buffer.drop (min data.length JPEG_MAX_SIZE)).length = _
  rw [List.length_append, List.length_take, List.length_drop, h]
  omega

theorem scenario_a_received_fits :
    scenario_a_received.g.jpeg_len ≤ scenario_a_received.g.jpeg_buffer.length := by
  have h : scenario_a_received.g.jpeg_buffer.length = JPEG_MAX_SIZE :=
    world_at_check_jpeg_size scenario_a 3 (jpeg_frame [97, 98, 99]) 1 []
      (List.length_replicate _ _)
  rw [h]
  decide


/-! ## A frame that arrives together with its header -/

theorem header_poll_broke (v v' : World) (h : header_poll v = .broke v') :
    ∃ e, 0 < e ∧ e ≤ JPEG_MAX_SIZE ∧ v' = { v with g := { v.g with
      expected_jpeg_len := e, receiving_jpeg := true, jpeg_len := 0, uart_rx_len := 0 } } := by
  rcases header_poll_cases v with hc | hc | ⟨e, -, hc⟩ | ⟨e, he1, he2, hc⟩ <;> rw [hc] at h
  · exact absurd h (by simp)
  · exact absurd h (by simp)
  · exact absurd h (by simp)
  · exact ⟨e, he1, he2, (Poll.broke.inj h).symm⟩

theorem flatten_of_all_nil (l : List (List Nat)) (h : ∀ b ∈ l, b = []) : l.flatten = [] := by
  induction l with
  | nil => rfl
  | cons b l ih =>
    rw [List.flatten_cons, h b (List.mem_cons_self _ _), List.nil_append]
    exact ih (fun c hc => h c (List.mem_cons_of_mem _ hc))

/-- Sleeping through batches that are all empty changes only the batches left and the
record of the sleeps. -/
theorem k_msleep_iterate_quiet (ms n : Nat) (w : World) (h : ∀ b ∈ w.rx, b = []) :
    (k_msleep ms)^[n] w = { w with rx := w.rx.drop n, slept := w.slept ++ List.replicate n ms } := by
  rw [k_msleep_iterate, flatten_of_all_nil _ (fun b hb => h b (List.mem_of_mem_take hb))]
  rfl

/-- A valid header at the head of the batch that arrives during the first sleep after
the capture request is accepted at the first poll, whatever follows it in the
batch. -/
theorem header_loop_accept_early (fuel : Nat) (w : World) (ds more : List Nat)
    (rest : List (List Nat)) (hne : ds ≠ []) (hdig : ∀ d ∈ ds, isdigit d = true)
    (hvalid : 0 < decimal_value ds ∧ decimal_value ds ≤ JPEG_MAX_SIZE)
    (hrx : w.rx = (img_header ds ++ more) :: rest)
    (hfit : (img_header ds).length ≤ UART_BUF_SIZE - 1) :
    ∃ buf, header_loop 30000 (fuel + 1) 0 (request_capture w).2 = some (.fell_through
      { w with
        g := { w.g with
          uart_rx_buf := buf, uart_rx_len := 0, jpeg_len := 0, receiving_jpeg := true,
          jpeg_complete := false, expected_jpeg_len := decimal_value ds },
        rx := rest, slept := w.slept ++ [10], tx := w.tx ++ CMD_CAPTURE }) := by
  have hrx' : (request_capture w).2.rx = (img_header ds ++ more) :: rest := by
    rw [request_capture_snd]; exact hrx
  have hsleep : k_msleep 10 (request_capture w).2 = { w with
      g := { w.g with
        uart_rx_buf := (img_header ds ++ more).take (UART_BUF_SIZE - 1)
          ++ List.replicate (UART_BUF_SIZE - ((img_header ds ++ more).take (UART_BUF_SIZE - 1)).length) 0,
        uart_rx_len := ((img_header ds ++ more).take (UART_BUF_SIZE - 1)).length,
        jpeg_len := 0, receiving_jpeg := false, jpeg_complete := false, expected_jpeg_len := 0 },
      rx := rest, slept := w.slept ++ [10], tx := w.tx ++ CMD_CAPTURE } := by
    unfold k_msleep
    rw [hrx', List.headD_cons, List.tail_cons, uart_isr_after_request]
    simp [request_capture_snd]
  have htake : (img_header ds ++ more).take (UART_BUF_SIZE - 1)
      = img_header ds ++ more.take (UART_BUF_SIZE - 1 - (img_header ds).length) := by
    rw [List.take_append_eq_append_take, List.take_of_length_le hfit]
  have hpoll := header_poll_header { w with
      g := { w.g with
        uart_rx_buf := (img_header ds ++ more).take (UART_BUF_SIZE - 1)
          ++ List.replicate (UART_BUF_SIZE - ((img_header ds ++ more).take (UART_BUF_SIZE - 1)).length) 0,
        uart_rx_len := ((img_header ds ++ more).take (UART_BUF_SIZE - 1)).length,
        jpeg_len := 0, receiving_jpeg := false, jpeg_complete := false, expected_jpeg_len := 0 },
      rx := rest, slept := w.slept ++ [10], tx := w.tx ++ CMD_CAPTURE } ds
    (cstr (more.take (UART_BUF_SIZE - 1 - (img_header ds).length)
      ++ List.replicate (UART_BUF_SIZE - ((img_header ds ++ more).take (UART_BUF_SIZE - 1)).length) 0))
    hne hdig (by
      show cstr (_ ++ _) = _
      rw [htake, List.append_assoc, cstr_append_of_nonzero _ _ (img_header_nonzero ds hdig)])
  rw [min_int_max_of_le _ hvalid.2, if_neg (by omega)] at hpoll
  refine ⟨(img_header ds ++ more).take (UART_BUF_SIZE - 1)
    ++ List.replicate (UART_BUF_SIZE - ((img_header ds ++ more).take (UART_BUF_SIZE - 1)).length) 0, ?_⟩
  rw [header_loop, if_pos (by norm_num), hsleep, hpoll]


/-! ## What a successful receive leaves -/

/-- A run of `receive_jpeg` entered in text mode that returns 0 has run the
end-marker check in a world `u` with at least one and at most `JPEG_MAX_SIZE`
bytes received. -/
theorem receive_jpeg_success (fuel : Nat) (w w' : World)
    (hmode : w.g.receiving_jpeg = false) (h : receive_jpeg fuel w = some (0, w')) :
    ∃ u, (0, w') = end_marker_check u ∧ 1 ≤ u.g.jpeg_len ∧ u.g.jpeg_len ≤ JPEG_MAX_SIZE ∧
      u.g.expected_jpeg_len ≤ u.g.jpeg_len ∧ u.g.file_counter = w.g.file_counter ∧ u.fs = w.fs := by
  rcases receive_jpeg_result fuel w 0 w' hmode h with ⟨h1, -⟩ | ⟨v, h1, -, h3, -, h5, h6, h7, h8⟩
  · rcases h1 with h1 | h1 | h1 <;> exact absurd h1 (by decide)
  · have hmono : v.g.jpeg_len ≤ (k_msleep 100 v).g.jpeg_len := uart_isr_jpeg_len_mono _ _
    obtain ⟨-, k2, -, k4, k5, -⟩ := k_msleep_keeps 100 v
    exact ⟨k_msleep 100 v, h1, by omega, (k_msleep_bounded 100 v h6).1, by rw [k2]; omega,
      k4.trans h7, k5.trans h8⟩

/-- What a save of a present payload returns: 0, or what `fs_open` or a call of
`fs_write` returned. -/
theorem save_jpeg_to_sd_returns (fuel : Nat) (open_ret : Int) (wr : Nat → Int) (w : World)
    (ret : Int) (w' : World) (hdata : w.g.jpeg_complete = true) (hlen : w.g.jpeg_len ≠ 0)
    (h : save_jpeg_to_sd fuel open_ret wr w = some (ret, w')) :
    (ret = 0 ∨ (open_ret ≠ 0 ∧ ret = open_ret) ∨ ∃ k, wr k < 0 ∧ ret = wr k) ∧
    opened w'.fs = opened w.fs ++ [photo_filename w.g.file_counter] := by
  by_cases hopen : open_ret = 0
  · subst hopen
    rw [save_jpeg_to_sd_open fuel wr w hdata hlen] at h
    cases hloop : write_loop w.g wr fuel 0 0 (w.fs ++ [.fs_open (photo_filename w.g.file_counter)]) with
    | none => rw [hloop] at h; simp at h
    | some r =>
      obtain ⟨e, fs'⟩ := r
      have h0 : written_after wr 0 = 0 := rfl
      obtain ⟨n, -, hres⟩ := write_loop_some w.g wr fuel 0 _ e fs' (by rw [h0]; exact hloop)
      rw [hloop] at h
      rcases hres with ⟨rfl, -, hfs⟩ | ⟨rfl, hneg, -, hfs⟩
      · simp only [Option.some.injEq, Prod.mk.injEq] at h
        obtain ⟨rfl, rfl⟩ := h
        refine ⟨Or.inl rfl, ?_⟩
        show opened (fs' ++ [.fs_close]) = _
        rw [hfs, opened_append, opened_append, opened_append, opened_write_calls]
        simp [opened]
      · simp only [Option.some.injEq, Prod.mk.injEq] at h
        obtain ⟨rfl, rfl⟩ := h
        refine ⟨Or.inr (Or.inr ⟨_, hneg, rfl⟩), ?_⟩
        show opened (fs' ++ [.fs_close]) = _
        rw [hfs, opened_append, opened_append, opened_append, opened_write_calls]
        simp [opened]
  · rw [save_jpeg_to_sd_open_failed fuel open_ret wr w hdata hlen hopen] at h
    simp only [Option.some.injEq, Prod.mk.injEq] at h
    obtain ⟨rfl, rfl⟩ := h
    refine ⟨Or.inr (Or.inl ⟨hopen, rfl⟩), ?_⟩
    show opened (w.fs ++ [.fs_open (photo_filename w.g.file_counter)]) = _
    rw [opened_append]
    simp [opened]


/-! ## Termination of the write loop -/

/-- While every `fs_write` returns 0 the write loop of a non-empty payload is never left. -/
theorem write_loop_stalls (g : Globals) (wr : Nat → Int) (hpos : 0 < g.jpeg_len)
    (hwr : ∀ k, wr k = 0) : ∀ (fuel k : Nat) (fs : List FsCall), write_loop g wr fuel k 0 fs = none := by
  intro fuel
  induction fuel with
  | zero => intro k fs; rfl
  | succ fuel ih =>
    intro k fs
    rw [write_loop, if_pos hpos]
    simp only [hwr k, lt_self_iff_false, ↓reduceIte, Int.toNat_zero, Nat.add_zero]
    exact ih (k + 1) _

/-- If no `fs_write` returns 0, the write loop is left after at most `jpeg_len` writes. -/
theorem write_loop_terminates (g : Globals) (wr : Nat → Int) (hprog : ∀ k, wr k ≠ 0) :
    ∀ (fuel k written : Nat) (fs : List FsCall), g.jpeg_len - written < fuel →
    ∃ r, write_loop g wr fuel k written fs = some r := by
  intro fuel
  induction fuel with
  | zero => intro k written fs h; omega
  | succ fuel ih =>
    intro k written fs h
    rw [write_loop]
    by_cases hlt : written < g.jpeg_len
    · rw [if_pos hlt]
      simp only
      by_cases hneg : wr k < 0
      · rw [if_pos hneg]; exact ⟨_, rfl⟩
      · rw [if_neg hneg]
        have := hprog k
        exact ih (k + 1) (written + (wr k).toNat) _ (by omega)
    · rw [if_neg hlt]; exact ⟨_, rfl⟩

/-- The function `save_jpeg_to_sd` returns if no `fs_write` returns 0. -/
theorem save_jpeg_to_sd_terminates (fuel : Nat) (open_ret : Int) (wr : Nat → Int) (w : World)
    (hprog : ∀ k, wr k ≠ 0) (hfuel : w.g.jpeg_len < fuel) :
    ∃ r, save_jpeg_to_sd fuel open_ret wr w = some r := by
  unfold save_jpeg_to_sd
  split
  · exact ⟨_, rfl⟩
  · simp only
    split
    · exact ⟨_, rfl⟩
    · obtain ⟨r, hr⟩ := write_loop_terminates w.g wr hprog fuel 0 0
        (w.fs ++ [.fs_open (photo_filename w.g.file_counter)]) (by omega)
      rw [hr]
      obtain ⟨e, fs⟩ := r
      cases e <;> exact ⟨_, rfl⟩


/-! ## One changed byte and the checksum -/

theorem foldl_xor_start (l : List Nat) (a : Nat) :
    l.foldl (fun acc b => acc ^^^ b) a = a ^^^ xor_fold l := by
  unfold xor_fold
  induction l generalizing a with
  | nil => simp
  | cons x l ih =>
    rw [List.foldl_cons, List.foldl_cons, ih (a ^^^ x), ih (0 ^^^ x), Nat.zero_xor, Nat.xor_assoc]

theorem xor_fold_append_cons (l1 l2 : List Nat) (x : Nat) :
    xor_fold (l1 ++ x :: l2) = (xor_fold l1 ^^^ x) ^^^ xor_fold l2 := by
  have h : xor_fold (l1 ++ x :: l2)
      = l2.foldl (fun acc b => acc ^^^ b) (l1.foldl (fun acc b => acc ^^^ b) 0 ^^^ x) := by
    unfold xor_fold
    rw [List.foldl_append, List.foldl_cons]
  rw [h, foldl_xor_start l2]
  rfl

/-- Replacing one element by a different one changes the exclusive-or fold. -/
theorem xor_fold_set_ne (l : List Nat) (i b : Nat) (hi : i < l.length) (hb : l.getD i 0 ≠ b) :
    xor_fold (l.set i b) ≠ xor_fold l := by
  have hget : l.getD i 0 = l[i] := by
    rw [List.getD_eq_getElem?_getD, List.getElem?_eq_getElem hi]
    rfl
  have h1 : l.set i b = l.take i ++ b :: l.drop (i + 1) := by
    rw [List.set_eq_take_append_cons_drop, if_pos hi]
  have h2 : l = l.take i ++ l[i] :: l.drop (i + 1) := by
    conv_lhs => rw [← List.take_append_drop i l, List.drop_eq_getElem_cons hi]
  intro heq
  rw [h1] at heq
  conv_rhs at heq => rw [h2]
  rw [xor_fold_append_cons, xor_fold_append_cons, Nat.xor_left_inj, Nat.xor_right_inj] at heq
  exact hb (by rw [hget, heq])

/-- Replacing one of the first `len` bytes by a different byte changes `calculate_checksum`. -/
theorem calculate_checksum_set_ne (data : List Nat) (len i b : Nat) (hlen : len ≤ data.length)
    (hbytes : ∀ x ∈ data.take len, x < 256) (hi : i < len) (hb256 : b < 256)
    (hb : data.getD i 0 ≠ b) :
    calculate_checksum (data.set i b) len ≠ calculate_checksum data len := by
  have hset : (data.set i b).take len = (data.take len).set i b := List.set_take
  have hbytes' : ∀ x ∈ (data.set i b).take len, x < 256 := by
    intro x hx
    rw [hset] at hx
    rcases List.mem_or_eq_of_mem_set hx with h | h
    · exact hbytes x h
    · rw [h]; exact hb256
  rw [calculate_checksum_take _ _ (by rw [List.length_set]; exact hlen) hbytes',
    calculate_checksum_take _ _ hlen hbytes, hset]
  apply xor_fold_set_ne _ _ _ (by rw [List.length_take]; omega)
  rw [List.getD_eq_getElem?_getD, List.getElem?_take_of_lt hi, ← List.getD_eq_getElem?_getD]
  exact hb

theorem trailer_length (c : Nat) : (trailer c).length = 8 := by
  simp [trailer, END_PATTERN, RESP_END]

/-- The payload buffer after the bytes `q` and a trailer with the checksum `c`, or all
of them but the last newline, have been stored from index 0. -/
theorem trailer_in_buffer (q old : List Nat) (c : Nat) (hfit : q.length + 7 ≤ JPEG_MAX_SIZE) :
    ∃ tail, (q ++ trailer c).take JPEG_MAX_SIZE ++ old
      = q ++ (END_PATTERN ++ (hex_upper (c / 16) :: hex_upper (c % 16) :: tail)) := by
  refine ⟨[10].take (JPEG_MAX_SIZE - (q.length + 7)) ++ old, ?_⟩
  have : q ++ trailer c = (q ++ (END_PATTERN ++ [hex_upper (c / 16), hex_upper (c % 16)])) ++ [10] := by
    simp [trailer]
  rw [this, List.take_append_eq_append_take, List.take_of_length_le (by
    simp [END_PATTERN, RESP_END]; omega)]
  simp [END_PATTERN, RESP_END]

theorem find_marker_after_payload (q tail : List Nat) (a b L : Nat) (hq : q.length = L)
    (hL3 : 3 ≤ L) (hL7 : L + 7 ≤ JPEG_MAX_SIZE) :
    find_end_marker (q ++ (END_PATTERN ++ (a :: b :: tail))) (min (L + 8) JPEG_MAX_SIZE) = some L := by
  have hM : JPEG_MAX_SIZE = 524288 := rfl
  have hmark : marker_at (q ++ (END_PATTERN ++ (a :: b :: tail))) L := by
    unfold marker_at
    rw [← hq, List.drop_left]
    simp [END_PATTERN, RESP_END]
  apply find_end_marker_some _ _ _ (by omega) (by omega) hmark
  intro j hj hjL hmj
  have := marker_at_apart _ L j hmark hmj hjL
  omega

theorem scan_after_payload (q tail : List Nat) (c L : Nat) (hq : q.length = L) (hc : c < 256) :
    sscanf_02hhX ((q ++ (END_PATTERN ++
      (hex_upper (c / 16) :: hex_upper (c % 16) :: tail))).drop (L + 5)) = some c := by
  have : (q ++ (END_PATTERN ++ (hex_upper (c / 16) :: hex_upper (c % 16) :: tail))).drop (L + 5)
      = hex_upper (c / 16) :: hex_upper (c % 16) :: tail := by
    rw [← hq, ← List.drop_drop, List.drop_left]
    simp [END_PATTERN, RESP_END]
  rw [this, sscanf_two_hex _ _ (c / 16) (c % 16) tail
    (hexval_hex_upper _ (by omega)) (hexval_hex_upper _ (by omega))]
  congr 1
  omega

theorem checksum_of_payload (q after : List Nat) (L : Nat) (hq : q.length = L)
    (hbytes : ∀ b ∈ q, b < 256) : calculate_checksum (q ++ after) L = xor_fold q := by
  rw [calculate_checksum_take _ _ (by simp; omega) (by rw [← hq, List.take_left]; exact hbytes),
    ← hq, List.take_left]

theorem frame_len_gt_ten (L : Nat) (hL3 : 3 ≤ L) :
    10 < min (L + 8) JPEG_MAX_SIZE := by
  have hM : JPEG_MAX_SIZE = 524288 := rfl
  omega

/-- A frame whose trailer declares the checksum `c`, for a payload `q` of
`3 ≤ L ≤ JPEG_MAX_SIZE - 7` bytes announced by its header: `receive_jpeg` cuts
the trailer off and compares the XOR of `q` with `c`. -/
theorem receive_frame_with_checksum (fuel : Nat) (w : World) (L : Nat) (q : List Nat) (c : Nat)
    (quiet : List (List Nat)) (last late : List Nat) (rest : List (List Nat))
    (hL3 : 3 ≤ L) (hL7 : L + 7 ≤ JPEG_MAX_SIZE)
    (hq : q.length = L) (hbytes : ∀ b ∈ q, b < 256) (hc : c < 256)
    (hsize : w.g.jpeg_buffer.length = JPEG_MAX_SIZE)
    (hrx : w.rx = img_header (decimal_digits L) :: (quiet ++ last :: late :: rest))
    (hframe : quiet.flatten ++ last ++ late = q ++ trailer c)
    (hshort : quiet.flatten.length < L) (hfull : L ≤ quiet.flatten.length + last.length)
    (hk : quiet.length < 3000) (hfuel : quiet.length < fuel) :
    ∃ w', receive_jpeg fuel (request_capture w).2 = some (0, w') ∧
      w'.g.jpeg_len = L ∧ w'.g.jpeg_buffer.take L = q ∧ w'.g.jpeg_complete = true ∧
      w'.g.receiving_jpeg = false ∧
      w'.log = w.log ++ [if xor_fold q = c then .checksum_ok c
        else .checksum_mismatch c (xor_fold q)] := by
  have hreach := reaches_check_after_request fuel w L quiet last late rest
    ⟨Nat.lt_of_lt_of_le (by decide) hL3, Nat.le_trans (Nat.le_add_right _ _) hL7⟩
    hsize hrx hshort hfull hk hfuel
  rw [receive_jpeg_of_reaches_check _ _ _ hreach, hframe]
  obtain ⟨tail, hbuf⟩ := trailer_in_buffer q
    (w.g.jpeg_buffer.drop (min (q ++ trailer c).length JPEG_MAX_SIZE)) c (by rw [hq]; exact hL7)
  have hbufu : (world_at_check w L (q ++ trailer c) (quiet.length + 1) rest).g.jpeg_buffer
      = q ++ (END_PATTERN ++ (hex_upper (c / 16) :: hex_upper (c % 16) :: tail)) := hbuf
  have hlenu : (world_at_check w L (q ++ trailer c) (quiet.length + 1) rest).g.jpeg_len
      = min (L + 8) JPEG_MAX_SIZE := by
    show min (q ++ trailer c).length JPEG_MAX_SIZE = _
    rw [List.length_append, trailer_length, hq]
  rw [end_marker_check_found _ L c (by rw [hlenu]; exact frame_len_gt_ten L hL3)
    (by rw [hbufu, hlenu]; exact find_marker_after_payload q tail _ _ L hq hL3 hL7)
    (by rw [hbufu]; exact scan_after_payload q tail c L hq hc)]
  refine ⟨_, rfl, rfl, ?_, rfl, rfl, ?_⟩
  · show List.take L (world_at_check w L (q ++ trailer c) (quiet.length + 1) rest).g.jpeg_buffer = q
    rw [hbufu, ← hq, List.take_left]
  · show w.log ++ [if calculate_checksum
        (world_at_check w L (q ++ trailer c) (quiet.length + 1) rest).g.jpeg_buffer L = c
        then _ else _] = _
    rw [hbufu, checksum_of_payload q _ L hq hbytes]


/-! ## A header behind other text -/

/-- If the needle stands at offset `i` and at no offset before it, `strstr` returns `i`. -/
theorem strstr_eq_of_first (needle : List Nat) : ∀ (hay : List Nat) (i : Nat),
    needle.isPrefixOf (hay.drop i) = true →
    (∀ j < i, needle.isPrefixOf (hay.drop j) = false) → strstr hay needle = some i := by
  intro hay
  induction hay with
  | nil =>
    intro i hp hfirst
    have hn : needle = [] := by
      cases needle with
      | nil => rfl
      | cons a as => simp at hp
    subst hn
    cases i with
    | zero => simp [strstr]
    | succ i => exact absurd (hfirst 0 (Nat.succ_pos i)) (by simp)
  | cons c hay ih =>
    intro i hp hfirst
    cases i with
    | zero =>
      rw [List.drop_zero] at hp
      simp only [strstr, hp, ↓reduceIte]
    | succ i =>
      have h0 := hfirst 0 (Nat.succ_pos i)
      rw [List.drop_zero] at h0
      have hrec := ih i (by simpa using hp) (fun j hj => by simpa using hfirst (j + 1) (by omega))
      simp only [strstr, h0, Bool.false_eq_true, ↓reduceIte, hrec, Option.map_some']

/-- What `header_poll` does when the first `"IMG:"` of the text is the start of the
header `"IMG:<digits>\n"`, whatever stands before and behind the header. -/
theorem header_poll_header_at (w : World) (pre ds post : List Nat) (hne : ds ≠ [])
    (hdig : ∀ d ∈ ds, isdigit d = true)
    (htext : cstr w.g.uart_rx_buf = pre ++ img_header ds ++ post)
    (hfirst : ∀ j < pre.length,
      RESP_IMG.isPrefixOf ((pre ++ img_header ds ++ post).drop j) = false) :
    header_poll w =
      if min (decimal_value ds) 2147483647 = 0 ∨ min (decimal_value ds) 2147483647 > JPEG_MAX_SIZE then
        .returned (- EINVAL)
          { w with g := { w.g with expected_jpeg_len := min (decimal_value ds) 2147483647 } }
      else
        .broke { w with g := { w.g with
          expected_jpeg_len := min (decimal_value ds) 2147483647,
          receiving_jpeg := true, jpeg_len := 0, uart_rx_len := 0 } } := by
  have hd0 : (pre ++ img_header ds ++ post).drop pre.length = img_header ds ++ post := by
    rw [List.append_assoc, List.drop_left]
  have hstr : strstr (pre ++ img_header ds ++ post) RESP_IMG = some pre.length := by
    apply strstr_eq_of_first _ _ _ _ hfirst
    rw [hd0]
    simp [img_header, RESP_IMG]
  have hchr : strchr ((pre ++ img_header ds ++ post).drop pre.length) 10 = true := by
    rw [hd0, strchr_iff]; simp [img_header]
  have hdrop : (pre ++ img_header ds ++ post).drop (pre.length + 4) = ds ++ 10 :: post := by
    rw [← List.drop_drop, hd0]
    simp [img_header, RESP_IMG]
  unfold header_poll
  simp only [htext, hstr, hchr, ↓reduceIte, hdrop, atoi,
    strtol10_digits ds post hne hdig, header_size]

/-! ## A frame received after any acceptance of the header -/

/-- The header loop keeps the arrays at their sizes and writes nothing to the log. -/
theorem header_loop_keeps (timeout_ms : Nat) : ∀ (fuel elapsed : Nat) (w w1 : World),
    w.g.WF → header_loop timeout_ms fuel elapsed w = some (.fell_through w1) →
    w1.g.WF ∧ w1.log = w.log := by
  intro fuel
  induction fuel with
  | zero => intro elapsed w w1 _ h; simp [header_loop] at h
  | succ fuel ih =>
    intro elapsed w w1 hwf h
    have hs := k_msleep_wf 10 w hwf
    have hl : (k_msleep 10 w).log = w.log := rfl
    rw [header_loop] at h
    by_cases ht : elapsed < timeout_ms
    · rw [if_pos ht] at h
      rcases header_poll_cases (k_msleep 10 w) with hc | hc | ⟨e, -, hc⟩ | ⟨e, -, -, hc⟩
      · rw [hc] at h
        obtain ⟨h1, h2⟩ := ih (elapsed + 10) (k_msleep 10 w) w1 hs h
        exact ⟨h1, h2.trans hl⟩
      · rw [hc] at h; exact absurd h (by simp)
      · rw [hc] at h; exact absurd h (by simp)
      · rw [hc] at h
        simp only [Option.some.injEq, Flow.fell_through.injEq] at h
        rw [← h]
        exact ⟨⟨hs.1, hs.2⟩, hl⟩
    · rw [if_neg ht] at h
      simp only [Option.some.injEq, Flow.fell_through.injEq] at h
      rw [← h]
      exact ⟨hwf, rfl⟩

/-- A frame whose trailer declares the checksum `c`, for a payload `q` of
`3 ≤ L ≤ JPEG_MAX_SIZE - 7` bytes, received after the header loop, entered in
text mode, has been left in binary mode with `expected_jpeg_len = L`:
`receive_jpeg` cuts the trailer off and compares the XOR of `q` with `c`. -/
theorem receive_frame_after_header (fuel : Nat) (w0 w1 : World) (L : Nat) (q : List Nat) (c : Nat)
    (quiet : List (List Nat)) (last late : List Nat) (rest : List (List Nat))
    (hL3 : 3 ≤ L) (hL7 : L + 7 ≤ JPEG_MAX_SIZE)
    (hq : q.length = L) (hbytes : ∀ b ∈ q, b < 256) (hc : c < 256)
    (hmode : w0.g.receiving_jpeg = false) (hwf : w0.g.WF)
    (hhdr : header_loop 30000 fuel 0 w0 = some (.fell_through w1))
    (hbin : w1.g.receiving_jpeg = true) (hexp : w1.g.expected_jpeg_len = L)
    (hrx : w1.rx = quiet ++ last :: late :: rest)
    (hframe : quiet.flatten ++ last ++ late = q ++ trailer c)
    (hshort : quiet.flatten.length < L) (hfull : L ≤ quiet.flatten.length + last.length)
    (hk : quiet.length < 3000) (hfuel : quiet.length < fuel) :
    ∃ w', receive_jpeg fuel w0 = some (0, w') ∧
      w'.g.jpeg_len = L ∧ w'.g.jpeg_buffer.take L = q ∧ w'.g.jpeg_complete = true ∧
      w'.g.receiving_jpeg = false ∧
      w'.log = w0.log ++ [if xor_fold q = c then .checksum_ok c
        else .checksum_mismatch c (xor_fold q)] := by
  obtain ⟨hwf1, hlog⟩ := header_loop_keeps 30000 fuel 0 w0 w1 hwf hhdr
  have hzero : w1.g.jpeg_len = 0 := by
    rcases header_loop_result 30000 fuel 0 w0 _ hmode hhdr with
      ⟨r, u, h1, -⟩ | ⟨u, h1, -, -, -, hcase⟩
    · exact absurd h1 (by simp)
    · obtain rfl := Flow.fell_through.inj h1
      rcases hcase with hm | ⟨-, -, -, e3, -⟩
      · rw [hm] at hbin; exact absurd hbin (by simp)
      · exact e3
  have hreach := reaches_check_of_batches fuel w0 w1 quiet last late rest hhdr hbin hwf1.2 hzero
    (by rw [hexp]; exact Nat.le_trans (Nat.le_add_right _ _) hL7) hrx (by rw [hexp]; exact hshort)
    (by rw [hexp]; exact hfull) hk hfuel
  rw [receive_jpeg_of_reaches_check _ _ _ hreach, hframe]
  obtain ⟨tail, hbuf⟩ := trailer_in_buffer q
    (w1.g.jpeg_buffer.drop (min (q ++ trailer c).length JPEG_MAX_SIZE)) c (by rw [hq]; exact hL7)
  have hlen : min (q ++ trailer c).length JPEG_MAX_SIZE = min (L + 8) JPEG_MAX_SIZE := by
    rw [List.length_append, trailer_length, hq]
  rw [hbuf, hlen]
  rw [end_marker_check_found _ L c (frame_len_gt_ten L hL3)
    (find_marker_after_payload q tail _ _ L hq hL3 hL7) (scan_after_payload q tail c L hq hc)]
  refine ⟨_, rfl, rfl, ?_, rfl, rfl, ?_⟩
  · show List.take L (q ++ _) = q
    rw [← hq, List.take_left]
  · show w1.log ++ [if calculate_checksum (q ++ _) L = c then _ else _] = _
    rw [checksum_of_payload q _ L hq hbytes, hlog]

/-- The header loop after a capture request is left in binary mode at the poll at which
the text first holds a valid header, whatever stands before and behind it. -/
theorem header_loop_accepts_at (fuel k : Nat) (w : World) (L : Nat) (pre post : List Nat)
    (hk : k < 3000) (hfuel : k < fuel)
    (hquiet : ∀ j < k,
      ¬ header_seen (cstr ((request_capture w).2.at_poll (j + 1)).g.uart_rx_buf) ∧
      ¬ error_seen (cstr ((request_capture w).2.at_poll (j + 1)).g.uart_rx_buf))
    (htext : cstr ((request_capture w).2.at_poll (k + 1)).g.uart_rx_buf
      = pre ++ img_header (decimal_digits L) ++ post)
    (hfirst : ∀ j < pre.length,
      RESP_IMG.isPrefixOf ((pre ++ img_header (decimal_digits L) ++ post).drop j) = false)
    (hL : 0 < L ∧ L ≤ JPEG_MAX_SIZE) :
    header_loop 30000 fuel 0 (request_capture w).2 = some (.fell_through
      { (request_capture w).2.at_poll (k + 1) with
        g := { ((request_capture w).2.at_poll (k + 1)).g with
          expected_jpeg_len := L, receiving_jpeg := true, jpeg_len := 0, uart_rx_len := 0 } }) := by
  have hM : JPEG_MAX_SIZE = 524288 := rfl
  have hloop := header_loop_to_poll fuel k (request_capture w).2 hk hfuel hquiet
  have hpoll := header_poll_header_at ((request_capture w).2.at_poll (k + 1)) pre
    (decimal_digits L) post (decimal_digits_ne_nil L) (decimal_digits_isdigit L) htext hfirst
  rw [decimal_digits_value, if_neg (by omega), min_int_max_of_le L hL.2] at hpoll
  rw [hloop, hpoll]

theorem request_capture_wf (w : World) (h : w.g.jpeg_buffer.length = JPEG_MAX_SIZE) :
    (request_capture w).2.g.WF := by
  rw [request_capture_snd]
  exact ⟨List.length_replicate _ _, h⟩

theorem scenario_ok_frame_header :
    header_loop 30000 1 0 (request_capture scenario_ok_frame).2
      = some (.fell_through scenario_ok_frame_accepted) :=
  header_loop_accepts_at 1 0 scenario_ok_frame 3 (bytes "OK:ready\n") [] (by decide) (by decide)
    (fun j hj => absurd hj (Nat.not_lt_zero j)) (by decide) (by decide) (by decide)

theorem scenario_ok_corrupted_header :
    header_loop 30000 1 0 (request_capture scenario_ok_corrupted).2
      = some (.fell_through scenario_ok_corrupted_accepted) :=
  header_loop_accepts_at 1 0 scenario_ok_corrupted 3 (bytes "OK:ready\n") [] (by decide)
    (by decide) (fun j hj => absurd hj (Nat.not_lt_zero j)) (by decide) (by decide) (by decide)

/-! ## What a save depends on -/

/-- A chunk offered to `fs_write` lies within the first `n` bytes of the buffer. -/
theorem chunk_within (buf : List Nat) (n a : Nat) :
    (buf.drop a).take (min 4096 (n - a)) = ((buf.take n).drop a).take (min 4096 (n - a)) := by
  rw [List.drop_take, List.take_take]
  congr 1
  omega

/-- The write loop sees of the globals only `jpeg_len` and the first `jpeg_len` bytes
of the buffer. -/
theorem write_loop_congr (g1 g2 : Globals) (wr : Nat → Int) (hlen : g1.jpeg_len = g2.jpeg_len)
    (hbuf : g1.jpeg_buffer.take g1.jpeg_len = g2.jpeg_buffer.take g2.jpeg_len) :
    ∀ (fuel k written : Nat) (fs : List FsCall),
    write_loop g1 wr fuel k written fs = write_loop g2 wr fuel k written fs := by
  intro fuel
  induction fuel with
  | zero => intro k written fs; rfl
  | succ fuel ih =>
    intro k written fs
    rw [write_loop, write_loop]
    dsimp only
    rw [chunk_within g1.jpeg_buffer g1.jpeg_len written,
      chunk_within g2.jpeg_buffer g2.jpeg_len written, hbuf, hlen]
    simp only [ih]

/-- What a save returns, what it does on the file system and what it leaves in the
counter depend on the globals only through `jpeg_complete`, `jpeg_len`,
`file_counter` and the first `jpeg_len` bytes of the buffer. -/
theorem save_jpeg_to_sd_congr (fuel : Nat) (open_ret : Int) (wr : Nat → Int) (v1 v2 : World)
    (hfs : v1.fs = v2.fs) (hc : v1.g.file_counter = v2.g.file_counter)
    (hdone : v1.g.jpeg_complete = v2.g.jpeg_complete) (hlen : v1.g.jpeg_len = v2.g.jpeg_len)
    (hbuf : v1.g.jpeg_buffer.take v1.g.jpeg_len = v2.g.jpeg_buffer.take v2.g.jpeg_len) :
    (save_jpeg_to_sd fuel open_ret wr v1).map (fun r => (r.1, r.2.fs, r.2.g.file_counter))
      = (save_jpeg_to_sd fuel open_ret wr v2).map (fun r => (r.1, r.2.fs, r.2.g.file_counter)) := by
  unfold save_jpeg_to_sd
  simp only [hdone, hlen, hfs, hc, write_loop_congr v1.g v2.g wr hlen hbuf]
  split
  · simp [hfs, hc]
  · split
    · simp [hc]
    · cases write_loop v2.g wr fuel 0 0 (v2.fs ++ [FsCall.fs_open (photo_filename v2.g.file_counter)]) with
      | none => rfl
      | some r =>
        obtain ⟨e, fs⟩ := r
        cases e <;> simp [hc]

/-- Up to the end-marker check a run of `receive_jpeg` entered in text mode makes no
call on the file system and leaves the file counter alone. -/
theorem reaches_check_keeps (fuel : Nat) (w0 u : World) (hmode : w0.g.receiving_jpeg = false)
    (h : reaches_check fuel w0 u) : u.fs = w0.fs ∧ u.g.file_counter = w0.g.file_counter := by
  obtain ⟨w, k, hhdr, -, -, -, -, -, hu⟩ := h
  rcases header_loop_result 30000 fuel 0 w0 _ hmode hhdr with
    ⟨r, v, h1, -⟩ | ⟨v, h1, -, h3, h4, -⟩
  · exact absurd h1 (by simp)
  · obtain rfl := Flow.fell_through.inj h1
    obtain ⟨a1, -, -, -, a5, -, -⟩ := at_poll_keeps w (k + 1)
    obtain ⟨-, -, -, b4, b5, -, -⟩ := k_msleep_keeps 100 ((k_msleep 10)^[k + 1] w)
    rw [hu]
    exact ⟨b5.trans (a1.trans h3), b4.trans (a5.trans h4)⟩

theorem payload_chunk_take (buf : List Nat) (n k : Nat) :
    payload_chunk buf n k = payload_chunk (buf.take n) n k := by
  unfold payload_chunk
  rw [chunk_within buf n (4096 * k)]

theorem scenario_a_reaches_check_two :
    reaches_check 2 (request_capture scenario_a).2 scenario_a_check :=
  reaches_check_after_request 2 scenario_a 3 [] (jpeg_frame [97, 98, 99]) [] []
    (by decide) (by simp [scenario_a, World.boot, Globals.init]) rfl (by decide) (by decide)
    (by decide) (by decide)

theorem scenario_corrupted_reaches_check :
    reaches_check 2 (request_capture scenario_corrupted).2 scenario_corrupted_check :=
  reaches_check_after_request 2 scenario_corrupted 3 []
    ([97, 88, 99] ++ trailer (xor_fold [97, 98, 99])) [] []
    (by decide) (by simp [scenario_corrupted, World.boot, Globals.init]) rfl (by decide)
    (by decide) (by decide) (by decide)

theorem scenario_wrong_sum_reaches_check :
    reaches_check 2 (request_capture scenario_wrong_sum).2 scenario_wrong_sum_check :=
  reaches_check_after_request 2 scenario_wrong_sum 3 [] ([97, 98, 99] ++ trailer 97) [] []
    (by decide) (by simp [scenario_wrong_sum, World.boot, Globals.init]) rfl (by decide)
    (by decide) (by decide) (by decide)

/-- A run of `receive_jpeg` entered in text mode whose first 3000 polls see neither a
header nor an error line ends in `-ETIMEDOUT`. -/
theorem receive_jpeg_timeout_of_quiet (fuel : Nat) (w : World) (hfuel : 3000 < fuel)
    (hmode : w.g.receiving_jpeg = false)
    (hquiet : ∀ j < 3000, ¬ header_seen (cstr (w.at_poll (j + 1)).g.uart_rx_buf) ∧
      ¬ error_seen (cstr (w.at_poll (j + 1)).g.uart_rx_buf)) :
    receive_jpeg fuel w = some (- ETIMEDOUT, w.at_poll 3000) := by
  have hloop : header_loop 30000 fuel 0 w = some (.fell_through (w.at_poll 3000)) := by
    rw [header_loop_skip 30000 3000 fuel 0 w
      (fun j hj => header_poll_quiet _ (hquiet j hj).1 (hquiet j hj).2) (fun j hj => by omega)
      (by omega)]
    obtain ⟨f, hf⟩ : ∃ f, fuel - 3000 = f + 1 := ⟨fuel - 3000 - 1, by omega⟩
    rw [hf, header_loop, if_neg (by omega)]
    rfl
  have hm : (w.at_poll 3000).g.receiving_jpeg = false := by
    rw [(at_poll_keeps w 3000).2.2.2.2.2.1, hmode]
  unfold receive_jpeg
  simp only [hloop, hm, Bool.not_false, ↓reduceIte]

theorem scenario_header_behind_nul_text (n : Nat) :
    cstr ((request_capture scenario_header_behind_nul).2.at_poll n).g.uart_rx_buf = [] := by
  unfold World.at_poll
  rw [k_msleep_iterate]
  cases n with
  | zero => decide
  | succ n =>
    have hrx : (request_capture scenario_header_behind_nul).2.rx = [0 :: bytes "IMG:5\n"] := rfl
    rw [hrx]
    simp only [List.take_succ_cons, List.take_nil, List.flatten_cons, List.flatten_nil,
      List.append_nil]
    decide


/-! ## Claims about the error line -/

/-- C12. Buffer bounds invariant.  In every state reached from boot by any sequence
of byte arrivals and steps of the main loop (sleeps, `init_sd_card`,
`request_capture`, polls of the two loops of `receive_jpeg`, the timeout exit,
`save_jpeg_to_sd`), `jpeg_len ≤ 524288` and `uart_rx_len ≤ 2047`, and both
arrays have their declared sizes; a byte that arrives in such a state while the
buffer the mode selects is full leaves the whole state unchanged. -/
theorem buffer_bounds_invariant (rx : List (List Nat)) (steps : List Step) :
    (run_steps steps (World.boot rx)).g.jpeg_len ≤ 524288 ∧
    (run_steps steps (World.boot rx)).g.uart_rx_len ≤ 2047 ∧
    (run_steps steps (World.boot rx)).g.jpeg_buffer.length = 524288 ∧
    (run_steps steps (World.boot rx)).g.uart_rx_buf.length = 2048 ∧
    (selected_buffer_full (run_steps steps (World.boot rx)).g →
      ∀ c, (Step.arrive c).apply (run_steps steps (World.boot rx))
        = run_steps steps (World.boot rx)) := by
  obtain ⟨⟨h1, h2⟩, ⟨h3, h4⟩⟩ := run_steps_keeps_bounds steps (World.boot rx) (boot_bounds rx)
  refine ⟨h1, h2, h4, h3, fun hfull c => ?_⟩
  show { run_steps steps (World.boot rx) with
    g := isr_byte (run_steps steps (World.boot rx)).g c } = _
  rw [isr_byte_full _ c hfull]

/-- Witness for C12: after the capture request a batch of 2050 bytes arrives in text
mode; the text buffer is full with 2047 of them, and a further byte changes
nothing. -/
theorem buffer_bounds_invariant_witness :
    selected_buffer_full (run_steps [.request, .sleep 10] scenario_text_overflow).g ∧
    (run_steps [.request, .sleep 10] scenario_text_overflow).g.jpeg_len ≤ 524288 ∧
    ∀ c, (Step.arrive c).apply (run_steps [.request, .sleep 10] scenario_text_overflow)
      = run_steps [.request, .sleep 10] scenario_text_overflow :=
  ⟨scenario_text_overflow_full,
    (buffer_bounds_invariant [List.replicate 2050 65] [.request, .sleep 10]).1,
    (buffer_bounds_invariant [List.replicate 2050 65] [.request, .sleep 10]).2.2.2.2
      scenario_text_overflow_full⟩

/-! ## Claims about the mode flag -/

/-- C13. Binary mode is confined to payload reception.  A run of `receive_jpeg`
entered in text mode (as `request_capture` leaves it) returns, with 0,
`-ETIMEDOUT` (from either loop), `-EIO` or `-EINVAL`, and `receiving_jpeg` is
false when it returns.  At every poll of the header loop and at a `return` from
it `receiving_jpeg` is false.  If the header loop is left with `receiving_jpeg`
set (a header was accepted), then `0 < expected_jpeg_len ≤ JPEG_MAX_SIZE`, and
at every poll of the payload loop up to the end of the extra sleep
`receiving_jpeg` is set and `expected_jpeg_len` has that value. -/
theorem binary_mode_confined (fuel : Nat) (w : World) (hfuel : 3000 < fuel)
    (hmode : w.g.receiving_jpeg = false) :
    (∃ ret w', receive_jpeg fuel w = some (ret, w') ∧ w'.g.receiving_jpeg = false ∧
      (ret = 0 ∨ ret = - ETIMEDOUT ∨ ret = - EIO ∨ ret = - EINVAL)) ∧
    (∀ v ∈ header_loop_polls 30000 fuel 0 w, v.g.receiving_jpeg = false) ∧
    (∀ ret w', header_loop 30000 fuel 0 w = some (.returned ret w') →
      w'.g.receiving_jpeg = false) ∧
    (∀ w1, header_loop 30000 fuel 0 w = some (.fell_through w1) → w1.g.receiving_jpeg = true →
      0 < w1.g.expected_jpeg_len ∧ w1.g.expected_jpeg_len ≤ JPEG_MAX_SIZE ∧
      ∀ v ∈ payload_loop_polls 30000 fuel 0 w1,
        v.g.receiving_jpeg = true ∧ v.g.expected_jpeg_len = w1.g.expected_jpeg_len) := by
  refine ⟨?_, header_loop_polls_mode 30000 fuel 0 w hmode, ?_, ?_⟩
  · obtain ⟨⟨ret, w'⟩, hr⟩ := receive_jpeg_total fuel w hfuel
    refine ⟨ret, w', hr, ?_⟩
    rcases receive_jpeg_result fuel w ret w' hmode hr with ⟨h1, h2, -⟩ | ⟨v, h1, -⟩
    · refine ⟨h2, ?_⟩
      rcases h1 with h1 | h1 | h1
      · exact Or.inr (Or.inr (Or.inl h1))
      · exact Or.inr (Or.inr (Or.inr h1))
      · exact Or.inr (Or.inl h1)
    · obtain ⟨r1, -, r3, -⟩ := end_marker_check_result (k_msleep 100 v)
      rw [← h1] at r1 r3
      exact ⟨r3, Or.inl r1⟩
  · intro ret w' hl
    rcases header_loop_result 30000 fuel 0 w _ hmode hl with
      ⟨r, u, h1, -, h3, -⟩ | ⟨u, h1, -⟩
    · obtain ⟨-, rfl⟩ := Flow.returned.inj h1
      exact h3
    · exact absurd h1 (by simp)
  · intro w1 hl hbin
    rcases header_loop_result 30000 fuel 0 w _ hmode hl with
      ⟨r, u, h1, -⟩ | ⟨u, h1, -, -, -, hcase⟩
    · exact absurd h1 (by simp)
    · obtain rfl := Flow.fell_through.inj h1
      rcases hcase with hm | ⟨-, e1, e2, -⟩
      · rw [hm] at hbin; exact absurd hbin (by simp)
      · refine ⟨e1, e2, fun v hv => ?_⟩
        obtain ⟨p1, p2⟩ := payload_loop_polls_mode 30000 fuel 0 w1 v hv
        exact ⟨p1.trans hbin, p2⟩

/-- Witness for C13: the run of `receive_jpeg` after the capture request of scenario A. -/
theorem binary_mode_confined_witness :
    (∃ ret w', receive_jpeg 3001 (request_capture scenario_a).2 = some (ret, w') ∧
      w'.g.receiving_jpeg = false ∧
      (ret = 0 ∨ ret = - ETIMEDOUT ∨ ret = - EIO ∨ ret = - EINVAL)) ∧
    (∀ v ∈ header_loop_polls 30000 3001 0 (request_capture scenario_a).2,
      v.g.receiving_jpeg = false) ∧
    (∀ ret w', header_loop 30000 3001 0 (request_capture scenario_a).2
      = some (.returned ret w') → w'.g.receiving_jpeg = false) ∧
    (∀ w1, header_loop 30000 3001 0 (request_capture scenario_a).2 = some (.fell_through w1) →
      w1.g.receiving_jpeg = true →
      0 < w1.g.expected_jpeg_len ∧ w1.g.expected_jpeg_len ≤ JPEG_MAX_SIZE ∧
      ∀ v ∈ payload_loop_polls 30000 3001 0 w1,
        v.g.receiving_jpeg = true ∧ v.g.expected_jpeg_len = w1.g.expected_jpeg_len) :=
  binary_mode_confined 3001 (request_capture scenario_a).2 (by decide) rfl

/-! ## Claims about the header parse -/

/-- C14 (amended). Header parsing, for every content of the text buffer.  The
marker `header_poll` works with is the first `"IMG:"` of the text.  If no
newline stands behind it (or there is no marker), the poll changes nothing: it
goes on, or returns `-EIO` for an error line; it neither changes the mode nor
returns `-EINVAL`.  If a newline stands behind it and the marker is directly
followed by a non-empty run of decimal digits that ends at a character which is
not a digit, the length the poll records is the value of that run (at most
`2 ^ 31 - 1`, the largest `int`), and the poll accepts or refuses the header on
that value. -/
theorem header_parsing (w : World) :
    (∀ i, strstr (cstr w.g.uart_rx_buf) RESP_IMG = some i →
      RESP_IMG.isPrefixOf ((cstr w.g.uart_rx_buf).drop i) = true ∧
      ∀ j < i, RESP_IMG.isPrefixOf ((cstr w.g.uart_rx_buf).drop j) = false) ∧
    ((∀ i, strstr (cstr w.g.uart_rx_buf) RESP_IMG = some i →
        10 ∉ (cstr w.g.uart_rx_buf).drop (i + 4)) →
      header_poll w = .continued w ∨ header_poll w = .returned (- EIO) w) ∧
    (∀ i ds c post, strstr (cstr w.g.uart_rx_buf) RESP_IMG = some i →
      (cstr w.g.uart_rx_buf).drop (i + 4) = ds ++ c :: post →
      ds ≠ [] → (∀ d ∈ ds, isdigit d = true) → isdigit c = false → 10 ∈ c :: post →
      header_poll w =
        if min (decimal_value ds) 2147483647 = 0 ∨ JPEG_MAX_SIZE < min (decimal_value ds) 2147483647
        then .returned (- EINVAL)
          { w with g := { w.g with expected_jpeg_len := min (decimal_value ds) 2147483647 } }
        else .broke { w with g := { w.g with
          expected_jpeg_len := min (decimal_value ds) 2147483647,
          receiving_jpeg := true, jpeg_len := 0, uart_rx_len := 0 } }) := by
  refine ⟨fun i hi => strstr_first RESP_IMG _ i hi, fun hno => ?_, ?_⟩
  · have hseen : ¬ header_seen (cstr w.g.uart_rx_buf) := by
      rintro ⟨pre, post, hsplit, hnl⟩
      have hsome := strstr_isSome_of_split pre RESP_IMG post
      rw [← hsplit] at hsome
      obtain ⟨i, hi⟩ := Option.isSome_iff_exists.mp hsome
      obtain ⟨pre', post', hsplit', hlen'⟩ := strstr_some_split _ _ _ hi
      apply hno i hi
      obtain ⟨_, hfirst⟩ := strstr_first RESP_IMG _ i hi
      have hle : i ≤ pre.length := by
        by_contra hlt
        have := hfirst pre.length (by omega)
        rw [hsplit] at this
        simp [RESP_IMG] at this
      have hdrop : (cstr w.g.uart_rx_buf).drop (i + 4)
          = ((pre ++ RESP_IMG).drop (i + 4)) ++ post := by
        rw [hsplit, List.drop_append_of_le_length (by simp [RESP_IMG]; omega)]
      rw [hdrop]
      exact List.mem_append_right _ hnl
    rw [header_poll_no_header w hseen]
    by_cases he : (strstr (cstr w.g.uart_rx_buf) RESP_ERR).isSome = true
    · rw [if_pos he]; exact Or.inr rfl
    · rw [if_neg he]; exact Or.inl rfl
  · intro i ds c post hi hdrop hne hdig hc hnl
    have hchr : strchr ((cstr w.g.uart_rx_buf).drop i) 10 = true := by
      rw [strchr_behind_marker _ i hi, hdrop]
      exact List.mem_append_right _ hnl
    unfold header_poll
    simp only [hi, hchr, ↓reduceIte, hdrop, atoi, strtol10_digits_then ds c post hne hdig hc,
      header_size, gt_iff_lt]

/-- Witness for C14: the text `"IMG:10"`, at which the poll goes on, and the text
`"IMG:3\n"` of scenario A, from which the poll records the length 3. -/
theorem header_parsing_witness :
    (header_poll ((request_capture scenario_header_partial).2.at_poll 1)
        = .continued ((request_capture scenario_header_partial).2.at_poll 1) ∨
      header_poll ((request_capture scenario_header_partial).2.at_poll 1)
        = .returned (- EIO) ((request_capture scenario_header_partial).2.at_poll 1)) ∧
    header_poll ((request_capture scenario_a).2.at_poll 1) =
      if min (decimal_value [51]) 2147483647 = 0 ∨ JPEG_MAX_SIZE < min (decimal_value [51]) 2147483647
      then .returned (- EINVAL)
        { (request_capture scenario_a).2.at_poll 1 with
          g := { ((request_capture scenario_a).2.at_poll 1).g with
            expected_jpeg_len := min (decimal_value [51]) 2147483647 } }
      else .broke { (request_capture scenario_a).2.at_poll 1 with
        g := { ((request_capture scenario_a).2.at_poll 1).g with
          expected_jpeg_len := min (decimal_value [51]) 2147483647,
          receiving_jpeg := true, jpeg_len := 0, uart_rx_len := 0 } } :=
  ⟨(header_parsing ((request_capture scenario_header_partial).2.at_poll 1)).2.1 (fun i hi => by
      have h0 : strstr (cstr ((request_capture scenario_header_partial).2.at_poll 1).g.uart_rx_buf)
          RESP_IMG = some 0 := by decide
      rw [h0] at hi
      obtain rfl := Option.some.inj hi
      decide),
    (header_parsing ((request_capture scenario_a).2.at_poll 1)).2.2 0 [51] 10 [] (by decide)
      (by decide) (by decide) (by decide) (by decide) (by decide)⟩

/-- Counterexample to C14 as stated.  At the text `"IMG:\n12"` nothing stands
between the first marker and the newline behind it, yet the poll records the
length 12 and the loop is left in binary mode.  At the text `"IMG:-5\n"` the
decimal digits between marker and newline have the value 5, yet the poll
records 4294967291 and `receive_jpeg` returns `-EINVAL`. -/
theorem header_parsing_fails_on_newline_first :
    (strstr (cstr ((request_capture scenario_header_newline_first).2.at_poll 1).g.uart_rx_buf)
        RESP_IMG = some 0 ∧
      between_marker_and_newline
        (cstr ((request_capture scenario_header_newline_first).2.at_poll 1).g.uart_rx_buf) 0 = [] ∧
      (header_loop 30000 1 0 (request_capture scenario_header_newline_first).2).map
        (fun f => match f with
          | .returned ret u => (some ret, u.g.receiving_jpeg, u.g.expected_jpeg_len)
          | .fell_through u => (none, u.g.receiving_jpeg, u.g.expected_jpeg_len))
        = some (none, true, 12)) ∧
    (strstr (cstr ((request_capture scenario_header_negative).2.at_poll 1).g.uart_rx_buf)
        RESP_IMG = some 0 ∧
      decimal_value ((between_marker_and_newline
        (cstr ((request_capture scenario_header_negative).2.at_poll 1).g.uart_rx_buf) 0).filter
          isdigit) = 5 ∧
      (receive_jpeg 1 (request_capture scenario_header_negative).2).map
        (fun r => (r.1, r.2.g.receiving_jpeg, r.2.g.expected_jpeg_len))
        = some (- EINVAL, false, 4294967291)) := by
  refine ⟨⟨by decide, by decide, by decide⟩, ⟨by decide, by decide, by decide⟩⟩

/-! ## Claims about the chunked write -/

/-- C15. Chunked write.  For a completed payload of `n > 0` bytes, when `fs_open`
succeeds and every `fs_write` returns the number of bytes it was offered,
`save_jpeg_to_sd` returns 0 having issued, between the open and the close,
exactly `⌈n / 4096⌉` writes: write number `k` is at offset `4096 * k` and
carries the bytes of the buffer from there, 4096 of them except in the last
write, which carries the `n - 4096 * k` bytes that remain; the chunks put
together are the first `n` bytes of `jpeg_buffer`. -/
theorem chunked_write (fuel : Nat) (wr : Nat → Int) (w : World)
    (hdata : w.g.jpeg_complete = true) (hpos : 0 < w.g.jpeg_len)
    (hfit : w.g.jpeg_len ≤ w.g.jpeg_buffer.length)
    (hwr : ∀ k, written_after wr k < w.g.jpeg_len →
      wr k = ((min 4096 (w.g.jpeg_len - written_after wr k) : Nat) : Int))
    (hfuel : (w.g.jpeg_len + 4095) / 4096 < fuel) :
    ∃ w', save_jpeg_to_sd fuel 0 wr w = some (0, w') ∧
      w'.fs = w.fs ++ [.fs_open (photo_filename w.g.file_counter)]
        ++ (List.range ((w.g.jpeg_len + 4095) / 4096)).map (fun k =>
            FsCall.fs_write (4096 * k) (payload_chunk w.g.jpeg_buffer w.g.jpeg_len k).2)
        ++ [.fs_close] ∧
      writes w'.fs = writes w.fs
        ++ (List.range ((w.g.jpeg_len + 4095) / 4096)).map
          (payload_chunk w.g.jpeg_buffer w.g.jpeg_len) ∧
      (writes w'.fs).length = (writes w.fs).length + (w.g.jpeg_len + 4095) / 4096 ∧
      (∀ k, k + 1 < (w.g.jpeg_len + 4095) / 4096 →
        (payload_chunk w.g.jpeg_buffer w.g.jpeg_len k).2.length = 4096) ∧
      (payload_chunk w.g.jpeg_buffer w.g.jpeg_len ((w.g.jpeg_len + 4095) / 4096 - 1)).2.length
        = w.g.jpeg_len - 4096 * ((w.g.jpeg_len + 4095) / 4096 - 1) ∧
      0 < w.g.jpeg_len - 4096 * ((w.g.jpeg_len + 4095) / 4096 - 1) ∧
      w.g.jpeg_len - 4096 * ((w.g.jpeg_len + 4095) / 4096 - 1) ≤ 4096 ∧
      ((List.range ((w.g.jpeg_len + 4095) / 4096)).map
        (fun k => (payload_chunk w.g.jpeg_buffer w.g.jpeg_len k).2)).flatten
        = w.g.jpeg_buffer.take w.g.jpeg_len := by
  have hw : writes (w.fs ++ [.fs_open (photo_filename w.g.file_counter)]
        ++ (List.range ((w.g.jpeg_len + 4095) / 4096)).map (fun k =>
            FsCall.fs_write (payload_chunk w.g.jpeg_buffer w.g.jpeg_len k).1
              (payload_chunk w.g.jpeg_buffer w.g.jpeg_len k).2)
        ++ [.fs_close])
      = writes w.fs ++ (List.range ((w.g.jpeg_len + 4095) / 4096)).map
          (payload_chunk w.g.jpeg_buffer w.g.jpeg_len) := by
    rw [writes_append, writes_append, writes_append]
    simp only [writes, List.filterMap_cons, List.filterMap_nil, List.append_nil,
      List.filterMap_map, Function.comp_def]
    congr 1
    exact congrFun (List.filterMap_eq_map (payload_chunk w.g.jpeg_buffer w.g.jpeg_len)) _
  refine ⟨_, save_jpeg_to_sd_accepting fuel wr w hdata hpos hwr hfuel, rfl, hw, ?_, ?_, ?_, ?_, ?_, ?_⟩
  · show (writes (w.fs ++ [.fs_open (photo_filename w.g.file_counter)]
        ++ (List.range ((w.g.jpeg_len + 4095) / 4096)).map (fun k =>
            FsCall.fs_write (payload_chunk w.g.jpeg_buffer w.g.jpeg_len k).1
              (payload_chunk w.g.jpeg_buffer w.g.jpeg_len k).2)
        ++ [.fs_close])).length = _
    rw [hw, List.length_append, List.length_map, List.length_range]
  · intro k hk
    rw [payload_chunk_length _ _ _ hfit]
    omega
  · rw [payload_chunk_length _ _ _ hfit]
    omega
  · omega
  · omega
  · rw [payload_chunks_flatten]
    congr 1
    omega

/-- Witness for C15: the three payload bytes of scenario A are written in one chunk
at offset 0. -/
theorem chunked_write_witness :
    ∃ w', save_jpeg_to_sd 2 0 (accepting_store 3) scenario_a_received = some (0, w') ∧
      writes w'.fs = writes scenario_a_received.fs ++ [(0, [97, 98, 99])] := by
  obtain ⟨w', h1, -, h3, -⟩ := chunked_write 2 (accepting_store 3) scenario_a_received
    (by decide) (by decide) scenario_a_received_fits (accepting_store_accepts 3) (by decide)
  refine ⟨w', h1, ?_⟩
  rw [h3]
  decide

/-! ## Claims about bytes that arrive before the header is noticed -/

/-- C16. Bytes that arrive before the header is noticed are discarded.  A poll that
accepts a header leaves `uart_rx_len = 0` and `jpeg_len = 0` and does not touch
`jpeg_buffer`.  So if, after a capture request, the header `"IMG:<L>\n"` for a
valid `L`, the payload bytes `p` (`L` of them, or any other number) and the
trailer all arrive during the first sleep and nothing arrives afterwards, the
header is accepted at the first
poll, the payload loop sees `jpeg_len = 0` at each of its 3000 polls, and
`receive_jpeg` and `capture_and_save` return `-ETIMEDOUT` with
`expected_jpeg_len = L`, `jpeg_len = 0`, the payload buffer as it was, and
without a call to the file system. -/
theorem early_frame_discarded (fuel : Nat) (open_ret : Int) (wr : Nat → Int) (w : World)
    (L : Nat) (p : List Nat) (rest : List (List Nat))
    (hL : 0 < L ∧ L ≤ JPEG_MAX_SIZE)
    (hrx : w.rx = (img_header (decimal_digits L) ++ p ++ trailer (xor_fold p)) :: rest)
    (hrest : ∀ b ∈ rest, b = []) (hfuel : 3000 < fuel) :
    (∀ v v', header_poll v = .broke v' →
      v'.g.uart_rx_len = 0 ∧ v'.g.jpeg_len = 0 ∧ v'.g.jpeg_buffer = v.g.jpeg_buffer) ∧
    ∃ w', receive_jpeg fuel (request_capture w).2 = some (- ETIMEDOUT, w') ∧
      capture_and_save fuel open_ret wr w = some (- ETIMEDOUT, w') ∧
      w'.g.expected_jpeg_len = L ∧ w'.g.jpeg_len = 0 ∧ w'.g.jpeg_buffer = w.g.jpeg_buffer ∧
      w'.g.jpeg_complete = false ∧ w'.g.receiving_jpeg = false ∧
      w'.slept = w.slept ++ [10] ++ List.replicate 3000 10 ∧
      w'.fs = w.fs ∧ w'.g.file_counter = w.g.file_counter := by
  constructor
  · intro v v' h
    obtain ⟨e, -, -, rfl⟩ := header_poll_broke v v' h
    exact ⟨rfl, rfl, rfl⟩
  · obtain ⟨f, rfl⟩ : ∃ f, fuel = f + 1 := ⟨fuel - 1, by omega⟩
    obtain ⟨buf, hhdr⟩ := header_loop_accept_early f w (decimal_digits L)
      (p ++ trailer (xor_fold p)) rest (decimal_digits_ne_nil L) (decimal_digits_isdigit L)
      (by rw [decimal_digits_value]; exact hL) (by rw [← List.append_assoc]; exact hrx)
      (img_header_length L hL.2)
    rw [decimal_digits_value] at hhdr
    have hquiet : ∀ n, (k_msleep 10)^[n] { w with
        g := { w.g with
          uart_rx_buf := buf, uart_rx_len := 0, jpeg_len := 0, receiving_jpeg := true,
          jpeg_complete := false, expected_jpeg_len := L },
        rx := rest, slept := w.slept ++ [10], tx := w.tx ++ CMD_CAPTURE }
        = { w with
          g := { w.g with
            uart_rx_buf := buf, uart_rx_len := 0, jpeg_len := 0, receiving_jpeg := true,
            jpeg_complete := false, expected_jpeg_len := L },
          rx := rest.drop n, slept := w.slept ++ [10] ++ List.replicate n 10,
          tx := w.tx ++ CMD_CAPTURE } := fun n => k_msleep_iterate_quiet 10 n _ hrest
    have hpay : payload_loop 30000 (f + 1) 0 { w with
        g := { w.g with
          uart_rx_buf := buf, uart_rx_len := 0, jpeg_len := 0, receiving_jpeg := true,
          jpeg_complete := false, expected_jpeg_len := L },
        rx := rest, slept := w.slept ++ [10], tx := w.tx ++ CMD_CAPTURE }
        = some (.fell_through { w with
          g := { w.g with
            uart_rx_buf := buf, uart_rx_len := 0, jpeg_len := 0, receiving_jpeg := true,
            jpeg_complete := false, expected_jpeg_len := L },
          rx := rest.drop 3000, slept := w.slept ++ [10] ++ List.replicate 3000 10,
          tx := w.tx ++ CMD_CAPTURE }) := by
      rw [payload_loop_skip 30000 3000 (f + 1) 0 _
        (fun j _ => by rw [hquiet (j + 1)]; exact hL.1) (fun j hj => by omega) (by omega),
        hquiet 3000]
      obtain ⟨f', hf'⟩ : ∃ f', f + 1 - 3000 = f' + 1 := ⟨f - 3000, by omega⟩
      rw [hf', payload_loop, if_neg (by omega)]
    have hrecv : receive_jpeg (f + 1) (request_capture w).2 = some (- ETIMEDOUT, { w with
        g := { w.g with
          uart_rx_buf := buf, uart_rx_len := 0, jpeg_len := 0, receiving_jpeg := false,
          jpeg_complete := false, expected_jpeg_len := L },
        rx := rest.drop 3000, slept := w.slept ++ [10] ++ List.replicate 3000 10,
        tx := w.tx ++ CMD_CAPTURE }) := by
      unfold receive_jpeg
      simp only [hhdr, Bool.not_true, Bool.false_eq_true, ↓reduceIte, hpay]
    refine ⟨_, hrecv, ?_, rfl, rfl, rfl, rfl, rfl, rfl, rfl, rfl⟩
    unfold capture_and_save
    have h0 : (request_capture w).1 = 0 := rfl
    have hne : (- ETIMEDOUT : Int) ≠ 0 := by decide
    simp only [h0, ne_eq, not_true_eq_false, ↓reduceIte, hrecv, hne, not_false_eq_true]

/-- Witness for C16: header `"IMG:3\n"`, payload `"abc"` and trailer arrive in one batch. -/
theorem early_frame_discarded_witness :
    ∃ w', receive_jpeg 3001 (request_capture scenario_early).2 = some (- ETIMEDOUT, w') ∧
      capture_and_save 3001 0 (fun _ => 4096) scenario_early = some (- ETIMEDOUT, w') ∧
      w'.g.expected_jpeg_len = 3 ∧ w'.g.jpeg_len = 0 ∧
      w'.g.jpeg_buffer = scenario_early.g.jpeg_buffer ∧
      w'.g.jpeg_complete = false ∧ w'.g.receiving_jpeg = false ∧
      w'.slept = scenario_early.slept ++ [10] ++ List.replicate 3000 10 ∧
      w'.fs = scenario_early.fs ∧ w'.g.file_counter = scenario_early.g.file_counter :=
  (early_frame_discarded 3001 0 (fun _ => 4096) scenario_early 3 [97, 98, 99] []
    (by decide) rfl (fun b hb => absurd hb (List.not_mem_nil b)) (by decide)).2

/-! ## Claims about what the end-marker check reads -/

/-- C17, the code at the failing input.  In the second cycle of `scenario_stale`
eleven bytes are received, `"fedcba\nEND:"`; the marker stands in the last five
of them, and the checksum is parsed from the bytes at the indices 11 and 12,
which the first cycle left there (`"07"`): the cycle is logged as "Checksum OK"
with the checksum 7 and the six bytes are saved.  The same second cycle right
after boot, where the buffer holds zeros behind the received bytes, is logged
as "END marker not found". -/
theorem end_marker_check_reads_stale_bytes :
    (two_cycles 2 0 (accepting_store 6) scenario_stale).map
      (fun r => (r.1, r.2.g.jpeg_len, r.2.log))
      = some (0, 6, [.checksum_ok 7, .checksum_ok 7]) ∧
    (two_cycles 2 0 (accepting_store 6) scenario_stale).map
      (fun r => r.2.g.jpeg_buffer.take 14)
      = some [102, 101, 100, 99, 98, 97, 10, 69, 78, 68, 58, 48, 55, 10] ∧
    (two_cycles 2 0 (accepting_store 6) scenario_stale).map (fun r => writes r.2.fs)
      = some [(0, [97, 98, 99, 100, 101, 102]), (0, [102, 101, 100, 99, 98, 97])] ∧
    (capture_and_save 2 0 (accepting_store 6) scenario_stale_fresh).map
      (fun r => (r.1, r.2.g.jpeg_len, r.2.log))
      = some (0, 6, [.end_marker_missing]) ∧
    (capture_and_save 2 0 (accepting_store 6) scenario_stale_fresh).map
      (fun r => r.2.g.jpeg_buffer.take 14)
      = some [102, 101, 100, 99, 98, 97, 10, 69, 78, 68, 58, 0, 0, 0] := by
  refine ⟨by decide, by decide, by decide, by decide, by decide⟩

/-! ## Claims about the payload a successful receive leaves -/

/-- C18. A successful receive always yields a savable payload.  Whenever
`receive_jpeg`, entered in text mode, returns 0, `jpeg_complete` is set and
`1 ≤ jpeg_len ≤ JPEG_MAX_SIZE`; the end-marker check has cut at most ten bytes
off the bytes received.  So whenever `capture_and_save` returns, either
`receive_jpeg` has returned an error, which is passed on, or `receive_jpeg` has
returned 0 and `save_jpeg_to_sd` has opened the file: what it returns is 0 or
what `fs_open` or `fs_write` returned, not the `-ENODATA` of its own check. -/
theorem successful_receive_is_savable (fuel : Nat) (open_ret : Int) (wr : Nat → Int) :
    (∀ w0 w1, w0.g.receiving_jpeg = false → receive_jpeg fuel w0 = some (0, w1) →
      w1.g.jpeg_complete = true ∧ 1 ≤ w1.g.jpeg_len ∧ w1.g.jpeg_len ≤ JPEG_MAX_SIZE ∧
      ∃ u, (0, w1) = end_marker_check u ∧ u.g.jpeg_len ≤ JPEG_MAX_SIZE ∧
        w1.g.jpeg_len ≤ u.g.jpeg_len ∧ u.g.jpeg_len ≤ w1.g.jpeg_len + 10) ∧
    (∀ w ret w2, capture_and_save fuel open_ret wr w = some (ret, w2) →
      (ret ≠ 0 ∧ receive_jpeg fuel (request_capture w).2 = some (ret, w2)) ∨
      (∃ w1, receive_jpeg fuel (request_capture w).2 = some (0, w1) ∧
        save_jpeg_to_sd fuel open_ret wr w1 = some (ret, w2) ∧
        ¬ (w1.g.jpeg_complete = false ∨ w1.g.jpeg_len = 0) ∧
        opened w2.fs = opened w.fs ++ [photo_filename w.g.file_counter] ∧
        (ret = 0 ∨ (open_ret ≠ 0 ∧ ret = open_ret) ∨ ∃ k, wr k < 0 ∧ ret = wr k))) := by
  have part1 : ∀ w0 w1, w0.g.receiving_jpeg = false → receive_jpeg fuel w0 = some (0, w1) →
      w1.g.jpeg_complete = true ∧ 1 ≤ w1.g.jpeg_len ∧ w1.g.jpeg_len ≤ JPEG_MAX_SIZE ∧
      (∃ u, (0, w1) = end_marker_check u ∧ u.g.jpeg_len ≤ JPEG_MAX_SIZE ∧
        w1.g.jpeg_len ≤ u.g.jpeg_len ∧ u.g.jpeg_len ≤ w1.g.jpeg_len + 10) ∧
      w1.g.file_counter = w0.g.file_counter ∧ w1.fs = w0.fs := by
    intro w0 w1 hmode hret
    obtain ⟨u, hu, u1, u2, -, u4, u5⟩ := receive_jpeg_success fuel w0 w1 hmode hret
    obtain ⟨-, r2, -, r4, r5, r6, -, -, -, -, r11, r12, -⟩ := end_marker_check_result u
    rw [← hu] at r2 r4 r5 r6 r11 r12
    exact ⟨r2, r6 u1, Nat.le_trans r4 u2, ⟨u, hu, u2, r4, r5⟩, r11.trans u4, r12.trans u5⟩
  refine ⟨fun w0 w1 hmode hret => ?_, fun w ret w2 hcap => ?_⟩
  · obtain ⟨a, b, c, d, -⟩ := part1 w0 w1 hmode hret
    exact ⟨a, b, c, d⟩
  · unfold capture_and_save at hcap
    have h0 : (request_capture w).1 = 0 := rfl
    simp only [h0, ne_eq, not_true_eq_false, ↓reduceIte] at hcap
    cases hrecv : receive_jpeg fuel (request_capture w).2 with
    | none => rw [hrecv] at hcap; simp at hcap
    | some r =>
      obtain ⟨r0, w1⟩ := r
      rw [hrecv] at hcap
      simp only at hcap
      by_cases hr : r0 = 0
      · subst hr
        simp only [not_true_eq_false, ↓reduceIte] at hcap
        obtain ⟨a, b, -, -, e, f⟩ := part1 _ w1 (by rw [request_capture_snd]) hrecv
        obtain ⟨s1, s2⟩ := save_jpeg_to_sd_returns fuel open_ret wr w1 ret w2 a (by omega) hcap
        refine Or.inr ⟨w1, rfl, hcap, ?_, ?_, s1⟩
        · rw [a]
          simp only [Bool.true_eq_false, false_or]
          omega
        · rw [s2, e, f]
          simp [request_capture_snd]
      · simp only [hr, not_false_eq_true, ↓reduceIte, Option.some.injEq, Prod.mk.injEq] at hcap
        obtain ⟨rfl, rfl⟩ := hcap
        exact Or.inl ⟨hr, rfl⟩

/-- Witness for C18: scenario A, where `receive_jpeg` returns 0 with three payload
bytes and `capture_and_save` goes on to open `photo_0000.jpg`. -/
theorem successful_receive_is_savable_witness :
    (∃ w1, receive_jpeg 2 (request_capture scenario_a).2 = some (0, w1) ∧
      w1.g.jpeg_complete = true ∧ 1 ≤ w1.g.jpeg_len ∧ w1.g.jpeg_len ≤ JPEG_MAX_SIZE) ∧
    (∃ ret w2, capture_and_save 2 0 (accepting_store 3) scenario_a = some (ret, w2) ∧
      opened w2.fs = opened scenario_a.fs ++ [photo_filename scenario_a.g.file_counter]) := by
  have hfst : (receive_jpeg 2 (request_capture scenario_a).2).map Prod.fst = some 0 := by decide
  constructor
  · cases hr : receive_jpeg 2 (request_capture scenario_a).2 with
    | none => rw [hr] at hfst; simp at hfst
    | some r =>
      obtain ⟨r0, w1⟩ := r
      rw [hr] at hfst
      simp only [Option.map_some', Option.some.injEq] at hfst
      subst hfst
      obtain ⟨a, b, c, -⟩ := (successful_receive_is_savable 2 0 (accepting_store 3)).1
        (request_capture scenario_a).2 w1 rfl hr
      exact ⟨w1, rfl, a, b, c⟩
  · have hsome : (capture_and_save 2 0 (accepting_store 3) scenario_a).isSome = true := by decide
    cases hc : capture_and_save 2 0 (accepting_store 3) scenario_a with
    | none => rw [hc] at hsome; simp at hsome
    | some r =>
      obtain ⟨ret, w2⟩ := r
      refine ⟨ret, w2, rfl, ?_⟩
      rcases (successful_receive_is_savable 2 0 (accepting_store 3)).2 scenario_a ret w2 hc with
        ⟨_, _⟩ | ⟨w1, -, -, -, hopen, -⟩
      · rename_i hne hrecv
        rw [hrecv] at hfst
        simp only [Option.map_some', Option.some.injEq] at hfst
        exact absurd hfst hne
      · exact hopen

/-! ## Claims about the termination of the save -/

/-- C19, the code at the failing input.  With the three payload bytes of scenario A,
`fs_open` returning 0 and every `fs_write` returning 0 (no byte accepted, no
error), `written` stays 0 and `save_jpeg_to_sd` does not return, whatever the
number of passes through its loop: after `n` passes the loop is where it
started, with `n` more writes in the trace, each of the same three bytes at
offset 0. -/
theorem save_jpeg_to_sd_stalls_on_zero_writes :
    (∀ fuel, save_jpeg_to_sd fuel 0 stalled_store scenario_a_received = none) ∧
    (∀ n, written_after stalled_store n = 0) ∧
    (∀ n fuel fs, n ≤ fuel →
      write_loop scenario_a_received.g stalled_store fuel 0 0 fs
        = write_loop scenario_a_received.g stalled_store (fuel - n) n 0
          (fs ++ write_calls scenario_a_received.g stalled_store 0 n)) ∧
    (∀ n, writes (write_calls scenario_a_received.g stalled_store 0 n)
      = List.replicate n (0, [97, 98, 99])) := by
  have hw : ∀ n, written_after stalled_store n = 0 := by
    intro n
    induction n with
    | zero => rfl
    | succ n ih => show written_after stalled_store n + (stalled_store n).toNat = 0; rw [ih]; rfl
  refine ⟨fun fuel => ?_, hw, fun n fuel fs hn => ?_, fun n => ?_⟩
  · rw [save_jpeg_to_sd_open fuel stalled_store scenario_a_received (by decide) (by decide),
      write_loop_stalls scenario_a_received.g stalled_store (by decide) (fun _ => rfl)]
  · have h := write_loop_steps scenario_a_received.g stalled_store n fuel 0 fs
      (fun j _ _ => ⟨Int.le_refl 0, by rw [hw j]; decide⟩) hn
    rw [hw 0, Nat.zero_add, hw n] at h
    exact h
  · rw [writes_write_calls]
    have hc : chunk_at scenario_a_received.g 0 = [97, 98, 99] := by decide
    simp only [hw, hc]
    exact List.eq_replicate_iff.mpr ⟨by simp, fun b hb => by simp at hb; exact hb.2⟩

/-! ## Claims about the detection strength of the checksum -/

/-- C20 (amended). Detection strength of the checksum.  Replacing one of the bytes
`calculate_checksum` folds by a different byte value changes its result.  So
let `receive_jpeg` be entered in text mode and let its header loop be left in
binary mode with `expected_jpeg_len = L`, where `3 ≤ L ≤ JPEG_MAX_SIZE - 7` (a
header was accepted, at whatever poll and behind whatever text).  If from then
on a payload `p` of `L` bytes arrives with the byte at one position replaced by
a different byte `b`, followed by the intact trailer of `p` (in any batches,
the payload complete within the polls of the payload loop and the part not yet
there when the payload is first seen complete arriving during the extra sleep),
`receive_jpeg` returns 0 with the corrupted payload in the buffer and logs
"Checksum mismatch" with the declared checksum of `p` and the computed
checksum of what arrived. -/
theorem single_byte_corruption_detected :
    (∀ (data : List Nat) (len i b : Nat), len ≤ data.length → (∀ x ∈ data.take len, x < 256) →
      i < len → b < 256 → data.getD i 0 ≠ b →
      calculate_checksum (data.set i b) len ≠ calculate_checksum data len) ∧
    (∀ (fuel : Nat) (w0 w1 : World) (L : Nat) (p : List Nat) (i b : Nat)
      (quiet : List (List Nat)) (last late : List Nat) (rest : List (List Nat)),
      3 ≤ L → L + 7 ≤ JPEG_MAX_SIZE → p.length = L → (∀ x ∈ p, x < 256) →
      i < L → b < 256 → p.getD i 0 ≠ b →
      w0.g.receiving_jpeg = false → w0.g.WF →
      header_loop 30000 fuel 0 w0 = some (.fell_through w1) →
      w1.g.receiving_jpeg = true → w1.g.expected_jpeg_len = L →
      w1.rx = quiet ++ last :: late :: rest →
      quiet.flatten ++ last ++ late = p.set i b ++ trailer (xor_fold p) →
      quiet.flatten.length < L → L ≤ quiet.flatten.length + last.length →
      quiet.length < 3000 → quiet.length < fuel →
      ∃ w', receive_jpeg fuel w0 = some (0, w') ∧
        w'.g.jpeg_len = L ∧ w'.g.jpeg_buffer.take L = p.set i b ∧ w'.g.jpeg_complete = true ∧
        w'.log = w0.log ++ [.checksum_mismatch (xor_fold p) (xor_fold (p.set i b))]) := by
  refine ⟨fun data len i b hlen hdata hil hb256 hd =>
      calculate_checksum_set_ne data len i b hlen hdata hil hb256 hd, ?_⟩
  intro fuel w0 w1 L p i b quiet last late rest hL3 hL7 hp hbytes hi hb256 hb hmode hwf hhdr
    hbin hexp hrx hframe hshort hfull hk hfuel
  have hset : ∀ x ∈ p.set i b, x < 256 := by
    intro x hx
    rcases List.mem_or_eq_of_mem_set hx with h | h
    · exact hbytes x h
    · rw [h]; exact hb256
  have hne : xor_fold (p.set i b) ≠ xor_fold p :=
    xor_fold_set_ne p i b (by rw [hp]; exact hi) hb
  obtain ⟨w', h1, h2, h3, h4, -, h6⟩ := receive_frame_after_header fuel w0 w1 L (p.set i b)
    (xor_fold p) quiet last late rest hL3 hL7 (by rw [List.length_set]; exact hp) hset
    (xor_fold_lt p hbytes) hmode hwf hhdr hbin hexp hrx hframe hshort hfull hk hfuel
  rw [if_neg hne] at h6
  exact ⟨w', h1, h2, h3, h4, h6⟩

/-- Witness for C20: behind the line `"OK:ready\n"` and the header `"IMG:3\n"`, the
payload `"abc"` arrives as `"aXc"` with the trailer of `"abc"`. -/
theorem single_byte_corruption_detected_witness :
    calculate_checksum ([97, 98, 99].set 1 88) 3 ≠ calculate_checksum [97, 98, 99] 3 ∧
    ∃ w', receive_jpeg 1 (request_capture scenario_ok_corrupted).2 = some (0, w') ∧
      w'.g.jpeg_len = 3 ∧ w'.g.jpeg_buffer.take 3 = [97, 98, 99].set 1 88 ∧
      w'.g.jpeg_complete = true ∧
      w'.log = (request_capture scenario_ok_corrupted).2.log
        ++ [.checksum_mismatch (xor_fold [97, 98, 99]) (xor_fold ([97, 98, 99].set 1 88))] :=
  ⟨single_byte_corruption_detected.1 [97, 98, 99] 3 1 88 (by decide) (by decide) (by decide)
      (by decide) (by decide),
    single_byte_corruption_detected.2 1 (request_capture scenario_ok_corrupted).2
      scenario_ok_corrupted_accepted 3 [97, 98, 99] 1 88 []
      ([97, 88, 99] ++ trailer (xor_fold [97, 98, 99])) [] []
      (by decide) (by decide) rfl (by decide) (by decide) (by decide) (by decide) rfl
      (request_capture_wf scenario_ok_corrupted (List.length_replicate _ _))
      scenario_ok_corrupted_header rfl rfl rfl (by decide) (by decide) (by decide) (by decide)
      (by decide)⟩

/-- Counterexample to C20 as stated: the one-byte payload `"a"` arrives as `"b"` with
the intact trailer `"\nEND:61\n"`.  Nine bytes are received, the end marker is
not looked for, and `receive_jpeg` returns 0 with `jpeg_len = 9` and logs "END
marker not found", not a mismatch, although the checksums of `"a"` and `"b"`
differ. -/
theorem single_byte_corruption_missed_in_short_payload :
    calculate_checksum [98] 1 ≠ calculate_checksum [97] 1 ∧
    (receive_jpeg 1 (request_capture scenario_corrupted_short).2).map
      (fun r => (r.1, r.2.g.expected_jpeg_len, r.2.g.jpeg_len, r.2.g.jpeg_buffer.take 9, r.2.log))
      = some (0, 1, 9, [98, 10, 69, 78, 68, 58, 54, 49, 10], [.end_marker_missing]) := by
  refine ⟨by decide, by decide⟩

/-! ## Claims about the validation of the header -/

/-- C1 (amended). Header validation.  After a capture request, let the text at some
poll of the header loop hold the header `"IMG:<decimal L>\n"` with no `"IMG:"`
before it (whatever else stands before and behind the header), nothing having
been seen at the polls before.  If `0 < L ≤ JPEG_MAX_SIZE`, the header loop is
left at that poll with `receiving_jpeg` set, `expected_jpeg_len = L` and
`jpeg_len = 0`.  If `L = 0` or `L > JPEG_MAX_SIZE`, `receive_jpeg` returns
`-EINVAL` with `receiving_jpeg` still false, and `capture_and_save` returns it
too, without a call to the file system and with the file counter unchanged. -/
theorem header_validation (fuel k : Nat) (open_ret : Int) (wr : Nat → Int) (w : World)
    (L : Nat) (pre post : List Nat) (hk : k < 3000) (hfuel : k < fuel)
    (hquiet : ∀ j < k,
      ¬ header_seen (cstr ((request_capture w).2.at_poll (j + 1)).g.uart_rx_buf) ∧
      ¬ error_seen (cstr ((request_capture w).2.at_poll (j + 1)).g.uart_rx_buf))
    (htext : cstr ((request_capture w).2.at_poll (k + 1)).g.uart_rx_buf
      = pre ++ img_header (decimal_digits L) ++ post)
    (hfirst : ∀ j < pre.length,
      RESP_IMG.isPrefixOf ((pre ++ img_header (decimal_digits L) ++ post).drop j) = false) :
    (0 < L ∧ L ≤ JPEG_MAX_SIZE →
      header_loop 30000 fuel 0 (request_capture w).2 = some (.fell_through
        { (request_capture w).2.at_poll (k + 1) with
          g := { ((request_capture w).2.at_poll (k + 1)).g with
            expected_jpeg_len := L, receiving_jpeg := true, jpeg_len := 0, uart_rx_len := 0 } })) ∧
    (L = 0 ∨ JPEG_MAX_SIZE < L →
      ∃ w', receive_jpeg fuel (request_capture w).2 = some (- EINVAL, w') ∧
        capture_and_save fuel open_ret wr w = some (- EINVAL, w') ∧
        w'.g.receiving_jpeg = false ∧ w'.g.jpeg_complete = false ∧
        w'.fs = w.fs ∧ w'.g.file_counter = w.g.file_counter) := by
  have hM : JPEG_MAX_SIZE = 524288 := rfl
  have hloop := header_loop_to_poll fuel k (request_capture w).2 hk hfuel hquiet
  have hpoll := header_poll_header_at ((request_capture w).2.at_poll (k + 1)) pre
    (decimal_digits L) post (decimal_digits_ne_nil L) (decimal_digits_isdigit L) htext hfirst
  rw [decimal_digits_value] at hpoll
  obtain ⟨k1, -, -, -, k5, k6, k7⟩ := at_poll_keeps (request_capture w).2 (k + 1)
  constructor
  · intro hL
    rw [if_neg (by omega), min_int_max_of_le L hL.2] at hpoll
    rw [hloop, hpoll]
  · intro hL
    rw [if_pos (by omega)] at hpoll
    rw [hpoll] at hloop
    have hrecv : receive_jpeg fuel (request_capture w).2 = some (- EINVAL,
        { (request_capture w).2.at_poll (k + 1) with
          g := { ((request_capture w).2.at_poll (k + 1)).g with
            expected_jpeg_len := min L 2147483647 } }) := by
      unfold receive_jpeg
      simp only [hloop]
    refine ⟨_, hrecv, ?_, ?_, ?_, ?_, ?_⟩
    · unfold capture_and_save
      have h0 : (request_capture w).1 = 0 := rfl
      have hne : (- EINVAL : Int) ≠ 0 := by decide
      simp only [h0, ne_eq, not_true_eq_false, ↓reduceIte, hrecv, hne, not_false_eq_true]
    · exact k6
    · exact k7
    · exact k1
    · exact k5

/-- Witness for C1: the text `"OK:ready\nIMG:5\n"`, whose header is accepted at the
first poll, and scenario B, whose header `"IMG:0\n"` is refused at the first poll. -/
theorem header_validation_witness :
    header_loop 30000 1 0 (request_capture scenario_ok_then_header).2 = some (.fell_through
      { (request_capture scenario_ok_then_header).2.at_poll (0 + 1) with
        g := { ((request_capture scenario_ok_then_header).2.at_poll (0 + 1)).g with
          expected_jpeg_len := 5, receiving_jpeg := true, jpeg_len := 0, uart_rx_len := 0 } }) ∧
    (∃ w', receive_jpeg 1 (request_capture scenario_b).2 = some (- EINVAL, w') ∧
      capture_and_save 1 0 (fun _ => 4096) scenario_b = some (- EINVAL, w') ∧
      w'.g.receiving_jpeg = false ∧ w'.g.jpeg_complete = false ∧
      w'.fs = scenario_b.fs ∧ w'.g.file_counter = scenario_b.g.file_counter) :=
  ⟨(header_validation 1 0 0 (fun _ => 4096) scenario_ok_then_header 5 (bytes "OK:ready\n") []
      (by decide) (by decide) (fun j hj => absurd hj (Nat.not_lt_zero j)) (by decide)
      (by decide)).1 (by decide),
    (header_validation 1 0 0 (fun _ => 4096) scenario_b 0 [] [] (by decide) (by decide)
      (fun j hj => absurd hj (Nat.not_lt_zero j)) (by decide)
      (fun j hj => absurd hj (Nat.not_lt_zero j))).2 (by decide)⟩

/-- Counterexample to C1 as stated.  The text at the first poll is `"IMG:\nIMG:5\n"`, so
it holds the header `"IMG:5\n"` with `0 < 5 ≤ JPEG_MAX_SIZE`; the size is read
behind the first `"IMG:"`, where no digit stands, and `receive_jpeg` returns
`-EINVAL` in text mode with `expected_jpeg_len = 0`.  And when the buffer holds
a NUL byte before the header `"IMG:5\n"`, the C string in it is empty, no poll
sees the header, and `receive_jpeg` returns `-ETIMEDOUT`. -/
theorem header_validation_fails_behind_marker :
    cstr ((request_capture scenario_header_behind_marker).2.at_poll 1).g.uart_rx_buf
      = bytes "IMG:\n" ++ img_header (decimal_digits 5) ++ [] ∧
    (0 < 5 ∧ 5 ≤ JPEG_MAX_SIZE) ∧
    (receive_jpeg 1 (request_capture scenario_header_behind_marker).2).map
      (fun r => (r.1, r.2.g.receiving_jpeg, r.2.g.expected_jpeg_len))
      = some (- EINVAL, false, 0) ∧
    ((request_capture scenario_header_behind_nul).2.at_poll 1).g.uart_rx_buf.take 7
      = 0 :: img_header (decimal_digits 5) ∧
    (receive_jpeg 3001 (request_capture scenario_header_behind_nul).2).map
      (fun r => (r.1, r.2.g.receiving_jpeg)) = some (- ETIMEDOUT, false) := by
  refine ⟨by decide, by decide, by decide, by decide, ?_⟩
  rw [receive_jpeg_timeout_of_quiet 3001 _ (by decide) rfl (fun j _ => by
    rw [scenario_header_behind_nul_text]
    constructor
    · rintro ⟨pre, post, h, -⟩
      simp [RESP_IMG] at h
    · rintro ⟨pre, post, h⟩
      simp [RESP_ERR] at h)]
  have hm := (at_poll_keeps (request_capture scenario_header_behind_nul).2 3000).2.2.2.2.2.1
  simp only [Option.map_some', hm]
  rfl

/-! ## Claims about a frame received after the header -/

/-- C4 (amended). Framing round trip for declared lengths `3 ≤ L ≤ JPEG_MAX_SIZE - 7`.
Let `receive_jpeg` be entered in text mode and let its header loop be left in
binary mode with `expected_jpeg_len = L` (a header was accepted, at whatever
poll and behind whatever text).  If from then on the frame (the `L` payload
bytes, `"\nEND:"`, the two upper-case hex digits of their XOR, `"\n"`)
arrives, in any batches, the payload complete within the polls of the payload
loop and the part not yet there when the payload is first seen complete
arriving during the extra sleep, then `receive_jpeg` returns 0 with
`jpeg_len = L`, the payload bytes in the buffer, `jpeg_complete` set, text mode
restored, and logs "Checksum OK". -/
theorem framing_round_trip (fuel : Nat) (w0 w1 : World) (L : Nat) (p : List Nat)
    (quiet : List (List Nat)) (last late : List Nat) (rest : List (List Nat))
    (hL3 : 3 ≤ L) (hL7 : L + 7 ≤ JPEG_MAX_SIZE)
    (hp : p.length = L) (hbytes : ∀ b ∈ p, b < 256)
    (hmode : w0.g.receiving_jpeg = false) (hwf : w0.g.WF)
    (hhdr : header_loop 30000 fuel 0 w0 = some (.fell_through w1))
    (hbin : w1.g.receiving_jpeg = true) (hexp : w1.g.expected_jpeg_len = L)
    (hrx : w1.rx = quiet ++ last :: late :: rest)
    (hframe : quiet.flatten ++ last ++ late = jpeg_frame p)
    (hshort : quiet.flatten.length < L) (hfull : L ≤ quiet.flatten.length + last.length)
    (hk : quiet.length < 3000) (hfuel : quiet.length < fuel) :
    ∃ w', receive_jpeg fuel w0 = some (0, w') ∧
      w'.g.jpeg_len = L ∧ w'.g.jpeg_buffer.take L = p ∧ w'.g.jpeg_complete = true ∧
      w'.g.receiving_jpeg = false ∧ w'.log = w0.log ++ [.checksum_ok (xor_fold p)] := by
  obtain ⟨w', h1, h2, h3, h4, h5, h6⟩ := receive_frame_after_header fuel w0 w1 L p (xor_fold p)
    quiet last late rest hL3 hL7 hp hbytes (xor_fold_lt p hbytes) hmode hwf hhdr hbin hexp hrx
    hframe hshort hfull hk hfuel
  rw [if_pos rfl] at h6
  exact ⟨w', h1, h2, h3, h4, h5, h6⟩

/-- Witness for C4: the header `"IMG:3\n"` arrives behind the line `"OK:ready\n"`, then
the payload `"abc"` with its trailer. -/
theorem framing_round_trip_witness :
    ∃ w', receive_jpeg 1 (request_capture scenario_ok_frame).2 = some (0, w') ∧
      w'.g.jpeg_len = 3 ∧ w'.g.jpeg_buffer.take 3 = [97, 98, 99] ∧ w'.g.jpeg_complete = true ∧
      w'.g.receiving_jpeg = false ∧
      w'.log = (request_capture scenario_ok_frame).2.log
        ++ [.checksum_ok (xor_fold [97, 98, 99])] :=
  framing_round_trip 1 (request_capture scenario_ok_frame).2 scenario_ok_frame_accepted 3
    [97, 98, 99] [] (jpeg_frame [97, 98, 99]) [] []
    (by decide) (by decide) rfl (by decide) rfl
    (request_capture_wf scenario_ok_frame (List.length_replicate _ _))
    scenario_ok_frame_header rfl rfl rfl (by simp) (by decide) (by decide) (by decide)
    (by decide)

/-- C5. Lenient integrity policy.  Let the run of `receive_jpeg` after a capture
request come to the end-marker check, the first `"\nEND:"` in the last ten
received bytes standing at index `i` and `sscanf` parsing a checksum `rc`
behind it.  Then `receive_jpeg` returns 0 with `jpeg_complete` set and
`jpeg_len = i`, logging "Checksum OK" when the XOR of the `i` bytes is `rc` and
"Checksum mismatch" when it is not; the globals it leaves do not mention `rc`.
What `capture_and_save` then returns, does on the file system and leaves in
the counter is what saving any state with the same `i` payload bytes does,
whatever checksum was declared.  In particular, in both cases, when `fs_open`
succeeds and every `fs_write` accepts what it is offered, `capture_and_save`
returns 0 having written exactly the `i` payload bytes, and the counter is one
more (modulo `2 ^ 32`). -/
theorem lenient_integrity (fuel : Nat) (open_ret : Int) (wr : Nat → Int) (w u : World)
    (i rc : Nat)
    (hrun : reaches_check fuel (request_capture w).2 u)
    (hlen : 10 < u.g.jpeg_len)
    (hwin : u.g.jpeg_len - 10 ≤ i) (hfit : i + 5 ≤ u.g.jpeg_len)
    (hmark : marker_at u.g.jpeg_buffer i)
    (hfirst : ∀ j, u.g.jpeg_len - 10 ≤ j → j < i → ¬ marker_at u.g.jpeg_buffer j)
    (hscan : sscanf_02hhX (u.g.jpeg_buffer.drop (i + 5)) = some rc) :
    ∃ verdict : Integrity,
      ((calculate_checksum u.g.jpeg_buffer i = rc ∧ verdict = .checksum_ok rc) ∨
        (calculate_checksum u.g.jpeg_buffer i ≠ rc ∧
          verdict = .checksum_mismatch rc (calculate_checksum u.g.jpeg_buffer i))) ∧
      receive_jpeg fuel (request_capture w).2 = some (0, { u with
        g := { u.g with receiving_jpeg := false, jpeg_len := i, jpeg_complete := true },
        log := u.log ++ [verdict] }) ∧
      (capture_and_save fuel open_ret wr w).map (fun r => (r.1, r.2.g, r.2.fs))
        = (save_jpeg_to_sd fuel open_ret wr { u with
            g := { u.g with receiving_jpeg := false, jpeg_len := i, jpeg_complete := true } }).map
          (fun r => (r.1, r.2.g, r.2.fs)) ∧
      (∀ v : World, v.fs = w.fs → v.g.file_counter = w.g.file_counter →
        v.g.jpeg_complete = true → v.g.jpeg_len = i →
        v.g.jpeg_buffer.take i = u.g.jpeg_buffer.take i →
        (capture_and_save fuel open_ret wr w).map (fun r => (r.1, r.2.fs, r.2.g.file_counter))
          = (save_jpeg_to_sd fuel open_ret wr v).map
            (fun r => (r.1, r.2.fs, r.2.g.file_counter))) ∧
      (open_ret = 0 →
        (∀ k, written_after wr k < i →
          wr k = ((min 4096 (i - written_after wr k) : Nat) : Int)) →
        (i + 4095) / 4096 < fuel →
        ∃ w', capture_and_save fuel open_ret wr w = some (0, w') ∧
          w'.fs = w.fs ++ [.fs_open (photo_filename w.g.file_counter)]
            ++ (List.range ((i + 4095) / 4096)).map (fun k =>
                FsCall.fs_write (4096 * k) (payload_chunk (u.g.jpeg_buffer.take i) i k).2)
            ++ [.fs_close] ∧
          ((List.range ((i + 4095) / 4096)).map
            (fun k => (payload_chunk (u.g.jpeg_buffer.take i) i k).2)).flatten
            = u.g.jpeg_buffer.take i ∧
          w'.g.file_counter = (w.g.file_counter + 1) % WORD ∧
          w'.g.jpeg_len = i ∧ w'.g.jpeg_complete = true ∧ w'.log = u.log ++ [verdict]) := by
  have hfind := find_end_marker_some _ _ _ hwin hfit hmark hfirst
  have hrecv := receive_jpeg_of_reaches_check _ _ _ hrun
  rw [end_marker_check_found u i rc hlen hfind hscan] at hrecv
  obtain ⟨hufs, huc⟩ := reaches_check_keeps fuel _ u (by rw [request_capture_snd]) hrun
  have hwfs : (request_capture w).2.fs = w.fs := by rw [request_capture_snd]
  have hwc : (request_capture w).2.g.file_counter = w.g.file_counter := by
    rw [request_capture_snd]
  have hcap : capture_and_save fuel open_ret wr w = save_jpeg_to_sd fuel open_ret wr { u with
      g := { u.g with receiving_jpeg := false, jpeg_len := i, jpeg_complete := true },
      log := u.log ++ [if calculate_checksum u.g.jpeg_buffer i = rc then .checksum_ok rc
        else .checksum_mismatch rc (calculate_checksum u.g.jpeg_buffer i)] } := by
    unfold capture_and_save
    have h0 : (request_capture w).1 = 0 := rfl
    simp only [h0, ne_eq, not_true_eq_false, ↓reduceIte, hrecv]
  refine ⟨_, ?_, hrecv, ?_, ?_, ?_⟩
  · by_cases h : calculate_checksum u.g.jpeg_buffer i = rc
    · exact Or.inl ⟨h, by rw [if_pos h]⟩
    · exact Or.inr ⟨h, by rw [if_neg h]⟩
  · rw [hcap]
    exact save_jpeg_to_sd_log fuel open_ret wr { u with
      g := { u.g with receiving_jpeg := false, jpeg_len := i, jpeg_complete := true } } _
  · intro v hvfs hvc hvdone hvlen hvbuf
    rw [hcap]
    apply save_jpeg_to_sd_congr
    · exact hufs.trans (hwfs.trans hvfs.symm)
    · exact huc.trans (hwc.trans hvc.symm)
    · exact hvdone.symm
    · exact hvlen.symm
    · show u.g.jpeg_buffer.take i = v.g.jpeg_buffer.take v.g.jpeg_len
      rw [hvlen, hvbuf]
  · intro hopen hwr hfuel
    subst hopen
    rw [hcap, save_jpeg_to_sd_accepting fuel wr _ rfl (by show 0 < i; omega) hwr hfuel]
    refine ⟨_, rfl, ?_, ?_, ?_, rfl, rfl, rfl⟩
    · show u.fs ++ [.fs_open (photo_filename u.g.file_counter)]
        ++ (List.range ((i + 4095) / 4096)).map (fun k =>
            FsCall.fs_write (payload_chunk u.g.jpeg_buffer i k).1
              (payload_chunk u.g.jpeg_buffer i k).2)
        ++ [.fs_close] = _
      rw [hufs, huc, hwfs, hwc]
      congr 2
      apply List.map_congr_left
      intro k _
      rw [payload_chunk_take]
      rfl
    · rw [payload_chunks_flatten, List.take_take]
      congr 1
      omega
    · show (u.g.file_counter + 1) % WORD = _
      rw [huc, hwc]

/-- Witness for C5: scenario A, where the checksum `0x60` of the trailer is the XOR of
`"abc"`, and the same trailer behind the corrupted payload `"aXc"`, whose XOR is
`0x5A`: both are saved, the three bytes received in one write.  And `"abc"` with
the checksum `0x61` declared is saved as `"abc"` with `0x60` declared is. -/
theorem lenient_integrity_witness :
    (∃ w', capture_and_save 2 0 (accepting_store 3) scenario_a = some (0, w') ∧
      writes w'.fs = [(0, [97, 98, 99])] ∧ w'.log = [.checksum_ok 96] ∧
      w'.g.file_counter = 1) ∧
    (∃ w', capture_and_save 2 0 (accepting_store 3) scenario_corrupted = some (0, w') ∧
      writes w'.fs = [(0, [97, 88, 99])] ∧ w'.log = [.checksum_mismatch 96 90] ∧
      w'.g.file_counter = 1) ∧
    (capture_and_save 2 0 (accepting_store 3) scenario_a).map
        (fun r => (r.1, r.2.fs, r.2.g.file_counter))
      = (capture_and_save 2 0 (accepting_store 3) scenario_wrong_sum).map
        (fun r => (r.1, r.2.fs, r.2.g.file_counter)) := by
  refine ⟨?_, ?_, ?_⟩
  · obtain ⟨verdict, hv, -, -, -, hpersist⟩ := lenient_integrity 2 0 (accepting_store 3)
      scenario_a scenario_a_check 3 96 scenario_a_reaches_check_two (by decide) (by decide)
      (by decide) (by decide)
      (by
        intro j h1 h2
        have hlen : scenario_a_check.g.jpeg_len = 11 := by decide
        rw [hlen] at h1
        have hj : 1 ≤ j ∧ j ≤ 2 := by omega
        obtain ⟨hlo, hhi⟩ := hj
        interval_cases j <;> decide)
      (by decide)
    obtain ⟨w', h1, h2, -, h4, -, -, h7⟩ := hpersist rfl (accepting_store_accepts 3) (by decide)
    refine ⟨w', h1, by rw [h2]; decide, ?_, by rw [h4]; decide⟩
    rcases hv with ⟨-, rfl⟩ | ⟨hne, -⟩
    · rw [h7]; decide
    · exact absurd (by decide) hne
  · obtain ⟨verdict, hv, -, -, -, hpersist⟩ := lenient_integrity 2 0 (accepting_store 3)
      scenario_corrupted scenario_corrupted_check 3 96 scenario_corrupted_reaches_check
      (by decide) (by decide) (by decide) (by decide)
      (by
        intro j h1 h2
        have hlen : scenario_corrupted_check.g.jpeg_len = 11 := by decide
        rw [hlen] at h1
        have hj : 1 ≤ j ∧ j ≤ 2 := by omega
        obtain ⟨hlo, hhi⟩ := hj
        interval_cases j <;> decide)
      (by decide)
    obtain ⟨w', h1, h2, -, h4, -, -, h7⟩ := hpersist rfl (accepting_store_accepts 3) (by decide)
    refine ⟨w', h1, by rw [h2]; decide, ?_, by rw [h4]; decide⟩
    rcases hv with ⟨heq, -⟩ | ⟨-, rfl⟩
    · exact absurd heq (by decide)
    · rw [h7]; decide
  · obtain ⟨-, -, -, -, hsame, -⟩ := lenient_integrity 2 0 (accepting_store 3)
      scenario_a scenario_a_check 3 96 scenario_a_reaches_check_two (by decide) (by decide)
      (by decide) (by decide)
      (by
        intro j h1 h2
        have hlen : scenario_a_check.g.jpeg_len = 11 := by decide
        rw [hlen] at h1
        have hj : 1 ≤ j ∧ j ≤ 2 := by omega
        obtain ⟨hlo, hhi⟩ := hj
        interval_cases j <;> decide)
      (by decide)
    obtain ⟨-, -, -, -, hsame2, -⟩ := lenient_integrity 2 0 (accepting_store 3)
      scenario_wrong_sum scenario_wrong_sum_check 3 97 scenario_wrong_sum_reaches_check
      (by decide) (by decide) (by decide) (by decide)
      (by
        intro j h1 h2
        have hlen : scenario_wrong_sum_check.g.jpeg_len = 11 := by decide
        rw [hlen] at h1
        have hj : 1 ≤ j ∧ j ≤ 2 := by omega
        obtain ⟨hlo, hhi⟩ := hj
        interval_cases j <;> decide)
      (by decide)
    exact (hsame scenario_a_received (by decide) (by decide) (by decide) (by decide)
      (by decide)).trans
      (hsame2 scenario_a_received (by decide) (by decide) (by decide) (by decide)
        (by decide)).symm

/-! ## The counter after a save -/

/-- C9 (amended). A failed save leaves the counter unchanged.  Without a completed,
non-empty payload `save_jpeg_to_sd` returns `-ENODATA` and changes nothing.
With one, and for any answers of the file system: if `fs_open` fails,
`save_jpeg_to_sd` returns its error and the counter is unchanged; if a call of
`fs_write` returns a negative value, the calls before it having returned
counts, `save_jpeg_to_sd` returns that value and the counter is unchanged; if
the open succeeds and the writes return counts that add up to the payload, it
returns 0 and the counter is one more modulo `2 ^ 32`: exactly one more below
`2 ^ 32 - 1`, and 0 from `2 ^ 32 - 1`.  Whenever it returns, the counter has
changed, to one more modulo `2 ^ 32`, exactly when the open and every write
succeeded, and is unchanged otherwise. -/
theorem save_failure_keeps_counter (open_ret : Int) (wr : Nat → Int) (w : World) :
    (w.g.jpeg_complete = false ∨ w.g.jpeg_len = 0 →
      ∀ fuel, save_jpeg_to_sd fuel open_ret wr w = some (- ENODATA, w)) ∧
    (w.g.jpeg_complete = true → w.g.jpeg_len ≠ 0 →
      (open_ret ≠ 0 → ∀ fuel, ∃ w', save_jpeg_to_sd fuel open_ret wr w = some (open_ret, w') ∧
          w'.g.file_counter = w.g.file_counter) ∧
      (open_ret = 0 → ∀ k, (∀ j < k, 0 ≤ wr j) → written_after wr k < w.g.jpeg_len → wr k < 0 →
          ∀ fuel, k < fuel → ∃ w', save_jpeg_to_sd fuel open_ret wr w = some (wr k, w') ∧
            w'.g.file_counter = w.g.file_counter) ∧
      (open_ret = 0 → ∀ n, (∀ j < n, 0 ≤ wr j) → w.g.jpeg_len ≤ written_after wr n →
          ∀ fuel, n < fuel → ∃ w', save_jpeg_to_sd fuel open_ret wr w = some (0, w') ∧
            w'.g.file_counter = (w.g.file_counter + 1) % WORD ∧
            (w.g.file_counter + 1 < WORD → w'.g.file_counter = w.g.file_counter + 1) ∧
            (w.g.file_counter + 1 = WORD → w'.g.file_counter = 0)) ∧
      (∀ fuel r, save_jpeg_to_sd fuel open_ret wr w = some r →
          (r.1 = 0 ∧ r.2.g.file_counter = (w.g.file_counter + 1) % WORD ∧
            r.2.g.file_counter ≠ w.g.file_counter ∧
            (w.g.file_counter + 1 < WORD → r.2.g.file_counter = w.g.file_counter + 1) ∧
            open_ret = 0 ∧
            ∃ n, (∀ j < n, 0 ≤ wr j) ∧ w.g.jpeg_len ≤ written_after wr n) ∨
          (r.1 ≠ 0 ∧ r.2.g.file_counter = w.g.file_counter ∧
            ((open_ret ≠ 0 ∧ r.1 = open_ret) ∨
              (open_ret = 0 ∧ ∃ k, (∀ j < k, 0 ≤ wr j) ∧ written_after wr k < w.g.jpeg_len ∧
                wr k < 0 ∧ r.1 = wr k))))) := by
  have hmod : ∀ c : Nat, (c + 1) % WORD ≠ c := by
    intro c; unfold WORD; omega
  have hexact : ∀ c : Nat, c + 1 < WORD → (c + 1) % WORD = c + 1 :=
    fun c h => Nat.mod_eq_of_lt h
  have hwrap : ∀ c : Nat, c + 1 = WORD → (c + 1) % WORD = 0 := by
    intro c h; rw [h]; exact Nat.mod_self _
  refine ⟨?_, ?_⟩
  · intro hno fuel
    unfold save_jpeg_to_sd
    rcases hno with h | h
    · simp [h]
    · simp [h]
  intro hdata hlen
  refine ⟨?_, ?_, ?_, ?_⟩
  · intro hopen fuel
    exact ⟨_, save_jpeg_to_sd_open_failed fuel open_ret wr w hdata hlen hopen, rfl⟩
  · intro hopen k hok hshort hfail fuel hfuel
    subst hopen
    exact ⟨_, save_jpeg_to_sd_write_failed fuel wr w k hdata hlen hok hshort hfail hfuel, rfl⟩
  · intro hopen n hok hall fuel hfuel
    subst hopen
    obtain ⟨m, -, hm⟩ := save_jpeg_to_sd_complete fuel wr w n hdata hlen hok hall hfuel
    exact ⟨_, hm, rfl, hexact _, hwrap _⟩
  · intro fuel r hrun
    obtain ⟨ret, w'⟩ := r
    by_cases hopen : open_ret = 0
    · subst hopen
      rw [save_jpeg_to_sd_open fuel wr w hdata hlen] at hrun
      cases hloop : write_loop w.g wr fuel 0 0
          (w.fs ++ [.fs_open (photo_filename w.g.file_counter)]) with
      | none => rw [hloop] at hrun; simp at hrun
      | some res =>
        obtain ⟨e, fs'⟩ := res
        rw [hloop] at hrun
        obtain ⟨n, hn, hres⟩ := write_loop_some w.g wr fuel 0 _ e fs' hloop
        rw [Nat.zero_add] at hres
        rcases hres with ⟨he, hall, -⟩ | ⟨he, hneg, hshort, -⟩
        · subst he
          simp only [Option.some.injEq, Prod.mk.injEq] at hrun
          obtain ⟨h1, h2⟩ := hrun
          subst h1 h2
          exact Or.inl ⟨rfl, rfl, hmod _, hexact _, rfl, n,
            fun j hj => (hn j (by omega) (by omega)).1, hall⟩
        · subst he
          simp only [Option.some.injEq, Prod.mk.injEq] at hrun
          obtain ⟨h1, h2⟩ := hrun
          subst h1 h2
          exact Or.inr ⟨by show wr n ≠ 0; omega, rfl, Or.inr ⟨rfl, n,
            fun j hj => (hn j (by omega) (by omega)).1, hshort, hneg, rfl⟩⟩
    · rw [save_jpeg_to_sd_open_failed fuel open_ret wr w hdata hlen hopen] at hrun
      simp only [Option.some.injEq, Prod.mk.injEq] at hrun
      obtain ⟨h1, h2⟩ := hrun
      subst h1 h2
      exact Or.inr ⟨hopen, rfl, Or.inl ⟨hopen, rfl⟩⟩

/-- Witness for C9: a save before anything was received; then the payload of
scenario A when `fs_open` fails with -5, when the first `fs_write` fails with
-5, and when the first `fs_write` takes the three bytes. -/
theorem save_failure_keeps_counter_witness :
    save_jpeg_to_sd 1 0 failing_store scenario_a = some (- ENODATA, scenario_a) ∧
    (∃ w', save_jpeg_to_sd 1 (-5) failing_store scenario_a_received = some (-5, w') ∧
      w'.g.file_counter = scenario_a_received.g.file_counter) ∧
    (∃ w', save_jpeg_to_sd 1 0 failing_store scenario_a_received = some (failing_store 0, w') ∧
      w'.g.file_counter = scenario_a_received.g.file_counter) ∧
    (∃ w', save_jpeg_to_sd 2 0 (fun _ => 3) scenario_a_received = some (0, w') ∧
      w'.g.file_counter = scenario_a_received.g.file_counter + 1) := by
  refine ⟨?_, ?_, ?_, ?_⟩
  · exact (save_failure_keeps_counter 0 failing_store scenario_a).1 (Or.inl (by decide)) 1
  · exact ((save_failure_keeps_counter (-5) failing_store scenario_a_received).2
      (by decide) (by decide)).1 (by decide) 1
  · exact ((save_failure_keeps_counter 0 failing_store scenario_a_received).2
      (by decide) (by decide)).2.1
      rfl 0 (fun j hj => absurd hj (Nat.not_lt_zero j)) (by decide) (by decide) 1 (by decide)
  · obtain ⟨w', h1, -, h3, -⟩ := ((save_failure_keeps_counter 0 (fun _ => 3)
      scenario_a_received).2 (by decide) (by decide)).2.2.1
      rfl 1 (fun _ _ => by decide) (by decide) 2 (by decide)
    exact ⟨w', h1, h3 (by decide)⟩

/-- Counterexample to C9 as stated.  From the counter `2 ^ 32 - 1` a save in which the
open and the one write succeed returns 0 and leaves the counter 0: it has not
increased by one.  And with `fs_open` returning 0 and every `fs_write`
returning 0, no call failing, the save of the payload of scenario A does not
return and the counter is never increased. -/
theorem save_failure_keeps_counter_fails_at_wrap :
    (save_jpeg_to_sd 2 0 (accepting_store 3)
        { scenario_a_received with
          g := { scenario_a_received.g with file_counter := 4294967295 } }).map
      (fun r => (r.1, r.2.g.file_counter)) = some (0, 0) ∧
    (∀ k, 0 ≤ stalled_store k) ∧
    (∀ fuel, save_jpeg_to_sd fuel 0 stalled_store scenario_a_received = none) := by
  refine ⟨by decide, fun _ => Int.le_refl 0, ?_⟩
  intro fuel
  rw [save_jpeg_to_sd_open fuel stalled_store scenario_a_received (by decide) (by decide),
    write_loop_stalls scenario_a_received.g stalled_store (by decide) (fun _ => rfl)]

end CameraCtrl
